import Mathlib

/-!
# Allocation ledger of `Syn::memory_log`

A shallow embedding of the tracking ledger in `src/src/syn_allocator.h` and
`src/src/syn_allocator.cpp`.

* Addresses (`void*`) are natural numbers.
* `uint32_t` values are natural numbers; every store into a `uint32_t` object
  reduces modulo `2 ^ 32` explicitly.
* `std::unordered_map<void*, memory_alloc_info>` is an association list with
  unique keys (`AList`); the order of its entries plays the part of the
  unspecified iteration order of the hash map.
* `SYN_ASSERT` is `assert`: a failing assertion aborts the call, which is
  modelled by the `Except.error` result.
* The report is modelled as text.  The `float` arithmetic of `_fmt_sz` is
  computed exactly over the natural numbers: the conversion of the byte count
  to `float` rounds to a 24 bit significand (ties to even), the division by
  a power of two is exact, and the output with two decimals rounds the exact
  value (ties to even).
* The underlying allocator is outside the repository: the addresses it
  returns and the block size function are parameters, and the calls made to
  it are recorded in `World.heap`.
-/

namespace Syn

/-! ## Data model -/

/-- The `enum class AllocType` of `syn_allocator.h`, lines 58-64. -/
inductive AllocType
  | STL
  | SHARED
  | EXPLICIT
  | NONE
  deriving DecidableEq

/-- The `struct memory_alloc_info` of `syn_allocator.h`, lines 82-113. -/
structure memory_alloc_info where
  m_allocBytes : Nat
  m_allocBlock : Nat
  m_deallocBytes : Nat
  m_deallocBlock : Nat
  m_allocType : AllocType
  m_callerFnc : String
  deriving DecidableEq

/-- The `struct memory_usage` of `syn_allocator.h`, lines 119-141. -/
structure memory_usage where
  m_physicalAlloc : Nat
  m_virtualAlloc : Nat
  m_physicalDealloc : Nat
  m_virtualDealloc : Nat
  deriving DecidableEq

/-- Conversion of an integer value to `uint32_t`. -/
def u32 (x : Nat) : Nat := x % 2 ^ 32

/-- Subtraction of two `uint32_t` values, as in
`usage.m_physicalAlloc - usage.m_physicalDealloc` (`syn_allocator.cpp`,
lines 78-79 and 153-154): the result is again a `uint32_t`. -/
def sub32 (a d : Nat) : Nat := (u32 a + 2 ^ 32 - u32 d) % 2 ^ 32

/-- The default constructor `memory_alloc_info()`. -/
def memory_alloc_info.default : memory_alloc_info :=
  { m_allocBytes := 0, m_allocBlock := 0, m_deallocBytes := 0, m_deallocBlock := 0,
    m_allocType := AllocType.NONE, m_callerFnc := "" }

/-- The default constructor `memory_usage()`: all four counters zero. -/
def memory_usage.zero : memory_usage :=
  { m_physicalAlloc := 0, m_virtualAlloc := 0, m_physicalDealloc := 0, m_virtualDealloc := 0 }

/-- The method `memory_usage::update_alloc`: two `+=` on `uint32_t` members. -/
def memory_usage.update_alloc (u : memory_usage) (_mem_bytes _mem_block : Nat) : memory_usage :=
  { u with
    m_physicalAlloc := (u.m_physicalAlloc + _mem_bytes) % 2 ^ 32
    m_virtualAlloc := (u.m_virtualAlloc + _mem_block) % 2 ^ 32 }

/-- The method `memory_usage::update_dealloc`: two `+=` on `uint32_t` members. -/
def memory_usage.update_dealloc (u : memory_usage) (_mem_bytes _mem_block : Nat) : memory_usage :=
  { u with
    m_physicalDealloc := (u.m_physicalDealloc + _mem_bytes) % 2 ^ 32
    m_virtualDealloc := (u.m_virtualDealloc + _mem_block) % 2 ^ 32 }

/-- The "Difference" of the byte counters as the report computes it
(`m_physicalAlloc - m_physicalDealloc` in `uint32_t`). -/
def memory_usage.differenceBytes (u : memory_usage) : Nat :=
  sub32 u.m_physicalAlloc u.m_physicalDealloc

/-- The "Difference" of the block counters as the report computes it
(`m_virtualAlloc - m_virtualDealloc` in `uint32_t`). -/
def memory_usage.differenceBlock (u : memory_usage) : Nat :=
  sub32 u.m_virtualAlloc u.m_virtualDealloc

/-- The address map `s_memory`. -/
abbrev MemoryMap := AList (fun _ : Nat => memory_alloc_info)

/-- The static members of `class memory_log` (`syn_allocator.h`, lines 183-187).
The array `s_usageType[4]` is indexed by `(int)_alloc_type`, hence by `AllocType`. -/
structure memory_log where
  s_memory : MemoryMap
  s_usageType : AllocType → memory_usage
  s_usageTotal : memory_usage
  s_sz : String
  s_lastLogEntry : String

/-- The result of a failing `SYN_ASSERT`.  `UnknownAddress` is the assertion
`iterator != s_memory.end()`, `CategoryMismatch` is the assertion
`iterator->second.m_allocType == _alloc_type`. -/
inductive AssertFailure
  | UnknownAddress
  | CategoryMismatch
  deriving DecidableEq

namespace memory_log

/-- The state after static initialisation (`syn_allocator.cpp`, lines 19-24). -/
def init : memory_log :=
  { s_memory := ∅
    s_usageType := fun _ => memory_usage.zero
    s_usageTotal := memory_usage.zero
    s_sz := ""
    s_lastLogEntry := "" }

/-- The function `memory_log::insert` (`syn_allocator.cpp`, lines 36-46).
`s_memory[_mem_addr] = ...` creates or overwrites the entry; there is no
assertion on this path.  The two size parameters are `uint32_t`. -/
def insert (s : memory_log) (_mem_addr _alloc_bytes _alloc_block : Nat)
    (_alloc_type : AllocType) (_caller_fnc : String) : memory_log :=
  { s with
    s_memory := s.s_memory.insert _mem_addr
      { m_allocBytes := u32 _alloc_bytes, m_allocBlock := u32 _alloc_block,
        m_deallocBytes := 0, m_deallocBlock := 0,
        m_allocType := _alloc_type, m_callerFnc := _caller_fnc }
    s_usageType := Function.update s.s_usageType _alloc_type
      ((s.s_usageType _alloc_type).update_alloc (u32 _alloc_bytes) (u32 _alloc_block))
    s_usageTotal := s.s_usageTotal.update_alloc (u32 _alloc_bytes) (u32 _alloc_block) }

/-- The function `memory_log::remove` (`syn_allocator.cpp`, lines 50-60).
The entry found is updated in place (`AList.replace` keeps its position). -/
def remove (s : memory_log) (_mem_addr _dealloc_bytes _dealloc_block : Nat)
    (_alloc_type : AllocType) : Except AssertFailure memory_log :=
  match s.s_memory.lookup _mem_addr with
  | none => Except.error AssertFailure.UnknownAddress
  | some info =>
    if info.m_allocType = _alloc_type then
      Except.ok
        { s with
          s_memory := s.s_memory.replace _mem_addr
            { info with
              m_deallocBytes := u32 _dealloc_bytes
              m_deallocBlock := u32 _dealloc_block }
          s_usageType := Function.update s.s_usageType _alloc_type
            ((s.s_usageType _alloc_type).update_dealloc (u32 _dealloc_bytes) (u32 _dealloc_block))
          s_usageTotal := s.s_usageTotal.update_dealloc (u32 _dealloc_bytes) (u32 _dealloc_block) }
    else Except.error AssertFailure.CategoryMismatch

/-- The accessor `memory_log::get_usage_alloc_type`. -/
def get_usage_alloc_type (s : memory_log) (_alloc_type : AllocType) : memory_usage :=
  s.s_usageType _alloc_type

/-- The accessor `memory_log::get_usage_total`. -/
def get_usage_total (s : memory_log) : memory_usage := s.s_usageTotal

/-- The function `memory_log::get_alloc_bytes` (`syn_allocator.cpp`, lines 163-168). -/
def get_alloc_bytes (s : memory_log) (_mem_addr : Nat) : Except AssertFailure Nat :=
  match s.s_memory.lookup _mem_addr with
  | none => Except.error AssertFailure.UnknownAddress
  | some info => Except.ok info.m_allocBytes

/-- The vector `vec_mem` of `memory_log::print_alloc_type` after `std::sort`
and `std::reverse` (`syn_allocator.cpp`, lines 97-111): the keys of the
entries of type `_alloc_type`, collected in iteration order, sorted
ascending and reversed. -/
def vec_mem (s : memory_log) (_alloc_type : AllocType) : List Nat :=
  (List.insertionSort (· ≤ ·)
    ((s.s_memory.entries.filter (fun it => decide (it.2.m_allocType = _alloc_type))).map
      Sigma.fst)).reverse

/-- The loop that fills `out` in `memory_log::print_alloc_type`
(`syn_allocator.cpp`, lines 113-133): one element per rendered row, kept
here as the key together with the `map_entry` the row text is built from.
`s_memory[key]` yields a default-constructed entry for an absent key. -/
def print_alloc_type_rows (s : memory_log) (_alloc_type : AllocType)
    (_omit_deallocated : Bool) : List (Nat × memory_alloc_info) :=
  (vec_mem s _alloc_type).filterMap (fun key =>
    let map_entry := (s.s_memory.lookup key).getD memory_alloc_info.default
    if _omit_deallocated = true ∧ map_entry.m_allocBytes = map_entry.m_deallocBytes ∧
        map_entry.m_allocBlock = map_entry.m_deallocBlock then none
    else some (key, map_entry))

end memory_log

/-! ## Sequences of ledger calls -/

/-- One mutating call on the ledger: `memory_log::insert` or `memory_log::remove`
with its arguments. -/
inductive Call
  | insert (_mem_addr _alloc_bytes _alloc_block : Nat) (_alloc_type : AllocType)
      (_caller_fnc : String)
  | remove (_mem_addr _dealloc_bytes _dealloc_block : Nat) (_alloc_type : AllocType)
  deriving DecidableEq

/-- Performs one call.  `insert` has no failing path; `remove` fails where one
of its assertions fails. -/
def exec (s : memory_log) : Call → Except AssertFailure memory_log
  | Call.insert a b bl t f => Except.ok (s.insert a b bl t f)
  | Call.remove a b bl t => s.remove a b bl t

/-- Performs a sequence of calls in order, stopping at the first failing
assertion. -/
def run (s : memory_log) : List Call → Except AssertFailure memory_log
  | [] => Except.ok s
  | c :: cs =>
    match exec s c with
    | Except.ok s1 => run s1 cs
    | Except.error e => Except.error e

/-! ## Call sequences with unique addresses and matching removes

The definitions of this section do not come from the source: they spell out
the words of the property "outstanding equals the sum over the records not yet
removed", to be compared with the counters the ledger keeps. -/

/-- What an insert recorded: address, bytes, block and category. -/
abbrev LiveRecord := Nat × Nat × Nat × AllocType

/-- The records that are inserted and not yet removed after the calls `cs`,
starting from the not yet removed records `L`. -/
def liveAfter (L : List LiveRecord) : List Call → List LiveRecord
  | [] => L
  | Call.insert a b bl t _ :: cs => liveAfter ((a, b, bl, t) :: L) cs
  | Call.remove a _ _ _ :: cs => liveAfter (L.filter (fun r => decide (r.1 ≠ a))) cs

/-- The records that are inserted and not yet removed after the calls `cs`. -/
def live (cs : List Call) : List LiveRecord := liveAfter [] cs

/-- The sum of the allocated bytes over the records of category `c` in `L`. -/
def liveBytes (c : AllocType) (L : List LiveRecord) : Nat :=
  ((L.filter (fun r => decide (r.2.2.2 = c))).map (fun r => r.2.1)).sum

/-- The sum of the allocated block bytes over the records of category `c` in `L`. -/
def liveBlock (c : AllocType) (L : List LiveRecord) : Nat :=
  ((L.filter (fun r => decide (r.2.2.2 = c))).map (fun r => r.2.2.1)).sum

/-- The calls `cs` insert no address of `seen` and no address twice, and each
remove names the address, bytes, block and category of a record inserted
before it and not yet removed (`L` holds those at the start). -/
def matchedFrom (seen : List Nat) (L : List LiveRecord) : List Call → Bool
  | [] => true
  | Call.insert a b bl t _ :: cs =>
    decide (a ∉ seen) && matchedFrom (a :: seen) ((a, b, bl, t) :: L) cs
  | Call.remove a b bl t :: cs =>
    decide ((a, b, bl, t) ∈ L) && matchedFrom seen (L.filter (fun r => decide (r.1 ≠ a))) cs

/-- A call sequence from the empty ledger in which each address is inserted at
most once and each remove matches a prior insert that is not yet removed. -/
def matched (cs : List Call) : Bool := matchedFrom [] [] cs

/-- What the ledger state `s` knows about the not yet removed records `L`, all
of whose addresses are among `seen`. -/
def LedgerInv (seen : List Nat) (L : List LiveRecord) (s : memory_log) : Prop :=
  (∀ r ∈ L, r.1 ∈ seen) ∧
  (L.map Prod.fst).Nodup ∧
  (∀ r ∈ L, ∃ info, s.s_memory.lookup r.1 = some info ∧ info.m_allocType = r.2.2.2) ∧
  (∀ c, (s.s_usageType c).m_physicalAlloc % 2 ^ 32 =
      ((s.s_usageType c).m_physicalDealloc + liveBytes c L) % 2 ^ 32) ∧
  (∀ c, (s.s_usageType c).m_virtualAlloc % 2 ^ 32 =
      ((s.s_usageType c).m_virtualDealloc + liveBlock c L) % 2 ^ 32)

/-! ## Text formatting of the report

Output through a `std::ostringstream`: `std::setw` applies to the next
output only, the fill character is a blank, lengths count bytes.  Operands of
a chain of `<<` are evaluated left to right (the sources need C++17, where
this order is guaranteed), so each call of `_fmt_sz` is written out before
the next call overwrites the buffer `s_sz`. -/

/-- The text `str` written with `std::setw(w)` and `std::right`. -/
def setw_right (w : Nat) (str : String) : String :=
  String.mk (List.replicate (w - str.utf8ByteSize) ' ') ++ str

/-- The text `str` written with `std::setw(w)` and `std::left`. -/
def setw_left (w : Nat) (str : String) : String :=
  str ++ String.mk (List.replicate (w - str.utf8ByteSize) ' ')

/-- The function `AllocTypeStr` of `syn_allocator.h`, lines 66-76. -/
def AllocTypeStr : AllocType → String
  | AllocType.STL => "AllocType::STL"
  | AllocType.SHARED => "AllocType::SHARED"
  | AllocType.EXPLICIT => "AllocType::EXPLICIT"
  | AllocType.NONE => "AllocType::NONE"

/-- How many low bits the conversion to `float` drops: the bit length of the
value less the 24 bits of the significand. -/
def float_shift : Nat → Nat → Nat
  | 0, _ => 0
  | fuel + 1, n => if n < 2 ^ 24 then 0 else 1 + float_shift fuel (n / 2)

/-- The value of `(float)_bytes` for an unsigned integer: the nearest number
with a 24 bit significand, ties to even.  It is a natural number again. -/
def float_of_uint (n : Nat) : Nat :=
  let sh := float_shift 64 n
  let q := n / 2 ^ sh
  let r := n % 2 ^ sh
  (if 2 ^ sh < 2 * r ∨ (2 * r = 2 ^ sh ∧ q % 2 = 1) then q + 1 else q) * 2 ^ sh

/-- The text of the float `F / 2 ^ k` written with `std::fixed` and
`std::setprecision(2)`: the exact value rounded to hundredths, ties to even.
Division of a float by a power of two is exact. -/
def fixed2 (F k : Nat) : String :=
  let q := F * 100 / 2 ^ k
  let r := F * 100 % 2 ^ k
  let h := if 2 ^ k < 2 * r ∨ (2 * r = 2 ^ k ∧ q % 2 = 1) then q + 1 else q
  toString (h / 100) ++ "." ++ toString (h % 100 / 10) ++ toString (h % 10)

namespace memory_log

/-- The function `memory_log::_fmt_sz` (`syn_allocator.h`, lines 170-180): the
text it stores in `s_sz` and returns.  `mb` is `1024 * 1024` and `1024*mb` is
`2 ^ 30`. -/
def _fmt_sz (_bytes : Nat) : String :=
  if _bytes ≤ 1024 then toString _bytes ++ " B"
  else if _bytes < 1024 * 1024 then fixed2 (float_of_uint _bytes) 10 ++ " K"
  else if _bytes < 1024 * (1024 * 1024) then fixed2 (float_of_uint _bytes) 20 ++ " M"
  else fixed2 (float_of_uint _bytes) 30 ++ " G"

end memory_log

/-- The function `format_mem_addr` (`syn_allocator.cpp`, lines 200-205): the
width applies to the text `"0x"`, the address follows in lower-case
hexadecimal as a `uint64_t`.  The report calls it with the default
`_width = 16`. -/
def format_mem_addr (_mem_addr : Nat) (_width : Nat) : String :=
  setw_right _width "0x" ++ String.mk (Nat.toDigits 16 (_mem_addr % 2 ^ 64))

namespace memory_log

/-- The three lines "Allocated", "Deallocated", "Difference" written from a
`memory_usage` (`syn_allocator.cpp`, lines 76-79 and 151-154); `last` is the
end of the third line, `"\n\n"` in a category section and `"\n"` in the
total section. -/
def usage_text (usage : memory_usage) (last : String) : String :=
  "Allocated:   " ++ setw_right 12 (_fmt_sz usage.m_physicalAlloc) ++
    setw_right 14 (" (" ++ _fmt_sz usage.m_virtualAlloc ++ ")") ++ "\n" ++
  "Deallocated: " ++ setw_right 12 (_fmt_sz usage.m_physicalDealloc) ++
    setw_right 14 (" (" ++ _fmt_sz usage.m_virtualDealloc ++ ")") ++ "\n" ++
  "Difference:  " ++
    setw_right 12 (_fmt_sz (sub32 usage.m_physicalAlloc usage.m_physicalDealloc)) ++
    setw_right 14 (" (" ++ _fmt_sz (sub32 usage.m_virtualAlloc usage.m_virtualDealloc) ++ ")") ++
    last

/-- The text of one row of `memory_log::print_alloc_type` (`syn_allocator.cpp`,
lines 123-129). -/
def row_text (key : Nat) (map_entry : memory_alloc_info) (_omit_deallocated : Bool) : String :=
  setw_right 4 "" ++
  setw_right 90 (map_entry.m_callerFnc ++
    (if map_entry.m_callerFnc = "" then "(no caller function specified)" else "")) ++
  setw_right 4 "" ++ format_mem_addr key 16 ++
  setw_right 12 (_fmt_sz map_entry.m_allocBytes) ++
  setw_right 14 (" (" ++ _fmt_sz map_entry.m_allocBlock ++ ")") ++
  (if _omit_deallocated = false then
    setw_right 12 (_fmt_sz map_entry.m_deallocBytes) ++
      setw_right 14 (" (" ++ _fmt_sz map_entry.m_deallocBlock ++ ")\n")
  else "\n")

/-- The heading line of a category section (`syn_allocator.cpp`, lines 139-146). -/
def header_text (_alloc_type : AllocType) (_omit_deallocated : Bool) : String :=
  setw_left 20 (AllocTypeStr _alloc_type) ++
  setw_left 4 "" ++
  setw_right 49 "CALLING FUNCTION" ++
  setw_right 21 "CALL" ++
  setw_right 27 "MEMORY ADDRESS" ++
  setw_right 26 "ALLOC (BLOCK)" ++
  (if _omit_deallocated = false then setw_right 26 "DEALLOC (BLOCK)\n" else "\n")

/-- The function `memory_log::print_alloc_type` (`syn_allocator.cpp`, lines
91-159): the returned text and the state afterwards.  The vector `out` holds
the texts of `print_alloc_type_rows`.  When `out` is empty nothing is
written and `_fmt_sz` is never called; otherwise the last call of `_fmt_sz`
leaves the block difference of the category in `s_sz`. -/
def print_alloc_type (s : memory_log) (_alloc_type : AllocType) (_omit_deallocated : Bool) :
    String × memory_log :=
  let out := (print_alloc_type_rows s _alloc_type _omit_deallocated).map
    (fun r => row_text r.1 r.2 _omit_deallocated)
  if 0 < out.length then
    let usage := s.get_usage_alloc_type _alloc_type
    (header_text _alloc_type _omit_deallocated ++ String.join out ++ usage_text usage "\n\n",
      { s with s_sz := _fmt_sz (sub32 usage.m_virtualAlloc usage.m_virtualDealloc) })
  else ("", s)

/-- What `memory_log::print_alloc_all` returns, what it writes to `std::cout`,
and the state it leaves. -/
structure PrintAllResult where
  text : String
  console : String
  state : memory_log

/-- The function `memory_log::print_alloc_all` (`syn_allocator.cpp`, lines
64-87).  The loop runs over `STL`, `SHARED`, `EXPLICIT` in this order. -/
def print_alloc_all (s : memory_log) (_omit_deallocated : Bool) (_use_std_out : Bool) :
    PrintAllResult :=
  let r1 := print_alloc_type s AllocType.STL _omit_deallocated
  let r2 := print_alloc_type r1.2 AllocType.SHARED _omit_deallocated
  let r3 := print_alloc_type r2.2 AllocType.EXPLICIT _omit_deallocated
  let total := r3.2.get_usage_total
  let exp := "MEMORY USAGE REPORT\n" ++ r1.1 ++ r2.1 ++ r3.1 ++
    ("TOTAL MEMORY USAGE\n" ++ usage_text total "\n")
  { text := exp
    console := if _use_std_out = true then exp else ""
    state :=
      { r3.2 with
        s_sz := _fmt_sz (sub32 total.m_virtualAlloc total.m_virtualDealloc)
        s_lastLogEntry := exp } }

/-- The rows of the three category sections of `print_alloc_all`, in the order
of the output. -/
def print_alloc_all_rows (s : memory_log) (_omit_deallocated : Bool) :
    List (Nat × memory_alloc_info) :=
  print_alloc_type_rows s AllocType.STL _omit_deallocated ++
  print_alloc_type_rows s AllocType.SHARED _omit_deallocated ++
  print_alloc_type_rows s AllocType.EXPLICIT _omit_deallocated

end memory_log

/-! ## The delegating resource and the explicit wrappers

The underlying allocator is outside the repository.  A call to it is
recorded in a list of `HeapCall`s; the address an allocation returns and
the function `malloc_size_func` are parameters of the operations. -/

/-- The type `insert_func` of `syn_allocator.h`, line 194, as an action on
the ledger. -/
abbrev insert_func := memory_log → Nat → Nat → Nat → AllocType → String → memory_log

/-- The type `remove_func` of `syn_allocator.h`, line 195, as an action on
the ledger. -/
abbrev remove_func :=
  memory_log → Nat → Nat → Nat → AllocType → Except AssertFailure memory_log

/-- A call to the underlying allocator: `m_memory->allocate` (with the
address it returned), `m_memory->deallocate`, a `new` expression (with the
address it returned), `::operator delete` and `::operator delete[]`. -/
inductive HeapCall
  | allocate (ptr _bytes _alignment : Nat)
  | deallocate (_ptr _bytes _alignment : Nat)
  | op_new (ptr : Nat)
  | op_delete (_ptr : Nat)
  | op_delete_array (_ptr : Nat)
  deriving DecidableEq

/-- The ledger together with the calls made to the underlying allocator so
far, oldest first. -/
structure World where
  log : memory_log
  heap : List HeapCall

/-- The members of `class MemoryResource` (`syn_allocator.h`, lines 242-251).
`m_memory` is the address of the upstream resource. -/
structure MemoryResource where
  m_allocType : AllocType
  m_insertFunc : insert_func
  m_removeFunc : remove_func
  m_lastCaller : String
  m_memory : Nat

namespace MemoryResource

/-- The explicit constructor of `MemoryResource` (`syn_allocator.h`, lines
206-215); `m_lastCaller` keeps its default `""`. -/
def construct (_insert_func : insert_func) (_remove_func : remove_func)
    (_malloc_type : AllocType) (_memory : Nat) : MemoryResource :=
  { m_allocType := _malloc_type, m_insertFunc := _insert_func, m_removeFunc := _remove_func,
    m_lastCaller := "", m_memory := _memory }

/-- What `do_allocate` returns, the resource afterwards and the world
afterwards. -/
structure AllocateResult where
  ptr : Nat
  self : MemoryResource
  world : World

/-- The method `MemoryResource::do_allocate` (`syn_allocator.h`, lines
217-225).  `ptr` is the address `m_memory->allocate` returned.  The two
sizes are `size_t` values passed to `uint32_t` parameters. -/
def do_allocate (self : MemoryResource) (malloc_size_func : Nat → Nat) (w : World)
    (_bytes _alignment : Nat) (ptr : Nat) : AllocateResult :=
  { ptr := ptr
    self := self
    world :=
      { log := self.m_insertFunc w.log ptr (u32 _bytes) (u32 (malloc_size_func ptr))
          self.m_allocType self.m_lastCaller
        heap := w.heap ++ [HeapCall.allocate ptr _bytes _alignment] } }

/-- The method `MemoryResource::do_deallocate` (`syn_allocator.h`, lines
227-234).  Its two statements run in order: the call of `m_removeFunc` (line
232), then `m_memory->deallocate` (line 233).  The result is the resource and
the world afterwards; when an assertion in the remove function fails, the
result is that assertion together with the world at the moment of the abort,
in which the second statement has not run. -/
def do_deallocate (self : MemoryResource) (malloc_size_func : Nat → Nat) (w : World)
    (_ptr _bytes _alignment : Nat) :
    Except (AssertFailure × World) (MemoryResource × World) :=
  match self.m_removeFunc w.log _ptr (u32 _bytes) (u32 (malloc_size_func _ptr))
      self.m_allocType with
  | Except.error e => Except.error (e, w)
  | Except.ok log1 =>
    let w1 : World := { log := log1, heap := w.heap }
    Except.ok (self,
      { log := w1.log, heap := w1.heap ++ [HeapCall.deallocate _ptr _bytes _alignment] })

/-- The method `MemoryResource::do_is_equal` (`syn_allocator.h`, line 236):
`this == &_other`, a comparison of the addresses of the two objects. -/
def do_is_equal (this _other : Nat) : Bool := decide (this = _other)

/-- The method `MemoryResource::set_caller_signature` (`syn_allocator.h`, line
239): the assignment from `_caller_sig.c_str()` copies up to the first NUL. -/
def set_caller_signature (self : MemoryResource) (_caller_sig : String) : MemoryResource :=
  { self with
    m_lastCaller := String.mk (_caller_sig.data.takeWhile (fun ch => decide (ch ≠ Char.ofNat 0))) }

end MemoryResource

/-- The `MemoryResource` objects created by `new`, by address. -/
abbrev ResourceStore := AList (fun _ : Nat => MemoryResource)

/-- The member of `class STLMemoryResourceHandler` (`syn_allocator.h`, line
297): the addresses of the resources issued. -/
structure STLMemoryResourceHandler where
  m_rsrcs : List Nat

namespace STLMemoryResourceHandler

/-- The method `STLMemoryResourceHandler::getNewMemoryResource`
(`syn_allocator.h`, lines 283-290).  `ptr` is the address the `new`
expression returned, the address of an object that did not exist before. -/
def getNewMemoryResource (self : STLMemoryResourceHandler) (store : ResourceStore)
    (ptr : Nat) (_in_fnc : insert_func) (_rm_fnc : remove_func) (_alloc_type : AllocType)
    (new_delete_resource : Nat) : Nat × STLMemoryResourceHandler × ResourceStore :=
  (ptr, { m_rsrcs := self.m_rsrcs ++ [ptr] },
    store.insert ptr
      (MemoryResource.construct _in_fnc _rm_fnc _alloc_type new_delete_resource))

end STLMemoryResourceHandler

/-- The function `get_caller_signature` (`syn_allocator.cpp`, lines 185-196),
for arguments whose text fits the buffer of 512 bytes. -/
def get_caller_signature (_c_file _c_line _c_fnc _c_type : String) : String :=
  (_c_file ++ ":" ++ _c_line ++ ": " ++ _c_fnc) ++
    (if _c_type = "" then "" else setw_right 21 _c_type)

/-- The function template `_allocate<T>` (`syn_allocator.h`, lines 449-473),
both overloads: `sizeof_T` is `sizeof(T)`, `ptr` the address the `new`
expression returned, `_c_type` is `"new(...)"` or `"new()"`. -/
def _allocate (malloc_size_func : Nat → Nat) (w : World) (sizeof_T ptr : Nat)
    (_c_file _c_line _c_fnc _c_type : String) : Nat × World :=
  (ptr,
    { log := w.log.insert ptr (u32 sizeof_T) (u32 (malloc_size_func ptr)) AllocType.EXPLICIT
        (get_caller_signature _c_file _c_line _c_fnc _c_type)
      heap := w.heap ++ [HeapCall.op_new ptr] })

/-- The function template `_allocate_n<T>` (`syn_allocator.h`, lines 475-486):
`sizeof(T) * _n` is a `size_t` product, passed to a `uint32_t` parameter. -/
def _allocate_n (malloc_size_func : Nat → Nat) (w : World) (sizeof_T _n ptr : Nat)
    (_c_file _c_line _c_fnc : String) : Nat × World :=
  (ptr,
    { log := w.log.insert ptr (u32 (sizeof_T * _n % 2 ^ 64)) (u32 (malloc_size_func ptr))
        AllocType.EXPLICIT (get_caller_signature _c_file _c_line _c_fnc "new[]")
      heap := w.heap ++ [HeapCall.op_new ptr] })

/-- The function `_deallocate` (`syn_allocator.h`, lines 490-496). -/
def _deallocate (malloc_size_func : Nat → Nat) (w : World) (_ptr : Nat) :
    Except AssertFailure World :=
  match w.log.get_alloc_bytes _ptr with
  | Except.error e => Except.error e
  | Except.ok bytes =>
    match w.log.remove _ptr bytes (u32 (malloc_size_func _ptr)) AllocType.EXPLICIT with
    | Except.error e => Except.error e
    | Except.ok log1 => Except.ok { log := log1, heap := w.heap ++ [HeapCall.op_delete _ptr] }

/-- The function `_deallocate_n` (`syn_allocator.h`, lines 500-506). -/
def _deallocate_n (malloc_size_func : Nat → Nat) (w : World) (_ptr : Nat) :
    Except AssertFailure World :=
  match w.log.get_alloc_bytes _ptr with
  | Except.error e => Except.error e
  | Except.ok bytes =>
    match w.log.remove _ptr bytes (u32 (malloc_size_func _ptr)) AllocType.EXPLICIT with
    | Except.error e => Except.error e
    | Except.ok log1 =>
      Except.ok { log := log1, heap := w.heap ++ [HeapCall.op_delete_array _ptr] }

/-! ## Runs of ledger calls with size lookups

The definitions of this section serve the properties that compare whole
runs.  `ledgerStep` and `runLedger` perform the source functions; the sums
and `dropCaller` spell out the words of the properties. -/

/-- A call on the ledger: `memory_log::insert`, `memory_log::remove` or
`memory_log::get_alloc_bytes` with its arguments. -/
inductive LedgerCall
  | insert (_mem_addr _alloc_bytes _alloc_block : Nat) (_alloc_type : AllocType)
      (_caller_fnc : String)
  | remove (_mem_addr _dealloc_bytes _dealloc_block : Nat) (_alloc_type : AllocType)
  | get_alloc_bytes (_mem_addr : Nat)
  deriving DecidableEq

/-- Performs one call: the state afterwards and the value returned, if the
call returns one. -/
def ledgerStep (s : memory_log) : LedgerCall → Except AssertFailure (memory_log × Option Nat)
  | LedgerCall.insert a b bl t f => Except.ok (s.insert a b bl t f, none)
  | LedgerCall.remove a b bl t =>
    match s.remove a b bl t with
    | Except.ok s1 => Except.ok (s1, none)
    | Except.error e => Except.error e
  | LedgerCall.get_alloc_bytes a =>
    match s.get_alloc_bytes a with
    | Except.ok n => Except.ok (s, some n)
    | Except.error e => Except.error e

/-- What a run of calls did: the state reached, the number of calls that
returned, the values they returned, and the assertion that stopped the run,
if one did. -/
structure RunOutcome where
  state : memory_log
  performed : Nat
  returned : List (Option Nat)
  failure : Option AssertFailure

/-- Performs the calls in order until one fails. -/
def runLedger (s : memory_log) : List LedgerCall → RunOutcome
  | [] => { state := s, performed := 0, returned := [], failure := none }
  | c :: cs =>
    match ledgerStep s c with
    | Except.error e => { state := s, performed := 0, returned := [], failure := some e }
    | Except.ok (s1, v) =>
      { state := (runLedger s1 cs).state
        performed := (runLedger s1 cs).performed + 1
        returned := v :: (runLedger s1 cs).returned
        failure := (runLedger s1 cs).failure }

/-- The call with its caller signature blanked. -/
def dropCaller : LedgerCall → LedgerCall
  | LedgerCall.insert a b bl t _ => LedgerCall.insert a b bl t ""
  | c => c

/-- The record with its caller signature blanked. -/
def memory_alloc_info.dropCaller (info : memory_alloc_info) : memory_alloc_info :=
  { info with m_callerFnc := "" }

/-- The sum of one counter over the four categories. -/
def categorySum (s : memory_log) (field : memory_usage → Nat) : Nat :=
  field (s.s_usageType AllocType.STL) + field (s.s_usageType AllocType.SHARED) +
    field (s.s_usageType AllocType.EXPLICIT) + field (s.s_usageType AllocType.NONE)

/-- The sum of the bytes of the inserts of category `c` among the calls. -/
def insertedBytes (c : AllocType) : List Call → Nat
  | [] => 0
  | Call.insert _ b _ t _ :: cs => (if t = c then b else 0) + insertedBytes c cs
  | Call.remove _ _ _ _ :: cs => insertedBytes c cs

/-- The sum of the bytes of the removes of category `c` among the calls. -/
def removedBytes (c : AllocType) : List Call → Nat
  | [] => 0
  | Call.insert _ _ _ _ _ :: cs => removedBytes c cs
  | Call.remove _ b _ t :: cs => (if t = c then b else 0) + removedBytes c cs

/-- The sum of the block bytes of the inserts of category `c` among the calls. -/
def insertedBlock (c : AllocType) : List Call → Nat
  | [] => 0
  | Call.insert _ _ bl t _ :: cs => (if t = c then bl else 0) + insertedBlock c cs
  | Call.remove _ _ _ _ :: cs => insertedBlock c cs

/-- The sum of the block bytes of the removes of category `c` among the calls. -/
def removedBlock (c : AllocType) : List Call → Nat
  | [] => 0
  | Call.insert _ _ _ _ _ :: cs => removedBlock c cs
  | Call.remove _ _ bl t :: cs => (if t = c then bl else 0) + removedBlock c cs

/-- The sum of a size over the four categories. -/
def overCategories (f : AllocType → Nat) : Nat :=
  f AllocType.STL + f AllocType.SHARED + f AllocType.EXPLICIT + f AllocType.NONE

/-- The three lines of a usage section as the property describes them, not as
the source computes them: the counters are the cumulative sums of the inserted
and of the removed sizes modulo `2^32`, and the Difference is (inserted minus
removed) modulo `2^32`, taken over the integers. -/
def expected_usage_text (insBytes insBlock remBytes remBlock : Nat) (last : String) : String :=
  "Allocated:   " ++ setw_right 12 (memory_log._fmt_sz (insBytes % 2 ^ 32)) ++
    setw_right 14 (" (" ++ memory_log._fmt_sz (insBlock % 2 ^ 32) ++ ")") ++ "\n" ++
  "Deallocated: " ++ setw_right 12 (memory_log._fmt_sz (remBytes % 2 ^ 32)) ++
    setw_right 14 (" (" ++ memory_log._fmt_sz (remBlock % 2 ^ 32) ++ ")") ++ "\n" ++
  "Difference:  " ++
    setw_right 12
      (memory_log._fmt_sz (Int.toNat (((insBytes : Int) - (remBytes : Int)) % 2 ^ 32))) ++
    setw_right 14
      (" (" ++ memory_log._fmt_sz (Int.toNat (((insBlock : Int) - (remBlock : Int)) % 2 ^ 32)) ++
        ")") ++
    last

/-! ## Runs of calls through one resource -/

/-- A call through a `MemoryResource`: `do_allocate` (with the address the
underlying allocator returned) or `do_deallocate`. -/
inductive ResourceCall
  | allocate (_bytes _alignment ptr : Nat)
  | deallocate (_ptr _bytes _alignment : Nat)
  deriving DecidableEq

/-- Performs the calls through the resource in order, stopping at the first
failing assertion: the resource and the world afterwards. -/
def MemoryResource.runCalls (self : MemoryResource) (malloc_size_func : Nat → Nat) (w : World) :
    List ResourceCall → Except (AssertFailure × World) (MemoryResource × World)
  | [] => Except.ok (self, w)
  | ResourceCall.allocate b al p :: cs =>
    MemoryResource.runCalls (self.do_allocate malloc_size_func w b al p).self malloc_size_func
      (self.do_allocate malloc_size_func w b al p).world cs
  | ResourceCall.deallocate p b al :: cs =>
    match self.do_deallocate malloc_size_func w p b al with
    | Except.error e => Except.error e
    | Except.ok (self1, w1) => MemoryResource.runCalls self1 malloc_size_func w1 cs

/-- The function template `_syn_vector<T>` (`syn_allocator.h`, lines 325-332),
up to the construction of the empty vector: a new resource from the pool
with its default arguments, at the address `ptr` the `new` expression
returned, and its caller signature set. -/
def _syn_vector (handler : STLMemoryResourceHandler) (store : ResourceStore) (ptr : Nat)
    (new_delete_resource : Nat) (_c_file _c_line _c_fnc : String) :
    Nat × STLMemoryResourceHandler × ResourceStore :=
  let r := handler.getNewMemoryResource store ptr memory_log.insert memory_log.remove
    AllocType.STL new_delete_resource
  (r.1, r.2.1,
    match r.2.2.lookup r.1 with
    | some rsrc =>
      r.2.2.insert r.1
        (rsrc.set_caller_signature (get_caller_signature _c_file _c_line _c_fnc "Syn::vector<>"))
    | none => r.2.2)

/-- Two ledger states agree in everything but the caller signatures of their
records: the same addresses have records, with the same bytes, block,
deallocation fields and category, and all counters are equal. -/
def CallerEquiv (s1 s2 : memory_log) : Prop :=
  (∀ k, (s1.s_memory.lookup k).map memory_alloc_info.dropCaller =
    (s2.s_memory.lookup k).map memory_alloc_info.dropCaller) ∧
  s1.s_usageType = s2.s_usageType ∧ s1.s_usageTotal = s2.s_usageTotal

end Syn

/-! # Theorems -/

namespace Syn

open memory_log

/-! ## Auxiliary facts about the address map -/

theorem dlookup_kreplace_const (a k : Nat) (b : memory_alloc_info) :
    ∀ l : List (Sigma (fun _ : Nat => memory_alloc_info)),
      List.dlookup k (List.kreplace a b l) =
        if k = a then (List.dlookup a l).map (fun _ => b) else List.dlookup k l := by
  intro l
  induction l with
  | nil => simp [List.kreplace]
  | cons x l ih =>
    obtain ⟨x1, x2⟩ := x
    by_cases hx : a = x1
    · subst hx
      by_cases hk : k = a
      · subst hk
        simp [List.kreplace, List.lookmap_cons_some]
      · have hk2 : k ≠ (⟨a, b⟩ : Sigma (fun _ : Nat => memory_alloc_info)).1 := hk
        have hk3 : k ≠ (⟨a, x2⟩ : Sigma (fun _ : Nat => memory_alloc_info)).1 := hk
        simp [List.kreplace, List.lookmap_cons_some, hk, List.dlookup_cons_ne _ _ hk2,
          List.dlookup_cons_ne _ _ hk3]
    · have : List.kreplace a b (⟨x1, x2⟩ :: l) = ⟨x1, x2⟩ :: List.kreplace a b l := by
        simp [List.kreplace, List.lookmap_cons_none, hx]
      rw [this]
      by_cases hk : k = x1
      · subst hk
        have hka : k ≠ a := fun h => hx h.symm
        simp [hka]
      · have hk2 : k ≠ (⟨x1, x2⟩ : Sigma (fun _ : Nat => memory_alloc_info)).1 := hk
        rw [List.dlookup_cons_ne _ _ hk2, ih]
        by_cases hka : k = a
        · subst hka
          simp [List.dlookup_cons_ne _ _ hk2]
        · simp [hka, List.dlookup_cons_ne _ _ hk2]

theorem lookup_replace (s : MemoryMap) (a k : Nat) (b : memory_alloc_info) :
    (s.replace a b).lookup k =
      if k = a then (s.lookup a).map (fun _ => b) else s.lookup k :=
  dlookup_kreplace_const a k b s.entries

/-- The 32-bit difference is unchanged when the same amount is added (with
wrap-around) to both counters. -/
theorem sub32_add_both (A D x : Nat) :
    sub32 ((A + u32 x) % 2 ^ 32) ((D + u32 x) % 2 ^ 32) = sub32 A D := by
  simp only [sub32, u32]
  norm_num
  omega

/-- What a successful `remove` did, read off the definition. -/
theorem remove_ok_iff (s s1 : memory_log) (a b bl : Nat) (c : AllocType) :
    s.remove a b bl c = Except.ok s1 ↔
      ∃ info, s.s_memory.lookup a = some info ∧ info.m_allocType = c ∧
        s1 = { s with
          s_memory := s.s_memory.replace a
            { info with m_deallocBytes := u32 b, m_deallocBlock := u32 bl }
          s_usageType := Function.update s.s_usageType c
            ((s.s_usageType c).update_dealloc (u32 b) (u32 bl))
          s_usageTotal := s.s_usageTotal.update_dealloc (u32 b) (u32 bl) } := by
  unfold memory_log.remove
  cases hk : s.s_memory.lookup a with
  | none => simp
  | some info =>
    by_cases hc : info.m_allocType = c
    · simp only [hc, if_true, Option.some.injEq, exists_eq_left', true_and]
      constructor
      · intro h
        injection h with h
        exact h.symm
      · intro h
        rw [h]
    · simp [hc]

/-! ## The contracts of `insert`, `remove` and `get_alloc_bytes` -/

/-- C1 (as stated, refuted): from the initial ledger, `insert(0x1000, 40, 48,
EXPLICIT, "f")` leaves an unmatched record at `0x1000`; a second
`insert(0x1000, 8, 8, STL, "g")` does not fail: it returns normally, the
record is replaced and the STL and grand-total allocated counters grow. -/
theorem insert_duplicate_live_address_counterexample :
    (init.insert 0x1000 40 48 AllocType.EXPLICIT "f").s_memory.lookup 0x1000 =
        some ⟨40, 48, 0, 0, AllocType.EXPLICIT, "f"⟩ ∧
    ∃ s1, exec (init.insert 0x1000 40 48 AllocType.EXPLICIT "f")
          (Call.insert 0x1000 8 8 AllocType.STL "g") = Except.ok s1 ∧
      s1.s_memory.lookup 0x1000 = some ⟨8, 8, 0, 0, AllocType.STL, "g"⟩ ∧
      (init.insert 0x1000 40 48 AllocType.EXPLICIT "f").s_usageTotal.m_physicalAlloc = 40 ∧
      s1.s_usageTotal.m_physicalAlloc = 48 ∧
      (s1.s_usageType AllocType.STL).m_physicalAlloc = 8 :=
  ⟨by decide, _, rfl, by decide, by decide, by decide, by decide⟩

/-- C1 (amended): `memory_log::insert` has no failing path.  On an address that
already has a record (matched or not) the call returns normally, the record at
the address is replaced by the new one with zero deallocation fields, the
allocated counters of the category and of the grand total still grow by the
given sizes (in 32-bit arithmetic), and no address gains or loses a record. -/
theorem insert_on_recorded_address (s : memory_log) (a b bl : Nat) (c : AllocType)
    (f : String) (old : memory_alloc_info) (h : s.s_memory.lookup a = some old) :
    exec s (Call.insert a b bl c f) = Except.ok (s.insert a b bl c f) ∧
    (s.insert a b bl c f).s_memory.lookup a = some ⟨u32 b, u32 bl, 0, 0, c, f⟩ ∧
    ((s.insert a b bl c f).s_usageType c).m_physicalAlloc =
      ((s.s_usageType c).m_physicalAlloc + u32 b) % 2 ^ 32 ∧
    ((s.insert a b bl c f).s_usageType c).m_virtualAlloc =
      ((s.s_usageType c).m_virtualAlloc + u32 bl) % 2 ^ 32 ∧
    (s.insert a b bl c f).s_usageTotal.m_physicalAlloc =
      (s.s_usageTotal.m_physicalAlloc + u32 b) % 2 ^ 32 ∧
    (s.insert a b bl c f).s_usageTotal.m_virtualAlloc =
      (s.s_usageTotal.m_virtualAlloc + u32 bl) % 2 ^ 32 ∧
    (∀ k, (s.insert a b bl c f).s_memory.lookup k = none ↔ s.s_memory.lookup k = none) := by
  refine ⟨rfl, ?_, ?_, ?_, rfl, rfl, ?_⟩
  · simp [memory_log.insert, AList.lookup_insert]
  · simp [memory_log.insert, memory_usage.update_alloc]
  · simp [memory_log.insert, memory_usage.update_alloc]
  · intro k
    by_cases hk : k = a
    · subst hk
      simp [memory_log.insert, AList.lookup_insert, h]
    · simp only [memory_log.insert]
      rw [AList.lookup_insert_ne hk]

/-- Witness of `insert_on_recorded_address`: the second insert on `0x1000`. -/
theorem insert_on_recorded_address_witness :
    (init.insert 0x1000 40 48 AllocType.EXPLICIT "f").s_memory.lookup 0x1000 =
        some ⟨40, 48, 0, 0, AllocType.EXPLICIT, "f"⟩ ∧
    ((init.insert 0x1000 40 48 AllocType.EXPLICIT "f").insert 0x1000 8 8 AllocType.STL
        "g").s_memory.lookup 0x1000 = some ⟨u32 8, u32 8, 0, 0, AllocType.STL, "g"⟩ :=
  ⟨by decide,
    (insert_on_recorded_address (init.insert 0x1000 40 48 AllocType.EXPLICIT "f") 0x1000 8 8
      AllocType.STL "g" ⟨40, 48, 0, 0, AllocType.EXPLICIT, "f"⟩ (by decide)).2.1⟩

/-- C2: if the record stored at the address has a category different from `c`,
`memory_log::remove(address, bytes, block, c)` fails on the category assertion,
whatever `bytes` and `block` are. -/
theorem remove_category_mismatch (s : memory_log) (a b bl : Nat) (c : AllocType)
    (info : memory_alloc_info) (h : s.s_memory.lookup a = some info)
    (hc : info.m_allocType ≠ c) :
    s.remove a b bl c = Except.error AssertFailure.CategoryMismatch := by
  simp [memory_log.remove, h, hc]

/-- Witness of `remove_category_mismatch` (Scenario B): `insert(0x2000, 8, 8, STL,
"g")` followed by `remove(0x2000, 8, 8, EXPLICIT)` fails. -/
theorem remove_category_mismatch_witness :
    (init.insert 0x2000 8 8 AllocType.STL "g").remove 0x2000 8 8 AllocType.EXPLICIT =
      Except.error AssertFailure.CategoryMismatch :=
  remove_category_mismatch (init.insert 0x2000 8 8 AllocType.STL "g") 0x2000 8 8
    AllocType.EXPLICIT ⟨8, 8, 0, 0, AllocType.STL, "g"⟩ (by decide) (by decide)

/-- C3: on an address that has no record, `memory_log::remove` fails on the
lookup assertion, whatever the bytes, block and category arguments are. -/
theorem remove_unknown_address (s : memory_log) (a b bl : Nat) (c : AllocType)
    (h : s.s_memory.lookup a = none) :
    s.remove a b bl c = Except.error AssertFailure.UnknownAddress := by
  simp [memory_log.remove, h]

/-- Witness of `remove_unknown_address`: a remove on the empty ledger, and a
remove on an address other than the recorded one. -/
theorem remove_unknown_address_witness :
    init.remove 0x1000 40 48 AllocType.EXPLICIT = Except.error AssertFailure.UnknownAddress ∧
    (init.insert 0x2000 8 8 AllocType.STL "g").remove 0x1000 8 8 AllocType.STL =
      Except.error AssertFailure.UnknownAddress :=
  ⟨remove_unknown_address init 0x1000 40 48 AllocType.EXPLICIT (by decide),
    remove_unknown_address (init.insert 0x2000 8 8 AllocType.STL "g") 0x1000 8 8 AllocType.STL
      (by decide)⟩

/-- C4: `memory_log::get_alloc_bytes(address)` fails (on the lookup assertion)
exactly when the address has no record; after an insert on the address it
returns the requested bytes of that insert, not the block size; inserts on
other addresses and any later successful remove leave its result unchanged.
After `insert(0x1000, 40, 48, EXPLICIT, "f")`, `get_alloc_bytes(0x1000) = 40`. -/
theorem get_alloc_bytes_contract (s : memory_log) (a : Nat) :
    (s.get_alloc_bytes a = Except.error AssertFailure.UnknownAddress ↔
      s.s_memory.lookup a = none) ∧
    ((∃ e, s.get_alloc_bytes a = Except.error e) ↔ s.s_memory.lookup a = none) ∧
    (∀ info, s.s_memory.lookup a = some info →
      s.get_alloc_bytes a = Except.ok info.m_allocBytes) ∧
    (∀ b bl c f, b < 2 ^ 32 → (s.insert a b bl c f).get_alloc_bytes a = Except.ok b) ∧
    (∀ k b bl c f, k ≠ a → (s.insert k b bl c f).get_alloc_bytes a = s.get_alloc_bytes a) ∧
    (∀ k b bl c s1, s.remove k b bl c = Except.ok s1 →
      s1.get_alloc_bytes a = s.get_alloc_bytes a) ∧
    (init.insert 0x1000 40 48 AllocType.EXPLICIT "f").get_alloc_bytes 0x1000 = Except.ok 40 := by
  refine ⟨?_, ?_, ?_, ?_, ?_, ?_, rfl⟩
  · cases h : s.s_memory.lookup a <;> simp [memory_log.get_alloc_bytes, h]
  · cases h : s.s_memory.lookup a <;> simp [memory_log.get_alloc_bytes, h]
  · intro info h
    simp [memory_log.get_alloc_bytes, h]
  · intro b bl c f hb
    have hb1 : u32 b = b := Nat.mod_eq_of_lt hb
    simp [memory_log.get_alloc_bytes, memory_log.insert, AList.lookup_insert, hb1]
  · intro k b bl c f hk
    simp [memory_log.get_alloc_bytes, memory_log.insert, AList.lookup_insert_ne (Ne.symm hk)]
  · intro k b bl c s1 h
    unfold memory_log.remove at h
    cases hk : s.s_memory.lookup k with
    | none => simp [hk] at h
    | some info =>
      simp only [hk] at h
      split at h
      · injection h with h
        subst h
        simp only [memory_log.get_alloc_bytes, lookup_replace]
        by_cases hak : a = k
        · subst hak
          simp [hk]
        · simp [hak]
      · exact absurd h (by simp)

/-- Witness of `get_alloc_bytes_contract`: Scenario A, where the removal of
`0x1000` leaves the recorded size `40` readable. -/
theorem get_alloc_bytes_contract_witness :
    (init.insert 0x1000 40 48 AllocType.EXPLICIT "f").get_alloc_bytes 0x1000 = Except.ok 40 ∧
    ∃ s1, (init.insert 0x1000 40 48 AllocType.EXPLICIT "f").remove 0x1000 40 48
        AllocType.EXPLICIT = Except.ok s1 ∧
      s1.get_alloc_bytes 0x1000 = Except.ok 40 :=
  ⟨(get_alloc_bytes_contract init 0x1000).2.2.2.1 40 48 AllocType.EXPLICIT "f" (by decide),
    _, rfl,
    ((get_alloc_bytes_contract (init.insert 0x1000 40 48 AllocType.EXPLICIT "f")
      0x1000).2.2.2.2.2.1 0x1000 40 48 AllocType.EXPLICIT _ rfl).trans rfl⟩

/-- C5 (as stated, refuted): with the STL allocated-bytes counter at
`4294967295` (after `insert(1, 4294967295, 4294967295, STL, "")`), the
successful `insert(2, 1, 1, STL, "")` does not increase the counters by `1`:
the counters of the category and of the grand total become `0`. -/
theorem insert_counter_increase_counterexample :
    ((init.insert 1 4294967295 4294967295 AllocType.STL "").s_usageType
        AllocType.STL).m_physicalAlloc = 4294967295 ∧
    (((init.insert 1 4294967295 4294967295 AllocType.STL "").insert 2 1 1 AllocType.STL
        "").s_usageType AllocType.STL).m_physicalAlloc = 0 ∧
    (((init.insert 1 4294967295 4294967295 AllocType.STL "").insert 2 1 1 AllocType.STL
        "").s_usageType AllocType.STL).m_physicalAlloc ≠
      ((init.insert 1 4294967295 4294967295 AllocType.STL "").s_usageType
        AllocType.STL).m_physicalAlloc + 1 ∧
    ((init.insert 1 4294967295 4294967295 AllocType.STL "").insert 2 1 1 AllocType.STL
        "").s_usageTotal.m_virtualAlloc ≠
      (init.insert 1 4294967295 4294967295 AllocType.STL "").s_usageTotal.m_virtualAlloc + 1 := by
  decide

/-- C5 (amended): `memory_log::insert(address, bytes, block, category, caller)`
stores at the address a record with exactly those bytes, block, category and
caller and with both deallocation fields zero, leaves the records of other
addresses as they were, adds bytes and block to the allocated counters of that
category and of the grand total modulo `2 ^ 32` (hence exactly, whenever the
sum stays below `2 ^ 32`), and leaves every deallocated counter and the
counters of the other categories unchanged. -/
theorem insert_effect (s : memory_log) (a b bl : Nat) (c : AllocType) (f : String)
    (hb : b < 2 ^ 32) (hbl : bl < 2 ^ 32) :
    (s.insert a b bl c f).s_memory.lookup a = some ⟨b, bl, 0, 0, c, f⟩ ∧
    (∀ k, k ≠ a → (s.insert a b bl c f).s_memory.lookup k = s.s_memory.lookup k) ∧
    ((s.insert a b bl c f).get_usage_alloc_type c).m_physicalAlloc =
      ((s.get_usage_alloc_type c).m_physicalAlloc + b) % 2 ^ 32 ∧
    ((s.insert a b bl c f).get_usage_alloc_type c).m_virtualAlloc =
      ((s.get_usage_alloc_type c).m_virtualAlloc + bl) % 2 ^ 32 ∧
    (s.insert a b bl c f).get_usage_total.m_physicalAlloc =
      (s.get_usage_total.m_physicalAlloc + b) % 2 ^ 32 ∧
    (s.insert a b bl c f).get_usage_total.m_virtualAlloc =
      (s.get_usage_total.m_virtualAlloc + bl) % 2 ^ 32 ∧
    ((s.get_usage_alloc_type c).m_physicalAlloc + b < 2 ^ 32 →
      ((s.insert a b bl c f).get_usage_alloc_type c).m_physicalAlloc =
        (s.get_usage_alloc_type c).m_physicalAlloc + b) ∧
    ((s.get_usage_alloc_type c).m_virtualAlloc + bl < 2 ^ 32 →
      ((s.insert a b bl c f).get_usage_alloc_type c).m_virtualAlloc =
        (s.get_usage_alloc_type c).m_virtualAlloc + bl) ∧
    (s.get_usage_total.m_physicalAlloc + b < 2 ^ 32 →
      (s.insert a b bl c f).get_usage_total.m_physicalAlloc =
        s.get_usage_total.m_physicalAlloc + b) ∧
    (s.get_usage_total.m_virtualAlloc + bl < 2 ^ 32 →
      (s.insert a b bl c f).get_usage_total.m_virtualAlloc =
        s.get_usage_total.m_virtualAlloc + bl) ∧
    (∀ t, ((s.insert a b bl c f).get_usage_alloc_type t).m_physicalDealloc =
        (s.get_usage_alloc_type t).m_physicalDealloc ∧
      ((s.insert a b bl c f).get_usage_alloc_type t).m_virtualDealloc =
        (s.get_usage_alloc_type t).m_virtualDealloc) ∧
    (s.insert a b bl c f).get_usage_total.m_physicalDealloc =
      s.get_usage_total.m_physicalDealloc ∧
    (s.insert a b bl c f).get_usage_total.m_virtualDealloc =
      s.get_usage_total.m_virtualDealloc ∧
    (∀ t, t ≠ c → (s.insert a b bl c f).get_usage_alloc_type t = s.get_usage_alloc_type t) := by
  have hb1 : u32 b = b := Nat.mod_eq_of_lt hb
  have hbl1 : u32 bl = bl := Nat.mod_eq_of_lt hbl
  refine ⟨?_, ?_, ?_, ?_, ?_, ?_, ?_, ?_, ?_, ?_, ?_, ?_, ?_, ?_⟩
  · simp [memory_log.insert, AList.lookup_insert, hb1, hbl1]
  · intro k hk
    simp [memory_log.insert, AList.lookup_insert_ne hk]
  · simp [memory_log.insert, get_usage_alloc_type, memory_usage.update_alloc, hb1]
  · simp [memory_log.insert, get_usage_alloc_type, memory_usage.update_alloc, hbl1]
  · simp [memory_log.insert, get_usage_total, memory_usage.update_alloc, hb1]
  · simp [memory_log.insert, get_usage_total, memory_usage.update_alloc, hbl1]
  · intro h
    have h2 := Nat.mod_eq_of_lt h
    simp only [get_usage_alloc_type] at h2
    simp only [memory_log.insert, get_usage_alloc_type, memory_usage.update_alloc, hb1,
      Function.update_same, h2]
  · intro h
    have h2 := Nat.mod_eq_of_lt h
    simp only [get_usage_alloc_type] at h2
    simp only [memory_log.insert, get_usage_alloc_type, memory_usage.update_alloc, hbl1,
      Function.update_same, h2]
  · intro h
    have h2 := Nat.mod_eq_of_lt h
    simp only [get_usage_total] at h2
    simp only [memory_log.insert, get_usage_total, memory_usage.update_alloc, hb1,
      Function.update_same, h2]
  · intro h
    have h2 := Nat.mod_eq_of_lt h
    simp only [get_usage_total] at h2
    simp only [memory_log.insert, get_usage_total, memory_usage.update_alloc, hbl1,
      Function.update_same, h2]
  · intro t
    by_cases ht : t = c
    · subst ht
      simp [memory_log.insert, get_usage_alloc_type, memory_usage.update_alloc]
    · simp [memory_log.insert, get_usage_alloc_type, Function.update_noteq ht]
  · simp [memory_log.insert, get_usage_total, memory_usage.update_alloc]
  · simp [memory_log.insert, get_usage_total, memory_usage.update_alloc]
  · intro t ht
    simp [memory_log.insert, get_usage_alloc_type, Function.update_noteq ht]

/-- Witness of `insert_effect`: `insert(0x1000, 40, 48, EXPLICIT, "f")` on the
initial ledger. -/
theorem insert_effect_witness :
    (init.insert 0x1000 40 48 AllocType.EXPLICIT "f").s_memory.lookup 0x1000 =
        some ⟨40, 48, 0, 0, AllocType.EXPLICIT, "f"⟩ ∧
    ((init.insert 0x1000 40 48 AllocType.EXPLICIT "f").get_usage_alloc_type
        AllocType.EXPLICIT).m_physicalAlloc =
      ((init.get_usage_alloc_type AllocType.EXPLICIT).m_physicalAlloc + 40) % 2 ^ 32 :=
  ⟨(insert_effect init 0x1000 40 48 AllocType.EXPLICIT "f" (by decide) (by decide)).1,
    (insert_effect init 0x1000 40 48 AllocType.EXPLICIT "f" (by decide) (by decide)).2.2.1⟩

/-- C6 (as stated, refuted): after `insert(1, 4294967295, 4294967295, STL, "")`,
`remove(1, 4294967295, 4294967295, STL)` and `insert(2, 1, 1, STL, "")` the STL
deallocated-bytes counter is `4294967295`; the successful `remove(2, 1, 1, STL)`
does not increase the deallocated counters by `1`: they become `0`. -/
theorem remove_counter_increase_counterexample :
    ∃ s3 s4,
      run init [Call.insert 1 4294967295 4294967295 AllocType.STL "",
        Call.remove 1 4294967295 4294967295 AllocType.STL,
        Call.insert 2 1 1 AllocType.STL ""] = Except.ok s3 ∧
      s3.remove 2 1 1 AllocType.STL = Except.ok s4 ∧
      (s3.s_usageType AllocType.STL).m_physicalDealloc = 4294967295 ∧
      (s4.s_usageType AllocType.STL).m_physicalDealloc = 0 ∧
      (s4.s_usageType AllocType.STL).m_physicalDealloc ≠
        (s3.s_usageType AllocType.STL).m_physicalDealloc + 1 ∧
      s4.s_usageTotal.m_virtualDealloc ≠ s3.s_usageTotal.m_virtualDealloc + 1 :=
  ⟨_, _, rfl, rfl, by decide, by decide, by decide, by decide⟩

/-- C6 (amended): a successful `memory_log::remove(address, bytes, block,
category)` finds a record of that category at the address, sets its
deallocated-bytes and deallocated-block fields to bytes and block and leaves its
allocated fields, category and caller as they were, leaves the records of other
addresses unchanged, adds bytes and block to the deallocated counters of that
category and of the grand total modulo `2 ^ 32` (hence exactly, whenever the
sum stays below `2 ^ 32`), and leaves every allocated counter and the counters
of the other categories unchanged. -/
theorem remove_effect (s s1 : memory_log) (a b bl : Nat) (c : AllocType)
    (hb : b < 2 ^ 32) (hbl : bl < 2 ^ 32) (h : s.remove a b bl c = Except.ok s1) :
    (∃ info, s.s_memory.lookup a = some info ∧ info.m_allocType = c ∧
      s1.s_memory.lookup a =
        some ⟨info.m_allocBytes, info.m_allocBlock, b, bl, info.m_allocType,
          info.m_callerFnc⟩) ∧
    (∀ k, k ≠ a → s1.s_memory.lookup k = s.s_memory.lookup k) ∧
    (s1.get_usage_alloc_type c).m_physicalDealloc =
      ((s.get_usage_alloc_type c).m_physicalDealloc + b) % 2 ^ 32 ∧
    (s1.get_usage_alloc_type c).m_virtualDealloc =
      ((s.get_usage_alloc_type c).m_virtualDealloc + bl) % 2 ^ 32 ∧
    s1.get_usage_total.m_physicalDealloc =
      (s.get_usage_total.m_physicalDealloc + b) % 2 ^ 32 ∧
    s1.get_usage_total.m_virtualDealloc =
      (s.get_usage_total.m_virtualDealloc + bl) % 2 ^ 32 ∧
    ((s.get_usage_alloc_type c).m_physicalDealloc + b < 2 ^ 32 →
      (s1.get_usage_alloc_type c).m_physicalDealloc =
        (s.get_usage_alloc_type c).m_physicalDealloc + b) ∧
    ((s.get_usage_alloc_type c).m_virtualDealloc + bl < 2 ^ 32 →
      (s1.get_usage_alloc_type c).m_virtualDealloc =
        (s.get_usage_alloc_type c).m_virtualDealloc + bl) ∧
    (s.get_usage_total.m_physicalDealloc + b < 2 ^ 32 →
      s1.get_usage_total.m_physicalDealloc = s.get_usage_total.m_physicalDealloc + b) ∧
    (s.get_usage_total.m_virtualDealloc + bl < 2 ^ 32 →
      s1.get_usage_total.m_virtualDealloc = s.get_usage_total.m_virtualDealloc + bl) ∧
    (∀ t, (s1.get_usage_alloc_type t).m_physicalAlloc =
        (s.get_usage_alloc_type t).m_physicalAlloc ∧
      (s1.get_usage_alloc_type t).m_virtualAlloc =
        (s.get_usage_alloc_type t).m_virtualAlloc) ∧
    s1.get_usage_total.m_physicalAlloc = s.get_usage_total.m_physicalAlloc ∧
    s1.get_usage_total.m_virtualAlloc = s.get_usage_total.m_virtualAlloc ∧
    (∀ t, t ≠ c → s1.get_usage_alloc_type t = s.get_usage_alloc_type t) := by
  have hb1 : u32 b = b := Nat.mod_eq_of_lt hb
  have hbl1 : u32 bl = bl := Nat.mod_eq_of_lt hbl
  obtain ⟨info, hlk, hty, rfl⟩ := (remove_ok_iff s s1 a b bl c).1 h
  refine ⟨⟨info, hlk, hty, ?_⟩, ?_, ?_, ?_, ?_, ?_, ?_, ?_, ?_, ?_, ?_, ?_, ?_, ?_⟩
  · simp [lookup_replace, hlk, hb1, hbl1]
  · intro k hk
    simp [lookup_replace, hk]
  · simp [get_usage_alloc_type, memory_usage.update_dealloc, hb1]
  · simp [get_usage_alloc_type, memory_usage.update_dealloc, hbl1]
  · simp [get_usage_total, memory_usage.update_dealloc, hb1]
  · simp [get_usage_total, memory_usage.update_dealloc, hbl1]
  · intro h0
    have h2 := Nat.mod_eq_of_lt h0
    simp only [get_usage_alloc_type] at h2
    simp only [get_usage_alloc_type, memory_usage.update_dealloc, hb1, Function.update_same, h2]
  · intro h0
    have h2 := Nat.mod_eq_of_lt h0
    simp only [get_usage_alloc_type] at h2
    simp only [get_usage_alloc_type, memory_usage.update_dealloc, hbl1, Function.update_same,
      h2]
  · intro h0
    have h2 := Nat.mod_eq_of_lt h0
    simp only [get_usage_total] at h2
    simp only [get_usage_total, memory_usage.update_dealloc, hb1, h2]
  · intro h0
    have h2 := Nat.mod_eq_of_lt h0
    simp only [get_usage_total] at h2
    simp only [get_usage_total, memory_usage.update_dealloc, hbl1, h2]
  · intro t
    by_cases ht : t = c
    · subst ht
      simp [get_usage_alloc_type, memory_usage.update_dealloc]
    · simp [get_usage_alloc_type, Function.update_noteq ht]
  · simp [get_usage_total, memory_usage.update_dealloc]
  · simp [get_usage_total, memory_usage.update_dealloc]
  · intro t ht
    simp [get_usage_alloc_type, Function.update_noteq ht]

/-- Witness of `remove_effect`: Scenario A, `remove(0x1000, 40, 48, EXPLICIT)`
after `insert(0x1000, 40, 48, EXPLICIT, "f")`. -/
theorem remove_effect_witness :
    ∃ s1, (init.insert 0x1000 40 48 AllocType.EXPLICIT "f").remove 0x1000 40 48
        AllocType.EXPLICIT = Except.ok s1 ∧
      (s1.get_usage_alloc_type AllocType.EXPLICIT).m_physicalDealloc =
        (((init.insert 0x1000 40 48 AllocType.EXPLICIT "f").get_usage_alloc_type
          AllocType.EXPLICIT).m_physicalDealloc + 40) % 2 ^ 32 :=
  ⟨_, rfl,
    (remove_effect (init.insert 0x1000 40 48 AllocType.EXPLICIT "f") _ 0x1000 40 48
      AllocType.EXPLICIT (by decide) (by decide) rfl).2.2.1⟩

/-- C8: in every ledger state, for every address, bytes, block, category and
caller, `insert(address, bytes, block, category, caller)` followed by
`remove(address, bytes, block, category)` succeeds and leaves the outstanding
value (the 32-bit difference of allocated and deallocated, for bytes and for
block) of every category and of the grand total equal to its value before the
insert.  From the empty ledger, `insert(0x1000, 40, 48, EXPLICIT, "f")` then
`remove(0x1000, 40, 48, EXPLICIT)` gives an EXPLICIT outstanding of `0`. -/
theorem insert_remove_outstanding (s : memory_log) (a b bl : Nat) (c : AllocType)
    (f : String) :
    (∃ s1, (s.insert a b bl c f).remove a b bl c = Except.ok s1 ∧
      (∀ t, (s1.get_usage_alloc_type t).differenceBytes =
          (s.get_usage_alloc_type t).differenceBytes ∧
        (s1.get_usage_alloc_type t).differenceBlock =
          (s.get_usage_alloc_type t).differenceBlock) ∧
      s1.get_usage_total.differenceBytes = s.get_usage_total.differenceBytes ∧
      s1.get_usage_total.differenceBlock = s.get_usage_total.differenceBlock) ∧
    (∃ s2, (init.insert 0x1000 40 48 AllocType.EXPLICIT "f").remove 0x1000 40 48
        AllocType.EXPLICIT = Except.ok s2 ∧
      (s2.get_usage_alloc_type AllocType.EXPLICIT).differenceBytes = 0 ∧
      (s2.get_usage_alloc_type AllocType.EXPLICIT).differenceBlock = 0) := by
  refine ⟨?_, _, rfl, by decide, by decide⟩
  have hlk : (s.insert a b bl c f).s_memory.lookup a = some ⟨u32 b, u32 bl, 0, 0, c, f⟩ := by
    simp [memory_log.insert, AList.lookup_insert]
  refine ⟨_, (remove_ok_iff _ _ a b bl c).2 ⟨_, hlk, rfl, rfl⟩, ?_, ?_, ?_⟩
  · intro t
    by_cases ht : t = c
    · subst ht
      simp only [get_usage_alloc_type, memory_log.insert, memory_usage.differenceBytes,
        memory_usage.differenceBlock, memory_usage.update_alloc, memory_usage.update_dealloc,
        Function.update_same, sub32_add_both, and_self]
    · simp [get_usage_alloc_type, memory_log.insert, Function.update_noteq ht]
  · simp only [get_usage_total, memory_log.insert, memory_usage.differenceBytes,
      memory_usage.update_alloc, memory_usage.update_dealloc, sub32_add_both]
  · simp only [get_usage_total, memory_log.insert, memory_usage.differenceBlock,
      memory_usage.update_alloc, memory_usage.update_dealloc, sub32_add_both]

/-! ## The report rows -/

/-- The keys collected for a category, before sorting, have no duplicates. -/
theorem collected_keys_nodup (s : memory_log) (t : AllocType) :
    ((s.s_memory.entries.filter (fun it => decide (it.2.m_allocType = t))).map
      Sigma.fst).Nodup := by
  have hk : (s.s_memory.entries.map Sigma.fst).Nodup := s.s_memory.nodupKeys
  exact hk.sublist ((List.filter_sublist _).map _)

/-- A key is in `vec_mem` exactly when the map holds a record of the category
under it. -/
theorem mem_vec_mem (s : memory_log) (t : AllocType) (k : Nat) :
    k ∈ vec_mem s t ↔ ∃ info, s.s_memory.lookup k = some info ∧ info.m_allocType = t := by
  unfold vec_mem
  rw [List.mem_reverse, List.mem_insertionSort, List.mem_map]
  constructor
  · rintro ⟨⟨k1, info⟩, hmem, rfl⟩
    rw [List.mem_filter] at hmem
    refine ⟨info, ?_, by simpa using hmem.2⟩
    exact AList.mem_lookup_iff.2 hmem.1
  · rintro ⟨info, hlk, hty⟩
    refine ⟨⟨k, info⟩, ?_, rfl⟩
    rw [List.mem_filter]
    exact ⟨AList.mem_lookup_iff.1 hlk, by simpa using hty⟩

/-- The vector `vec_mem` is strictly descending. -/
theorem vec_mem_descending (s : memory_log) (t : AllocType) :
    (vec_mem s t).Pairwise (fun x y => y < x) := by
  unfold vec_mem
  rw [List.pairwise_reverse]
  have hsorted := List.sorted_insertionSort (· ≤ ·)
    ((s.s_memory.entries.filter (fun it => decide (it.2.m_allocType = t))).map Sigma.fst)
  have hnodup := (List.perm_insertionSort (· ≤ ·)
    ((s.s_memory.entries.filter (fun it => decide (it.2.m_allocType = t))).map
      Sigma.fst)).nodup_iff.2 (collected_keys_nodup s t)
  exact hsorted.lt_of_le hnodup

/-- The vector `vec_mem` does not depend on the order of the map entries. -/
theorem vec_mem_perm (s s2 : memory_log) (t : AllocType)
    (hp : s2.s_memory.entries.Perm s.s_memory.entries) : vec_mem s2 t = vec_mem s t := by
  unfold vec_mem
  congr 1
  refine List.eq_of_perm_of_sorted (r := (· ≤ ·)) ?_ (List.sorted_insertionSort _ _)
    (List.sorted_insertionSort _ _)
  refine (List.perm_insertionSort _ _).trans (List.Perm.trans ?_ (List.perm_insertionSort _ _).symm)
  exact (hp.filter _).map _

/-- The keys of the rows are a sublist of `vec_mem`. -/
theorem rows_keys_sublist (s : memory_log) (t : AllocType) (om : Bool) :
    ((print_alloc_type_rows s t om).map Prod.fst).Sublist (vec_mem s t) := by
  unfold print_alloc_type_rows
  induction vec_mem s t with
  | nil => simp
  | cons k l ih =>
    rw [List.filterMap_cons]
    split
    · exact ih.cons _
    · rename_i b hb
      dsimp only at hb
      split_ifs at hb
      injection hb with hb
      subst hb
      simpa using ih

/-- Which rows `print_alloc_type` renders. -/
theorem mem_print_alloc_type_rows (s : memory_log) (t : AllocType) (om : Bool) (k : Nat)
    (info : memory_alloc_info) :
    (k, info) ∈ print_alloc_type_rows s t om ↔
      s.s_memory.lookup k = some info ∧ info.m_allocType = t ∧
        ¬(om = true ∧ info.m_allocBytes = info.m_deallocBytes ∧
          info.m_allocBlock = info.m_deallocBlock) := by
  unfold print_alloc_type_rows
  rw [List.mem_filterMap]
  constructor
  · rintro ⟨x, hx, hg⟩
    obtain ⟨e, hlk, hty⟩ := (mem_vec_mem s t x).1 hx
    simp only [hlk, Option.getD_some] at hg
    split_ifs at hg with hc
    injection hg with hg
    injection hg with h1 h2
    subst h1
    subst h2
    exact ⟨hlk, hty, hc⟩
  · rintro ⟨hlk, hty, hc⟩
    refine ⟨k, (mem_vec_mem s t k).2 ⟨info, hlk, hty⟩, ?_⟩
    simp only [hlk, Option.getD_some]
    rw [if_neg hc]

/-- C9: for every ledger state, category and omit flag, the rows produced by
`memory_log::print_alloc_type` are in strictly descending order of address, and
they are the same for every iteration order of the address map (any state whose
map holds the same entries in another order yields the same rows). -/
theorem print_alloc_type_rows_descending (s : memory_log) (t : AllocType) (om : Bool) :
    ((print_alloc_type_rows s t om).map Prod.fst).Pairwise (fun x y => y < x) ∧
    ∀ s2 : memory_log, s2.s_memory.entries.Perm s.s_memory.entries →
      print_alloc_type_rows s2 t om = print_alloc_type_rows s t om := by
  refine ⟨(vec_mem_descending s t).sublist (rows_keys_sublist s t om), ?_⟩
  intro s2 hp
  unfold print_alloc_type_rows
  rw [vec_mem_perm s s2 t hp]
  have hl : ∀ key, s2.s_memory.lookup key = s.s_memory.lookup key :=
    fun key => AList.perm_lookup hp
  simp only [hl]

/-- Witness of `print_alloc_type_rows_descending`: the records `5`, `9`, `7`
inserted in two different orders give the rows `9`, `7`, `5`. -/
theorem print_alloc_type_rows_descending_witness :
    (print_alloc_type_rows
        (((init.insert 5 1 8 AllocType.STL "a").insert 9 2 8 AllocType.STL "b").insert 7 3 8
          AllocType.STL "c") AllocType.STL false).map Prod.fst = [9, 7, 5] ∧
    print_alloc_type_rows
        (((init.insert 7 3 8 AllocType.STL "c").insert 9 2 8 AllocType.STL "b").insert 5 1 8
          AllocType.STL "a") AllocType.STL false =
      print_alloc_type_rows
        (((init.insert 5 1 8 AllocType.STL "a").insert 9 2 8 AllocType.STL "b").insert 7 3 8
          AllocType.STL "c") AllocType.STL false :=
  ⟨by decide,
    (print_alloc_type_rows_descending
      (((init.insert 5 1 8 AllocType.STL "a").insert 9 2 8 AllocType.STL "b").insert 7 3 8
        AllocType.STL "c") AllocType.STL false).2
      (((init.insert 7 3 8 AllocType.STL "c").insert 9 2 8 AllocType.STL "b").insert 5 1 8
        AllocType.STL "a") (by decide)⟩

/-- C10: with `omitFullyDeallocated = true`, a record of the reported category
is left out of the rows if and only if its allocated bytes equal its
deallocated bytes and its allocated block equals its deallocated block; with
`omitFullyDeallocated = false` no record of the category is left out. -/
theorem omit_fully_deallocated_rule (s : memory_log) (t : AllocType) (k : Nat)
    (info : memory_alloc_info) (hlk : s.s_memory.lookup k = some info)
    (hty : info.m_allocType = t) :
    ((k, info) ∉ print_alloc_type_rows s t true ↔
      (info.m_allocBytes = info.m_deallocBytes ∧ info.m_allocBlock = info.m_deallocBlock)) ∧
    (k ∉ (print_alloc_type_rows s t true).map Prod.fst ↔
      (info.m_allocBytes = info.m_deallocBytes ∧ info.m_allocBlock = info.m_deallocBlock)) ∧
    (k, info) ∈ print_alloc_type_rows s t false ∧
    k ∈ (print_alloc_type_rows s t false).map Prod.fst := by
  have key : ∀ om, k ∈ (print_alloc_type_rows s t om).map Prod.fst ↔
      (k, info) ∈ print_alloc_type_rows s t om := by
    intro om
    rw [List.mem_map]
    constructor
    · rintro ⟨⟨k1, e⟩, hmem, rfl⟩
      have h1 := ((mem_print_alloc_type_rows s t om k1 e).1 hmem).1
      rw [hlk] at h1
      injection h1 with h1
      subst h1
      exact hmem
    · intro hmem
      exact ⟨(k, info), hmem, rfl⟩
  have hfalse : (k, info) ∈ print_alloc_type_rows s t false :=
    (mem_print_alloc_type_rows s t false k info).2 ⟨hlk, hty, by simp⟩
  have htrue : (k, info) ∉ print_alloc_type_rows s t true ↔
      (info.m_allocBytes = info.m_deallocBytes ∧ info.m_allocBlock = info.m_deallocBlock) := by
    rw [mem_print_alloc_type_rows]
    simp [hlk, hty]
  refine ⟨htrue, ?_, hfalse, (key false).2 hfalse⟩
  rw [key true]
  exact htrue

/-- Witness of `omit_fully_deallocated_rule` (Scenario D): after
`insert(1, 8, 16, STL, "a")`, `remove(1, 8, 16, STL)` and
`insert(2, 8, 16, STL, "b")`, the report with the omit flag set leaves record
`1` out and renders record `2`. -/
theorem omit_fully_deallocated_rule_witness :
    ∃ s, run init [Call.insert 1 8 16 AllocType.STL "a", Call.remove 1 8 16 AllocType.STL,
        Call.insert 2 8 16 AllocType.STL "b"] = Except.ok s ∧
      (1, (⟨8, 16, 8, 16, AllocType.STL, "a"⟩ : memory_alloc_info)) ∉
        print_alloc_type_rows s AllocType.STL true ∧
      (2, (⟨8, 16, 0, 0, AllocType.STL, "b"⟩ : memory_alloc_info)) ∈
        print_alloc_type_rows s AllocType.STL true ∧
      print_alloc_type_rows s AllocType.STL true = [(2, ⟨8, 16, 0, 0, AllocType.STL, "b"⟩)] :=
  ⟨_, rfl,
    (omit_fully_deallocated_rule _ AllocType.STL 1 ⟨8, 16, 8, 16, AllocType.STL, "a"⟩
      (by decide) rfl).1.2 ⟨rfl, rfl⟩,
    not_not.1 (fun h =>
      absurd ((omit_fully_deallocated_rule _ AllocType.STL 2 ⟨8, 16, 0, 0, AllocType.STL, "b"⟩
        (by decide) rfl).1.1 h) (by decide)),
    by decide⟩

/-! ## The outstanding counters along a call sequence -/

theorem ledgerInv_init : LedgerInv [] [] init := by
  refine ⟨by simp, by simp, by simp, ?_, ?_⟩ <;> intro c <;> rfl

theorem liveBytes_cons (c : AllocType) (r : LiveRecord) (L : List LiveRecord) :
    liveBytes c (r :: L) = (if r.2.2.2 = c then r.2.1 else 0) + liveBytes c L := by
  unfold liveBytes
  by_cases h : r.2.2.2 = c <;> simp [List.filter_cons, h]

theorem liveBlock_cons (c : AllocType) (r : LiveRecord) (L : List LiveRecord) :
    liveBlock c (r :: L) = (if r.2.2.2 = c then r.2.2.1 else 0) + liveBlock c L := by
  unfold liveBlock
  by_cases h : r.2.2.2 = c <;> simp [List.filter_cons, h]

/-- Removing the one record at address `a` lowers the byte sum of its category
by its bytes. -/
theorem liveBytes_filter (c : AllocType) (a b bl : Nat) (t : AllocType) :
    ∀ L : List LiveRecord, (L.map Prod.fst).Nodup → (a, b, bl, t) ∈ L →
      liveBytes c L =
        liveBytes c (L.filter (fun r => decide (r.1 ≠ a))) + (if t = c then b else 0) := by
  intro L
  induction L with
  | nil => intro _ h; simp at h
  | cons r L ih =>
    intro hnd hmem
    rw [List.map_cons, List.nodup_cons] at hnd
    rcases List.mem_cons.1 hmem with h | h
    · subst h
      have hno : L.filter (fun r => decide (r.1 ≠ a)) = L := by
        rw [List.filter_eq_self]
        intro x hx
        have : x.1 ≠ a := by
          intro hxa
          have hm := List.mem_map_of_mem Prod.fst hx
          rw [hxa] at hm
          exact hnd.1 hm
        simpa using this
      rw [List.filter_cons_of_neg (by simp), hno, liveBytes_cons]
      dsimp only
      omega
    · have hra : r.1 ≠ a := by
        intro hra
        have hm := List.mem_map_of_mem Prod.fst h
        rw [← hra] at hm
        exact hnd.1 hm
      rw [List.filter_cons_of_pos (by simpa using hra), liveBytes_cons, liveBytes_cons, ih hnd.2 h]
      omega

/-- Removing the one record at address `a` lowers the block sum of its category
by its block bytes. -/
theorem liveBlock_filter (c : AllocType) (a b bl : Nat) (t : AllocType) :
    ∀ L : List LiveRecord, (L.map Prod.fst).Nodup → (a, b, bl, t) ∈ L →
      liveBlock c L =
        liveBlock c (L.filter (fun r => decide (r.1 ≠ a))) + (if t = c then bl else 0) := by
  intro L
  induction L with
  | nil => intro _ h; simp at h
  | cons r L ih =>
    intro hnd hmem
    rw [List.map_cons, List.nodup_cons] at hnd
    rcases List.mem_cons.1 hmem with h | h
    · subst h
      have hno : L.filter (fun r => decide (r.1 ≠ a)) = L := by
        rw [List.filter_eq_self]
        intro x hx
        have : x.1 ≠ a := by
          intro hxa
          have hm := List.mem_map_of_mem Prod.fst hx
          rw [hxa] at hm
          exact hnd.1 hm
        simpa using this
      rw [List.filter_cons_of_neg (by simp), hno, liveBlock_cons]
      dsimp only
      omega
    · have hra : r.1 ≠ a := by
        intro hra
        have hm := List.mem_map_of_mem Prod.fst h
        rw [← hra] at hm
        exact hnd.1 hm
      rw [List.filter_cons_of_pos (by simpa using hra), liveBlock_cons, liveBlock_cons, ih hnd.2 h]
      omega

theorem ledgerInv_insert (seen : List Nat) (L : List LiveRecord) (s : memory_log)
    (a b bl : Nat) (t : AllocType) (f : String) (ha : a ∉ seen)
    (h : LedgerInv seen L s) :
    LedgerInv (a :: seen) ((a, b, bl, t) :: L) (s.insert a b bl t f) := by
  obtain ⟨hseen, hnd, hlk, hby, hbk⟩ := h
  have hfresh : ∀ r ∈ L, r.1 ≠ a := fun r hr hra => ha (hra ▸ hseen r hr)
  refine ⟨?_, ?_, ?_, ?_, ?_⟩
  · intro r hr
    rcases List.mem_cons.1 hr with h | h
    · subst h
      exact List.mem_cons_self _ _
    · exact List.mem_cons_of_mem _ (hseen r h)
  · rw [List.map_cons, List.nodup_cons]
    refine ⟨?_, hnd⟩
    intro hmem
    obtain ⟨r, hr, hra⟩ := List.mem_map.1 hmem
    exact hfresh r hr hra
  · intro r hr
    rcases List.mem_cons.1 hr with h | h
    · subst h
      refine ⟨⟨u32 b, u32 bl, 0, 0, t, f⟩, ?_, rfl⟩
      simp [memory_log.insert, AList.lookup_insert]
    · obtain ⟨info, h1, h2⟩ := hlk r h
      refine ⟨info, ?_, h2⟩
      simp only [memory_log.insert]
      rw [AList.lookup_insert_ne (hfresh r h)]
      exact h1
  · intro c
    have h0 := hby c
    rw [liveBytes_cons]
    by_cases hc : t = c
    · subst hc
      simp only [memory_log.insert, Function.update_same, memory_usage.update_alloc, u32,
        if_true]
      omega
    · simp only [memory_log.insert, Function.update_noteq (Ne.symm hc), if_neg hc]
      omega
  · intro c
    have h0 := hbk c
    rw [liveBlock_cons]
    by_cases hc : t = c
    · subst hc
      simp only [memory_log.insert, Function.update_same, memory_usage.update_alloc, u32,
        if_true]
      omega
    · simp only [memory_log.insert, Function.update_noteq (Ne.symm hc), if_neg hc]
      omega

theorem ledgerInv_remove (seen : List Nat) (L : List LiveRecord) (s : memory_log)
    (a b bl : Nat) (t : AllocType) (hmem : (a, b, bl, t) ∈ L) (h : LedgerInv seen L s) :
    ∃ s1, s.remove a b bl t = Except.ok s1 ∧
      LedgerInv seen (L.filter (fun r => decide (r.1 ≠ a))) s1 := by
  obtain ⟨hseen, hnd, hlk, hby, hbk⟩ := h
  obtain ⟨info, hinfo, hty⟩ := hlk _ hmem
  refine ⟨_, (remove_ok_iff s _ a b bl t).2 ⟨info, hinfo, hty, rfl⟩, ?_, ?_, ?_, ?_, ?_⟩
  · intro r hr
    exact hseen r (List.mem_filter.1 hr).1
  · exact hnd.sublist ((List.filter_sublist _).map _)
  · intro r hr
    obtain ⟨hrL, hra⟩ := List.mem_filter.1 hr
    have hra1 : r.1 ≠ a := by simpa using hra
    obtain ⟨e, h1, h2⟩ := hlk r hrL
    refine ⟨e, ?_, h2⟩
    simp only [lookup_replace, if_neg hra1]
    exact h1
  · intro c
    have h0 := hby c
    rw [liveBytes_filter c a b bl t L hnd hmem] at h0
    by_cases hc : t = c
    · subst hc
      simp only [Function.update_same, memory_usage.update_dealloc, u32, if_true] at h0 ⊢
      omega
    · simp only [Function.update_noteq (Ne.symm hc), if_neg hc] at h0 ⊢
      omega
  · intro c
    have h0 := hbk c
    rw [liveBlock_filter c a b bl t L hnd hmem] at h0
    by_cases hc : t = c
    · subst hc
      simp only [Function.update_same, memory_usage.update_dealloc, u32, if_true] at h0 ⊢
      omega
    · simp only [Function.update_noteq (Ne.symm hc), if_neg hc] at h0 ⊢
      omega

/-- A matched call sequence runs to the end without a failing assertion and
keeps the invariant. -/
theorem run_matched : ∀ (cs : List Call) (seen : List Nat) (L : List LiveRecord)
    (s : memory_log), matchedFrom seen L cs = true → LedgerInv seen L s →
    ∃ s1 seen1, run s cs = Except.ok s1 ∧ LedgerInv seen1 (liveAfter L cs) s1 := by
  intro cs
  induction cs with
  | nil =>
    intro seen L s _ hinv
    exact ⟨s, seen, rfl, hinv⟩
  | cons c cs ih =>
    intro seen L s hm hinv
    cases c with
    | insert a b bl t f =>
      simp only [matchedFrom, Bool.and_eq_true, decide_eq_true_eq] at hm
      obtain ⟨s1, seen1, h1, h2⟩ :=
        ih (a :: seen) ((a, b, bl, t) :: L) (s.insert a b bl t f) hm.2
          (ledgerInv_insert seen L s a b bl t f hm.1 hinv)
      exact ⟨s1, seen1, by simpa [run, exec] using h1, h2⟩
    | remove a b bl t =>
      simp only [matchedFrom, Bool.and_eq_true, decide_eq_true_eq] at hm
      obtain ⟨s0, h0, hinv0⟩ := ledgerInv_remove seen L s a b bl t hm.1 hinv
      obtain ⟨s1, seen1, h1, h2⟩ := ih seen _ s0 hm.2 hinv0
      exact ⟨s1, seen1, by simpa [run, exec, h0] using h1, h2⟩

/-- The first `n` calls of a matched sequence are a matched sequence. -/
theorem matchedFrom_take : ∀ (cs : List Call) (n : Nat) (seen : List Nat)
    (L : List LiveRecord), matchedFrom seen L cs = true →
    matchedFrom seen L (cs.take n) = true := by
  intro cs
  induction cs with
  | nil => intro n seen L h; simpa using h
  | cons c cs ih =>
    intro n seen L hm
    cases n with
    | zero => rfl
    | succ n =>
      cases c with
      | insert a b bl t f =>
        simp only [List.take_succ_cons, matchedFrom, Bool.and_eq_true, decide_eq_true_eq]
          at hm ⊢
        exact ⟨hm.1, ih n _ _ hm.2⟩
      | remove a b bl t =>
        simp only [List.take_succ_cons, matchedFrom, Bool.and_eq_true, decide_eq_true_eq]
          at hm ⊢
        exact ⟨hm.1, ih n _ _ hm.2⟩

/-- From congruent counters, the 32-bit difference is the sum modulo `2 ^ 32`. -/
theorem sub32_of_mod_eq (A D S : Nat) (h : A % 2 ^ 32 = (D + S) % 2 ^ 32) :
    sub32 A D = S % 2 ^ 32 := by
  simp only [sub32, u32]
  omega

/-- C7 (as stated, refuted): the calls `insert(1, 2^31, 2^31, STL, "")`,
`insert(2, 2^31, 2^31, STL, "")`, `insert(3, 1, 1, STL, "")`,
`remove(3, 1, 1, STL)` use each address once and the remove matches the third
insert; afterwards the records `1` and `2` are not removed and their bytes sum
to `4294967296`, but the STL outstanding value (allocated minus deallocated
counter) is `0`, for bytes and for block. -/
theorem outstanding_live_sum_counterexample :
    matched [Call.insert 1 2147483648 2147483648 AllocType.STL "",
      Call.insert 2 2147483648 2147483648 AllocType.STL "",
      Call.insert 3 1 1 AllocType.STL "", Call.remove 3 1 1 AllocType.STL] = true ∧
    ∃ s, run init [Call.insert 1 2147483648 2147483648 AllocType.STL "",
        Call.insert 2 2147483648 2147483648 AllocType.STL "",
        Call.insert 3 1 1 AllocType.STL "", Call.remove 3 1 1 AllocType.STL] = Except.ok s ∧
      (s.get_usage_alloc_type AllocType.STL).m_physicalAlloc = 1 ∧
      (s.get_usage_alloc_type AllocType.STL).m_physicalDealloc = 1 ∧
      (s.get_usage_alloc_type AllocType.STL).differenceBytes = 0 ∧
      (s.get_usage_alloc_type AllocType.STL).differenceBlock = 0 ∧
      liveBytes AllocType.STL (live [Call.insert 1 2147483648 2147483648 AllocType.STL "",
        Call.insert 2 2147483648 2147483648 AllocType.STL "",
        Call.insert 3 1 1 AllocType.STL "", Call.remove 3 1 1 AllocType.STL]) = 4294967296 ∧
      liveBlock AllocType.STL (live [Call.insert 1 2147483648 2147483648 AllocType.STL "",
        Call.insert 2 2147483648 2147483648 AllocType.STL "",
        Call.insert 3 1 1 AllocType.STL "", Call.remove 3 1 1 AllocType.STL]) = 4294967296 :=
  ⟨by decide, _, rfl, by decide, by decide, by decide, by decide, by decide, by decide⟩

/-- C7 (amended): for every sequence of insert/remove calls from the empty
ledger in which each address is inserted at most once and each remove matches a
prior, not yet removed insert (same address, bytes, block and category), every
call succeeds, and after each call (so after each such remove) and for every
category `c` the outstanding value of `c` (the 32-bit difference of the
allocated and the deallocated counter of `get_usage(c)`) equals the sum of the
allocated bytes over the records of category `c` not yet removed, modulo
`2 ^ 32`; it equals that sum exactly whenever the sum is below `2 ^ 32`.  The
same holds for block bytes. -/
theorem outstanding_eq_live_sum (cs : List Call) (hm : matched cs = true) (n : Nat) :
    ∃ s, run init (cs.take n) = Except.ok s ∧
      ∀ c,
        (s.get_usage_alloc_type c).differenceBytes = liveBytes c (live (cs.take n)) % 2 ^ 32 ∧
        (s.get_usage_alloc_type c).differenceBlock = liveBlock c (live (cs.take n)) % 2 ^ 32 ∧
        (liveBytes c (live (cs.take n)) < 2 ^ 32 →
          (s.get_usage_alloc_type c).differenceBytes = liveBytes c (live (cs.take n))) ∧
        (liveBlock c (live (cs.take n)) < 2 ^ 32 →
          (s.get_usage_alloc_type c).differenceBlock = liveBlock c (live (cs.take n))) := by
  obtain ⟨s, seen, hrun, hinv⟩ :=
    run_matched (cs.take n) [] [] init (matchedFrom_take cs n [] [] hm) ledgerInv_init
  obtain ⟨_, _, _, hby, hbk⟩ := hinv
  refine ⟨s, hrun, fun c => ?_⟩
  have h1 : (s.get_usage_alloc_type c).differenceBytes =
      liveBytes c (live (cs.take n)) % 2 ^ 32 := sub32_of_mod_eq _ _ _ (hby c)
  have h2 : (s.get_usage_alloc_type c).differenceBlock =
      liveBlock c (live (cs.take n)) % 2 ^ 32 := sub32_of_mod_eq _ _ _ (hbk c)
  exact ⟨h1, h2, fun h => h1.trans (Nat.mod_eq_of_lt h), fun h => h2.trans (Nat.mod_eq_of_lt h)⟩

/-- Witness of `outstanding_eq_live_sum`: after `insert(0x1000, 40, 48,
EXPLICIT, "f")`, `insert(0x2000, 8, 8, STL, "g")` and `remove(0x1000, 40, 48,
EXPLICIT)`, the EXPLICIT outstanding is `0` and the STL outstanding is `8`. -/
theorem outstanding_eq_live_sum_witness :
    matched [Call.insert 0x1000 40 48 AllocType.EXPLICIT "f",
      Call.insert 0x2000 8 8 AllocType.STL "g",
      Call.remove 0x1000 40 48 AllocType.EXPLICIT] = true ∧
    liveBytes AllocType.STL (live [Call.insert 0x1000 40 48 AllocType.EXPLICIT "f",
      Call.insert 0x2000 8 8 AllocType.STL "g",
      Call.remove 0x1000 40 48 AllocType.EXPLICIT]) = 8 ∧
    ∃ s, run init (List.take 3 [Call.insert 0x1000 40 48 AllocType.EXPLICIT "f",
        Call.insert 0x2000 8 8 AllocType.STL "g",
        Call.remove 0x1000 40 48 AllocType.EXPLICIT]) = Except.ok s ∧
      ∀ c,
        (s.get_usage_alloc_type c).differenceBytes =
          liveBytes c (live (List.take 3 [Call.insert 0x1000 40 48 AllocType.EXPLICIT "f",
            Call.insert 0x2000 8 8 AllocType.STL "g",
            Call.remove 0x1000 40 48 AllocType.EXPLICIT])) % 2 ^ 32 :=
  ⟨by decide, by decide,
    (outstanding_eq_live_sum [Call.insert 0x1000 40 48 AllocType.EXPLICIT "f",
      Call.insert 0x2000 8 8 AllocType.STL "g",
      Call.remove 0x1000 40 48 AllocType.EXPLICIT] (by decide) 3).imp
      (fun _ h => ⟨h.1, fun c => (h.2 c).1⟩)⟩

/-! ## The size formatting `_fmt_sz` -/

/-- The last character of a text that ends in a blank and a unit letter. -/
theorem getLast_unit (d : String) (u : Char) :
    (d ++ String.mk [' ', u]).data.getLast? = some u := by
  rw [String.data_append]
  simp

/-- The last character of `_fmt_sz` is the unit letter of its branch. -/
theorem fmt_sz_getLast (b : Nat) :
    (_fmt_sz b).data.getLast? =
      some (if b ≤ 1024 then 'B' else if b < 2 ^ 20 then 'K'
        else if b < 2 ^ 30 then 'M' else 'G') := by
  unfold _fmt_sz
  by_cases h1 : b ≤ 1024
  · rw [if_pos h1, if_pos h1]
    exact getLast_unit _ 'B'
  · rw [if_neg h1, if_neg h1]
    by_cases h2 : b < 2 ^ 20
    · rw [if_pos (by omega), if_pos h2]
      exact getLast_unit _ 'K'
    · rw [if_neg (by omega), if_neg h2]
      by_cases h3 : b < 2 ^ 30
      · rw [if_pos (by omega), if_pos h3]
        exact getLast_unit _ 'M'
      · rw [if_neg (by omega), if_neg h3]
        exact getLast_unit _ 'G'

/-- C11: for every byte count `b` (in particular every 32-bit one),
`memory_log::_fmt_sz(b)` is the decimal integer `b` followed by `" B"` iff
`b <= 1024`; it ends in `" K"` iff `1024 < b < 2^20`, in `" M"` iff
`2^20 <= b < 2^30`, and in `" G"` iff `b >= 2^30`, the number before the unit
being the value scaled by `2^10`, `2^20`, `2^30` to two decimals.  So `1024`
renders as bytes, `2^20 - 1` renders in KiB and `2^20` renders in MiB. -/
theorem fmt_sz_unit_thresholds (b : Nat) :
    (b ≤ 1024 ↔ _fmt_sz b = toString b ++ " B") ∧
    ((1024 < b ∧ b < 2 ^ 20) ↔ _fmt_sz b = fixed2 (float_of_uint b) 10 ++ " K") ∧
    ((2 ^ 20 ≤ b ∧ b < 2 ^ 30) ↔ _fmt_sz b = fixed2 (float_of_uint b) 20 ++ " M") ∧
    (2 ^ 30 ≤ b ↔ _fmt_sz b = fixed2 (float_of_uint b) 30 ++ " G") ∧
    (b ≤ 1024 ↔ ∃ d : String, _fmt_sz b = d ++ " B") ∧
    ((1024 < b ∧ b < 2 ^ 20) ↔ ∃ d : String, _fmt_sz b = d ++ " K") ∧
    ((2 ^ 20 ≤ b ∧ b < 2 ^ 30) ↔ ∃ d : String, _fmt_sz b = d ++ " M") ∧
    (2 ^ 30 ≤ b ↔ ∃ d : String, _fmt_sz b = d ++ " G") ∧
    _fmt_sz 1024 = "1024 B" ∧ _fmt_sz 1025 = "1.00 K" ∧
    _fmt_sz (2 ^ 20 - 1) = "1024.00 K" ∧ _fmt_sz (2 ^ 20) = "1.00 M" ∧
    _fmt_sz (2 ^ 30 - 1) = "1024.00 M" ∧ _fmt_sz (2 ^ 30) = "1.00 G" := by
  have hlast := fmt_sz_getLast b
  have key : ∀ (u : Char) (d : String), _fmt_sz b = d ++ String.mk [' ', u] →
      (if b ≤ 1024 then 'B' else if b < 2 ^ 20 then 'K'
        else if b < 2 ^ 30 then 'M' else 'G') = u := by
    intro u d h
    rw [h, getLast_unit] at hlast
    exact (Option.some.inj hlast).symm
  have hB : b ≤ 1024 → _fmt_sz b = toString b ++ " B" := by
    intro h
    simp only [_fmt_sz, if_pos h]
  have hK : 1024 < b ∧ b < 2 ^ 20 → _fmt_sz b = fixed2 (float_of_uint b) 10 ++ " K" := by
    intro h
    have h1 : ¬ b ≤ 1024 := by omega
    have h2 : b < 1024 * 1024 := by omega
    simp only [_fmt_sz, if_neg h1, if_pos h2]
  have hM : 2 ^ 20 ≤ b ∧ b < 2 ^ 30 → _fmt_sz b = fixed2 (float_of_uint b) 20 ++ " M" := by
    intro h
    have h1 : ¬ b ≤ 1024 := by omega
    have h2 : ¬ b < 1024 * 1024 := by omega
    have h3 : b < 1024 * (1024 * 1024) := by omega
    simp only [_fmt_sz, if_neg h1, if_neg h2, if_pos h3]
  have hG : 2 ^ 30 ≤ b → _fmt_sz b = fixed2 (float_of_uint b) 30 ++ " G" := by
    intro h
    have h1 : ¬ b ≤ 1024 := by omega
    have h2 : ¬ b < 1024 * 1024 := by omega
    have h3 : ¬ b < 1024 * (1024 * 1024) := by omega
    simp only [_fmt_sz, if_neg h1, if_neg h2, if_neg h3]
  have cB : ∀ d : String, _fmt_sz b = d ++ " B" → b ≤ 1024 := by
    intro d h
    have := key 'B' d h
    by_contra hc
    rw [if_neg hc] at this
    split_ifs at this <;> exact absurd this (by decide)
  have cK : ∀ d : String, _fmt_sz b = d ++ " K" → 1024 < b ∧ b < 2 ^ 20 := by
    intro d h
    have := key 'K' d h
    split_ifs at this with h1 h2 h3
    · exact absurd this (by decide)
    · omega
    · exact absurd this (by decide)
    · exact absurd this (by decide)
  have cM : ∀ d : String, _fmt_sz b = d ++ " M" → 2 ^ 20 ≤ b ∧ b < 2 ^ 30 := by
    intro d h
    have := key 'M' d h
    split_ifs at this with h1 h2 h3
    · exact absurd this (by decide)
    · exact absurd this (by decide)
    · omega
    · exact absurd this (by decide)
  have cG : ∀ d : String, _fmt_sz b = d ++ " G" → 2 ^ 30 ≤ b := by
    intro d h
    have := key 'G' d h
    split_ifs at this with h1 h2 h3
    · exact absurd this (by decide)
    · exact absurd this (by decide)
    · exact absurd this (by decide)
    · omega
  exact ⟨⟨hB, cB _⟩, ⟨hK, cK _⟩, ⟨hM, cM _⟩, ⟨hG, cG _⟩,
    ⟨fun h => ⟨_, hB h⟩, fun ⟨d, h⟩ => cB d h⟩, ⟨fun h => ⟨_, hK h⟩, fun ⟨d, h⟩ => cK d h⟩,
    ⟨fun h => ⟨_, hM h⟩, fun ⟨d, h⟩ => cM d h⟩, ⟨fun h => ⟨_, hG h⟩, fun ⟨d, h⟩ => cG d h⟩,
    by decide, by decide, by decide, by decide, by decide, by decide⟩

/-! ## The report `print_alloc_all` -/

/-- The rows of a category are the same for two states whose maps hold the
same entries, in whatever order. -/
theorem print_alloc_type_rows_perm (s s2 : memory_log) (t : AllocType) (om : Bool)
    (hp : s2.s_memory.entries.Perm s.s_memory.entries) :
    print_alloc_type_rows s2 t om = print_alloc_type_rows s t om := by
  unfold print_alloc_type_rows
  rw [vec_mem_perm s s2 t hp]
  have hl : ∀ key, s2.s_memory.lookup key = s.s_memory.lookup key :=
    fun key => AList.perm_lookup hp
  simp only [hl]

/-- The text of a category section is determined by the rows and by the
counters of the category. -/
theorem print_alloc_type_text_congr (s s2 : memory_log) (t : AllocType) (om : Bool)
    (hrows : print_alloc_type_rows s2 t om = print_alloc_type_rows s t om)
    (husage : s2.s_usageType t = s.s_usageType t) :
    (print_alloc_type s2 t om).1 = (print_alloc_type s t om).1 := by
  unfold print_alloc_type
  simp only [hrows, get_usage_alloc_type, husage]
  split <;> rfl

/-- The function `print_alloc_type` changes at most the buffer `s_sz`. -/
theorem print_alloc_type_state (s : memory_log) (t : AllocType) (om : Bool) :
    (print_alloc_type s t om).2.s_memory = s.s_memory ∧
    (print_alloc_type s t om).2.s_usageType = s.s_usageType ∧
    (print_alloc_type s t om).2.s_usageTotal = s.s_usageTotal ∧
    (print_alloc_type s t om).2.s_lastLogEntry = s.s_lastLogEntry := by
  unfold print_alloc_type
  dsimp only
  split <;> exact ⟨rfl, rfl, rfl, rfl⟩

/-- The text of a category section for states with the same entries and the
same counters of the category. -/
theorem print_alloc_type_text_perm (s s2 : memory_log) (t : AllocType) (om : Bool)
    (hp : s2.s_memory.entries.Perm s.s_memory.entries)
    (husage : s2.s_usageType = s.s_usageType) :
    (print_alloc_type s2 t om).1 = (print_alloc_type s t om).1 :=
  print_alloc_type_text_congr s s2 t om (print_alloc_type_rows_perm s s2 t om hp)
    (congrFun husage t)

/-- The text of the report, section by section, read from the state the call
starts in. -/
theorem print_alloc_all_text (s : memory_log) (om u : Bool) :
    (print_alloc_all s om u).text =
      "MEMORY USAGE REPORT\n" ++ (print_alloc_type s AllocType.STL om).1 ++
        (print_alloc_type s AllocType.SHARED om).1 ++
        (print_alloc_type s AllocType.EXPLICIT om).1 ++
        ("TOTAL MEMORY USAGE\n" ++ usage_text s.get_usage_total "\n") := by
  obtain ⟨m1, u1, t1, _⟩ := print_alloc_type_state s AllocType.STL om
  obtain ⟨m2, u2, t2, _⟩ :=
    print_alloc_type_state (print_alloc_type s AllocType.STL om).2 AllocType.SHARED om
  obtain ⟨m3, u3, t3, _⟩ :=
    print_alloc_type_state
      (print_alloc_type (print_alloc_type s AllocType.STL om).2 AllocType.SHARED om).2
      AllocType.EXPLICIT om
  have e2 : (print_alloc_type (print_alloc_type s AllocType.STL om).2 AllocType.SHARED om).1 =
      (print_alloc_type s AllocType.SHARED om).1 :=
    print_alloc_type_text_perm _ _ _ _ (by rw [m1]) u1
  have e3 : (print_alloc_type
      (print_alloc_type (print_alloc_type s AllocType.STL om).2 AllocType.SHARED om).2
      AllocType.EXPLICIT om).1 = (print_alloc_type s AllocType.EXPLICIT om).1 :=
    print_alloc_type_text_perm _ _ _ _ (by rw [m2, m1]) (by rw [u2, u1])
  simp only [print_alloc_all, e2, e3, get_usage_total, t3, t2, t1]

/-- The state after the report: the map and the counters are those before. -/
theorem print_alloc_all_state (s : memory_log) (om u : Bool) :
    (print_alloc_all s om u).state =
      { s with
        s_sz := _fmt_sz s.s_usageTotal.differenceBlock
        s_lastLogEntry := (print_alloc_all s om u).text } := by
  obtain ⟨m1, u1, t1, _⟩ := print_alloc_type_state s AllocType.STL om
  obtain ⟨m2, u2, t2, _⟩ :=
    print_alloc_type_state (print_alloc_type s AllocType.STL om).2 AllocType.SHARED om
  obtain ⟨m3, u3, t3, _⟩ :=
    print_alloc_type_state
      (print_alloc_type (print_alloc_type s AllocType.STL om).2 AllocType.SHARED om).2
      AllocType.EXPLICIT om
  simp only [print_alloc_all, get_usage_total, memory_usage.differenceBlock, m3, m2, m1, u3, u2,
    u1, t3, t2, t1]

/-- C12: in every ledger state and for every choice of flags, a second call of
`memory_log::print_alloc_all` with the same omit flag, made right after the
first, returns the same text; and the text is the same for any two states with
the same records and counters, whatever their cached last report, their
formatting buffer and the order of their map entries. -/
theorem print_alloc_all_idempotent (s : memory_log) (om u1 u2 : Bool) :
    (print_alloc_all (print_alloc_all s om u1).state om u2).text =
      (print_alloc_all s om u1).text ∧
    ∀ s2 : memory_log, s2.s_memory.entries.Perm s.s_memory.entries →
      s2.s_usageType = s.s_usageType → s2.s_usageTotal = s.s_usageTotal →
      (print_alloc_all s2 om u2).text = (print_alloc_all s om u1).text := by
  have main : ∀ s2 : memory_log, s2.s_memory.entries.Perm s.s_memory.entries →
      s2.s_usageType = s.s_usageType → s2.s_usageTotal = s.s_usageTotal →
      (print_alloc_all s2 om u2).text = (print_alloc_all s om u1).text := by
    intro s2 hp hu ht
    rw [print_alloc_all_text, print_alloc_all_text,
      print_alloc_type_text_perm s s2 AllocType.STL om hp hu,
      print_alloc_type_text_perm s s2 AllocType.SHARED om hp hu,
      print_alloc_type_text_perm s s2 AllocType.EXPLICIT om hp hu]
    simp only [get_usage_total, ht]
  refine ⟨main _ ?_ ?_ ?_, main⟩
  · rw [print_alloc_all_state]
  · rw [print_alloc_all_state]
  · rw [print_alloc_all_state]

/-- Witness of `print_alloc_all_idempotent`: the same two records inserted in
either order, with different cached reports, give the same report text. -/
theorem print_alloc_all_idempotent_witness :
    (print_alloc_all
        { (init.insert 9 2 8 AllocType.STL "b").insert 5 1 8 AllocType.EXPLICIT "a" with
          s_lastLogEntry := "old report" } false true).text =
      (print_alloc_all
        ((init.insert 5 1 8 AllocType.EXPLICIT "a").insert 9 2 8 AllocType.STL "b")
        false false).text :=
  (print_alloc_all_idempotent
    ((init.insert 5 1 8 AllocType.EXPLICIT "a").insert 9 2 8 AllocType.STL "b") false false
    true).2
    { (init.insert 9 2 8 AllocType.STL "b").insert 5 1 8 AllocType.EXPLICIT "a" with
      s_lastLogEntry := "old report" } (by decide)
    (funext fun c => by cases c <;> decide) (by decide)

/-- The report text does not read the formatting buffer `s_sz`. -/
theorem print_alloc_all_text_sz (s : memory_log) (om u : Bool) (z : String) :
    (print_alloc_all { s with s_sz := z } om u).text = (print_alloc_all s om u).text := by
  rw [print_alloc_all_text, print_alloc_all_text,
    print_alloc_type_text_perm s { s with s_sz := z } AllocType.STL om (List.Perm.refl _) rfl,
    print_alloc_type_text_perm s { s with s_sz := z } AllocType.SHARED om (List.Perm.refl _) rfl,
    print_alloc_type_text_perm s { s with s_sz := z } AllocType.EXPLICIT om (List.Perm.refl _)
      rfl]
  rfl

/-- C13: `memory_log::print_alloc_all` leaves the address map (every record) and
every category and grand-total counter unchanged; the only ledger state it
changes is the cached last report, which afterwards equals the text it
returns.  The one other member written is `s_sz`, the private buffer in
which `_fmt_sz` hands back its text (afterwards the last formatted size); it
is no ledger state: it is written before it is read, so the report text and the
state after the call are the same whatever it held, and `insert`, `remove` and
`get_alloc_bytes` neither read nor write it. -/
theorem print_alloc_all_frame (s : memory_log) (om u : Bool) :
    (print_alloc_all s om u).state.s_memory = s.s_memory ∧
    (∀ k, (print_alloc_all s om u).state.s_memory.lookup k = s.s_memory.lookup k) ∧
    (∀ c, (print_alloc_all s om u).state.get_usage_alloc_type c = s.get_usage_alloc_type c) ∧
    (print_alloc_all s om u).state.get_usage_total = s.get_usage_total ∧
    (print_alloc_all s om u).state.s_lastLogEntry = (print_alloc_all s om u).text ∧
    (print_alloc_all s om u).state.s_sz = _fmt_sz s.s_usageTotal.differenceBlock ∧
    (print_alloc_all s om u).state =
      { s with
        s_sz := _fmt_sz s.s_usageTotal.differenceBlock
        s_lastLogEntry := (print_alloc_all s om u).text } ∧
    (∀ z, (print_alloc_all { s with s_sz := z } om u).text = (print_alloc_all s om u).text) ∧
    (∀ z, (print_alloc_all { s with s_sz := z } om u).state = (print_alloc_all s om u).state) ∧
    (∀ z a b bl c f,
      memory_log.insert { s with s_sz := z } a b bl c f = { s.insert a b bl c f with s_sz := z }) ∧
    (∀ z a b bl c,
      memory_log.remove { s with s_sz := z } a b bl c =
        match s.remove a b bl c with
        | Except.ok s1 => Except.ok { s1 with s_sz := z }
        | Except.error e => Except.error e) ∧
    (∀ z a, memory_log.get_alloc_bytes { s with s_sz := z } a = s.get_alloc_bytes a) := by
  have h := print_alloc_all_state s om u
  refine ⟨?_, ?_, ?_, ?_, ?_, ?_, h, print_alloc_all_text_sz s om u, ?_, ?_, ?_, ?_⟩
  · rw [h]
  · intro k
    rw [h]
  · intro c
    rw [h]
    rfl
  · rw [h]
    rfl
  · conv_lhs => rw [h]
  · rw [h]
  · intro z
    rw [print_alloc_all_state, print_alloc_all_state, print_alloc_all_text_sz]
  · intro z a b bl c f
    rfl
  · intro z a b bl c
    simp only [memory_log.remove]
    cases s.s_memory.lookup a with
    | none => rfl
    | some info =>
      dsimp only
      split_ifs <;> rfl
  · intro z a
    rfl

/-- The text of a category section in terms of its rows. -/
theorem print_alloc_type_text_rows (s : memory_log) (t : AllocType) (om : Bool) :
    (print_alloc_type s t om).1 =
      if print_alloc_type_rows s t om = [] then ""
      else header_text t om ++
        String.join ((print_alloc_type_rows s t om).map (fun r => row_text r.1 r.2 om)) ++
        usage_text (s.get_usage_alloc_type t) "\n\n" := by
  unfold print_alloc_type
  dsimp only
  by_cases h : print_alloc_type_rows s t om = []
  · simp [h]
  · have hl : 0 < ((print_alloc_type_rows s t om).map (fun r => row_text r.1 r.2 om)).length := by
      rw [List.length_map]
      exact List.length_pos.2 h
    rw [if_pos hl, if_neg h]

set_option maxRecDepth 1000000 in
/-- C14 (as stated, refuted): in the ledger with one `NONE` record and one
`EXPLICIT` record, the report with `omitFullyDeallocated = false` contains
neither the aggregate lines of `STL` (a category without record rows) nor
those of `NONE` (whose record is never reported); the `STL` section is the
empty text. -/
theorem category_lines_counterexample :
    (print_alloc_type ((init.insert 1 8 16 AllocType.NONE "n").insert 0x1000 40 48
        AllocType.EXPLICIT "f") AllocType.STL false).1 = "" ∧
    (¬ ∃ pre post : String,
      (print_alloc_all ((init.insert 1 8 16 AllocType.NONE "n").insert 0x1000 40 48
          AllocType.EXPLICIT "f") false false).text =
        pre ++ usage_text (((init.insert 1 8 16 AllocType.NONE "n").insert 0x1000 40 48
          AllocType.EXPLICIT "f").get_usage_alloc_type AllocType.STL) "\n\n" ++ post) ∧
    (¬ ∃ pre post : String,
      (print_alloc_all ((init.insert 1 8 16 AllocType.NONE "n").insert 0x1000 40 48
          AllocType.EXPLICIT "f") false false).text =
        pre ++ usage_text (((init.insert 1 8 16 AllocType.NONE "n").insert 0x1000 40 48
          AllocType.EXPLICIT "f").get_usage_alloc_type AllocType.NONE) "\n\n" ++ post) := by
  refine ⟨by decide, ?_, ?_⟩
  · rintro ⟨pre, post, h⟩
    have hin : List.IsInfix
        (usage_text (((init.insert 1 8 16 AllocType.NONE "n").insert 0x1000 40 48
          AllocType.EXPLICIT "f").get_usage_alloc_type AllocType.STL) "\n\n").data
        (print_alloc_all ((init.insert 1 8 16 AllocType.NONE "n").insert 0x1000 40 48
          AllocType.EXPLICIT "f") false false).text.data :=
      ⟨pre.data, post.data, by rw [h, String.data_append, String.data_append]⟩
    exact absurd hin (by decide)
  · rintro ⟨pre, post, h⟩
    have hin : List.IsInfix
        (usage_text (((init.insert 1 8 16 AllocType.NONE "n").insert 0x1000 40 48
          AllocType.EXPLICIT "f").get_usage_alloc_type AllocType.NONE) "\n\n").data
        (print_alloc_all ((init.insert 1 8 16 AllocType.NONE "n").insert 0x1000 40 48
          AllocType.EXPLICIT "f") false false).text.data :=
      ⟨pre.data, post.data, by rw [h, String.data_append, String.data_append]⟩
    exact absurd hin (by decide)

/-- C14 (amended): for every ledger state and every category among `STL`,
`SHARED` and `EXPLICIT` that has at least one record, the report produced with
`omitFullyDeallocated = false` contains that category's aggregate Allocated /
Deallocated / Difference lines, rendered from `get_usage(category)`; they end
the section of the category, after its heading and its rows. -/
theorem category_lines_in_report (s : memory_log) (c : AllocType) (u : Bool) (k : Nat)
    (info : memory_alloc_info) (hc : c ≠ AllocType.NONE)
    (hlk : s.s_memory.lookup k = some info) (hty : info.m_allocType = c) :
    (print_alloc_type s c false).1 =
      header_text c false ++
        String.join ((print_alloc_type_rows s c false).map (fun r => row_text r.1 r.2 false)) ++
        usage_text (s.get_usage_alloc_type c) "\n\n" ∧
    ∃ pre post : String,
      (print_alloc_all s false u).text =
        pre ++ usage_text (s.get_usage_alloc_type c) "\n\n" ++ post := by
  have hmem : (k, info) ∈ print_alloc_type_rows s c false :=
    (mem_print_alloc_type_rows s c false k info).2 ⟨hlk, hty, by simp⟩
  have hne : print_alloc_type_rows s c false ≠ [] := List.ne_nil_of_mem hmem
  have hsec := print_alloc_type_text_rows s c false
  rw [if_neg hne] at hsec
  refine ⟨hsec, ?_⟩
  rw [print_alloc_all_text]
  cases c with
  | STL =>
    exact ⟨"MEMORY USAGE REPORT\n" ++ (header_text AllocType.STL false ++
        String.join ((print_alloc_type_rows s AllocType.STL false).map
          (fun r => row_text r.1 r.2 false))),
      (print_alloc_type s AllocType.SHARED false).1 ++
        ((print_alloc_type s AllocType.EXPLICIT false).1 ++
          ("TOTAL MEMORY USAGE\n" ++ usage_text s.get_usage_total "\n")),
      by rw [hsec]; simp only [String.append_assoc]⟩
  | SHARED =>
    exact ⟨"MEMORY USAGE REPORT\n" ++ (print_alloc_type s AllocType.STL false).1 ++
        (header_text AllocType.SHARED false ++
        String.join ((print_alloc_type_rows s AllocType.SHARED false).map
          (fun r => row_text r.1 r.2 false))),
      (print_alloc_type s AllocType.EXPLICIT false).1 ++
          ("TOTAL MEMORY USAGE\n" ++ usage_text s.get_usage_total "\n"),
      by rw [hsec]; simp only [String.append_assoc]⟩
  | EXPLICIT =>
    exact ⟨"MEMORY USAGE REPORT\n" ++ (print_alloc_type s AllocType.STL false).1 ++
        (print_alloc_type s AllocType.SHARED false).1 ++
        (header_text AllocType.EXPLICIT false ++
        String.join ((print_alloc_type_rows s AllocType.EXPLICIT false).map
          (fun r => row_text r.1 r.2 false))),
      "TOTAL MEMORY USAGE\n" ++ usage_text s.get_usage_total "\n",
      by rw [hsec]; simp only [String.append_assoc]⟩
  | NONE => exact absurd rfl hc

/-- Witness of `category_lines_in_report`: the `EXPLICIT` lines of the ledger
with one `NONE` record and one `EXPLICIT` record. -/
theorem category_lines_in_report_witness :
    ∃ pre post : String,
      (print_alloc_all ((init.insert 1 8 16 AllocType.NONE "n").insert 0x1000 40 48
          AllocType.EXPLICIT "f") false false).text =
        pre ++ usage_text (((init.insert 1 8 16 AllocType.NONE "n").insert 0x1000 40 48
          AllocType.EXPLICIT "f").get_usage_alloc_type AllocType.EXPLICIT) "\n\n" ++ post :=
  (category_lines_in_report ((init.insert 1 8 16 AllocType.NONE "n").insert 0x1000 40 48
    AllocType.EXPLICIT "f") AllocType.EXPLICIT false 0x1000
    ⟨40, 48, 0, 0, AllocType.EXPLICIT, "f"⟩ (by decide) (by decide) rfl).2

/-- The rows of a category have no duplicates. -/
theorem print_alloc_type_rows_nodup (s : memory_log) (t : AllocType) (om : Bool) :
    ((print_alloc_type_rows s t om).map Prod.fst).Nodup :=
  (((vec_mem_descending s t).sublist (rows_keys_sublist s t om)).imp
    (fun h => (Nat.ne_of_gt h)))

/-- A key among the rows of a category has a record of that category. -/
theorem key_mem_rows (s : memory_log) (t : AllocType) (om : Bool) (k : Nat)
    (info : memory_alloc_info) (hlk : s.s_memory.lookup k = some info)
    (h : k ∈ (print_alloc_type_rows s t om).map Prod.fst) : info.m_allocType = t := by
  obtain ⟨⟨k1, e⟩, hmem, rfl⟩ := List.mem_map.1 h
  obtain ⟨h1, h2, _⟩ := (mem_print_alloc_type_rows s t om k1 e).1 hmem
  rw [hlk] at h1
  injection h1 with h1
  rw [h1]
  exact h2

/-- The number of rows of a category under a given address that has a record. -/
theorem count_rows (s : memory_log) (t : AllocType) (k : Nat) (info : memory_alloc_info)
    (hlk : s.s_memory.lookup k = some info) :
    ((print_alloc_type_rows s t false).map Prod.fst).count k =
        (if info.m_allocType = t then 1 else 0) := by
  by_cases hty : info.m_allocType = t
  · have hmem : (k, info) ∈ print_alloc_type_rows s t false :=
      (mem_print_alloc_type_rows s t false k info).2 ⟨hlk, hty, by simp⟩
    rw [if_pos hty]
    exact List.count_eq_one_of_mem (print_alloc_type_rows_nodup s t false)
        (List.mem_map_of_mem Prod.fst hmem)
  · rw [if_neg hty]
    apply List.count_eq_zero_of_not_mem
    intro hmem
    exact hty (key_mem_rows s t false k info hlk hmem)

set_option maxRecDepth 1000000 in
/-- C15 (as stated, refuted): the ledger after `insert(1, 8, 16, NONE, "n")`
holds a record at address `1`, but the report with
`omitFullyDeallocated = false` has no row at all: it consists of the title and
the total section. -/
theorem report_covers_categories_counterexample :
    (init.insert 1 8 16 AllocType.NONE "n").s_memory.lookup 1 =
      some ⟨8, 16, 0, 0, AllocType.NONE, "n"⟩ ∧
    print_alloc_all_rows (init.insert 1 8 16 AllocType.NONE "n") false = [] ∧
    ((print_alloc_all_rows (init.insert 1 8 16 AllocType.NONE "n") false).map Prod.fst).count 1
      = 0 ∧
    (print_alloc_all (init.insert 1 8 16 AllocType.NONE "n") false false).text =
      "MEMORY USAGE REPORT\nTOTAL MEMORY USAGE\n" ++
      "Allocated:            8 B        (16 B)\n" ++
      "Deallocated:          0 B         (0 B)\n" ++
      "Difference:           8 B        (16 B)\n" := by
  decide

/-- C15 (amended): the report covers the categories `STL`, `SHARED` and
`EXPLICIT`, in this fixed order, and not `NONE`: its text is the title, the
three category sections built from their rows, and the total section; with
`omitFullyDeallocated = false` every record of one of the three categories is
rendered as exactly one row, which shows that record, and a record of category
`NONE` is rendered in no row. -/
theorem report_covers_categories (s : memory_log) (u : Bool) (k : Nat)
    (info : memory_alloc_info) (hlk : s.s_memory.lookup k = some info) :
    (info.m_allocType ≠ AllocType.NONE →
      ((print_alloc_all_rows s false).map Prod.fst).count k = 1 ∧
      (k, info) ∈ print_alloc_all_rows s false ∧
      ∀ e, (k, e) ∈ print_alloc_all_rows s false → e = info) ∧
    (info.m_allocType = AllocType.NONE →
      k ∉ (print_alloc_all_rows s false).map Prod.fst) ∧
    (print_alloc_all s false u).text =
      "MEMORY USAGE REPORT\n" ++
        (if print_alloc_type_rows s AllocType.STL false = [] then ""
          else header_text AllocType.STL false ++
            String.join ((print_alloc_type_rows s AllocType.STL false).map
              (fun r => row_text r.1 r.2 false)) ++
            usage_text (s.get_usage_alloc_type AllocType.STL) "\n\n") ++
        (if print_alloc_type_rows s AllocType.SHARED false = [] then ""
          else header_text AllocType.SHARED false ++
            String.join ((print_alloc_type_rows s AllocType.SHARED false).map
              (fun r => row_text r.1 r.2 false)) ++
            usage_text (s.get_usage_alloc_type AllocType.SHARED) "\n\n") ++
        (if print_alloc_type_rows s AllocType.EXPLICIT false = [] then ""
          else header_text AllocType.EXPLICIT false ++
            String.join ((print_alloc_type_rows s AllocType.EXPLICIT false).map
              (fun r => row_text r.1 r.2 false)) ++
            usage_text (s.get_usage_alloc_type AllocType.EXPLICIT) "\n\n") ++
        ("TOTAL MEMORY USAGE\n" ++ usage_text s.get_usage_total "\n") := by
  have hcount : ((print_alloc_all_rows s false).map Prod.fst).count k =
      (if info.m_allocType = AllocType.STL then 1 else 0) +
      (if info.m_allocType = AllocType.SHARED then 1 else 0) +
      (if info.m_allocType = AllocType.EXPLICIT then 1 else 0) := by
    unfold print_alloc_all_rows
    rw [List.map_append, List.map_append, List.count_append, List.count_append,
      count_rows s _ k info hlk, count_rows s _ k info hlk, count_rows s _ k info hlk]
  have hmem : ∀ e, (k, e) ∈ print_alloc_all_rows s false ↔
      (e = info ∧ info.m_allocType ≠ AllocType.NONE) := by
    intro e
    unfold print_alloc_all_rows
    simp only [List.mem_append, mem_print_alloc_type_rows, hlk, Option.some.injEq]
    constructor
    · rintro ((⟨h1, h2, _⟩ | ⟨h1, h2, _⟩) | ⟨h1, h2, _⟩) <;>
        exact ⟨h1.symm, by rw [h1, h2]; decide⟩
    · rintro ⟨rfl, h2⟩
      cases hty : e.m_allocType with
      | STL => exact Or.inl (Or.inl ⟨rfl, rfl, by simp⟩)
      | SHARED => exact Or.inl (Or.inr ⟨rfl, rfl, by simp⟩)
      | EXPLICIT => exact Or.inr ⟨rfl, rfl, by simp⟩
      | NONE => exact absurd hty h2
  refine ⟨?_, ?_, ?_⟩
  · intro hne
    refine ⟨?_, (hmem info).2 ⟨rfl, hne⟩, fun e he => ((hmem e).1 he).1⟩
    rw [hcount]
    cases hty : info.m_allocType with
    | STL => decide
    | SHARED => decide
    | EXPLICIT => decide
    | NONE => exact absurd hty hne
  · intro hnone hk
    obtain ⟨⟨k1, e⟩, he, rfl⟩ := List.mem_map.1 hk
    exact ((hmem e).1 he).2 hnone
  · rw [print_alloc_all_text, print_alloc_type_text_rows, print_alloc_type_text_rows,
      print_alloc_type_text_rows]

/-- Witness of `report_covers_categories`: the `EXPLICIT` record at `0x1000` is
one row of the report, the `NONE` record at `1` is none. -/
theorem report_covers_categories_witness :
    ((print_alloc_all_rows ((init.insert 1 8 16 AllocType.NONE "n").insert 0x1000 40 48
        AllocType.EXPLICIT "f") false).map Prod.fst).count 0x1000 = 1 ∧
    1 ∉ (print_alloc_all_rows ((init.insert 1 8 16 AllocType.NONE "n").insert 0x1000 40 48
        AllocType.EXPLICIT "f") false).map Prod.fst :=
  ⟨((report_covers_categories ((init.insert 1 8 16 AllocType.NONE "n").insert 0x1000 40 48
      AllocType.EXPLICIT "f") false 0x1000 ⟨40, 48, 0, 0, AllocType.EXPLICIT, "f"⟩
      (by decide)).1 (by decide)).1,
    (report_covers_categories ((init.insert 1 8 16 AllocType.NONE "n").insert 0x1000 40 48
      AllocType.EXPLICIT "f") false 1 ⟨8, 16, 0, 0, AllocType.NONE, "n"⟩
      (by decide)).2.1 rfl⟩

/-! ## The delegating resource -/

/-- Converting an argument to `uint32_t` twice is converting it once. -/
theorem u32_u32 (x : Nat) : u32 (u32 x) = u32 x := Nat.mod_mod _ _

theorem remove_u32 (s : memory_log) (a b bl : Nat) (c : AllocType) :
    s.remove a (u32 b) (u32 bl) c = s.remove a b bl c := by
  simp only [memory_log.remove, u32_u32]

theorem insert_u32 (s : memory_log) (a b bl : Nat) (c : AllocType) (f : String) :
    s.insert a (u32 b) (u32 bl) c f = s.insert a b bl c f := by
  simp only [memory_log.insert, u32_u32]

/-- C16 (as stated, refuted): a resource of category `STL` wired to the ledger
allocates `4294967296` bytes at `0x1000`, in a block of `4294967312` bytes;
the record then holds requested bytes `0` and block bytes `16`. -/
theorem do_allocate_record_counterexample :
    ((MemoryResource.construct memory_log.insert memory_log.remove AllocType.STL 0).do_allocate
        (fun _ => 4294967312) ⟨init, []⟩ 4294967296 16 0x1000).ptr = 0x1000 ∧
    ((MemoryResource.construct memory_log.insert memory_log.remove AllocType.STL 0).do_allocate
        (fun _ => 4294967312) ⟨init, []⟩ 4294967296 16 0x1000).world.log.s_memory.lookup 0x1000 =
      some ⟨0, 16, 0, 0, AllocType.STL, ""⟩ ∧
    ((MemoryResource.construct memory_log.insert memory_log.remove AllocType.STL 0).do_allocate
        (fun _ => 4294967312) ⟨init, []⟩ 4294967296 16 0x1000).world.log.s_memory.lookup 0x1000 ≠
      some ⟨4294967296, 4294967312, 0, 0, AllocType.STL, ""⟩ := by
  decide

/-- C16 (amended): for a `MemoryResource` wired to the ledger,
`do_allocate(size, alignment)` returns exactly the address obtained from the
underlying allocator, and afterwards the ledger holds at that address a record
with requested bytes `size mod 2^32`, block bytes the allocator-reported block
size `mod 2^32`, the category of the resource and its pending caller signature
(so bytes = size and block = block size whenever both are below `2^32`); the
category is the one given to the constructor. -/
theorem do_allocate_record (self : MemoryResource) (malloc_size_func : Nat → Nat) (w : World)
    (_bytes _alignment ptr : Nat) (hw : self.m_insertFunc = memory_log.insert) :
    (self.do_allocate malloc_size_func w _bytes _alignment ptr).ptr = ptr ∧
    (self.do_allocate malloc_size_func w _bytes _alignment ptr).world.log =
      w.log.insert ptr _bytes (malloc_size_func ptr) self.m_allocType self.m_lastCaller ∧
    (self.do_allocate malloc_size_func w _bytes _alignment ptr).world.log.s_memory.lookup ptr =
      some ⟨_bytes % 2 ^ 32, malloc_size_func ptr % 2 ^ 32, 0, 0, self.m_allocType,
        self.m_lastCaller⟩ ∧
    (_bytes < 2 ^ 32 → malloc_size_func ptr < 2 ^ 32 →
      (self.do_allocate malloc_size_func w _bytes _alignment ptr).world.log.s_memory.lookup ptr =
        some ⟨_bytes, malloc_size_func ptr, 0, 0, self.m_allocType, self.m_lastCaller⟩) ∧
    (self.do_allocate malloc_size_func w _bytes _alignment ptr).world.heap =
      w.heap ++ [HeapCall.allocate ptr _bytes _alignment] ∧
    (∀ ins rem c mem,
      (MemoryResource.construct ins rem c mem).m_allocType = c ∧
      (MemoryResource.construct ins rem c mem).m_insertFunc = ins) := by
  have hlog : (self.do_allocate malloc_size_func w _bytes _alignment ptr).world.log =
      w.log.insert ptr _bytes (malloc_size_func ptr) self.m_allocType self.m_lastCaller := by
    simp only [MemoryResource.do_allocate, hw, insert_u32]
  have hlk : (self.do_allocate malloc_size_func w _bytes _alignment ptr).world.log.s_memory.lookup
      ptr = some ⟨u32 _bytes, u32 (malloc_size_func ptr), 0, 0, self.m_allocType,
        self.m_lastCaller⟩ := by
    rw [hlog]
    simp [memory_log.insert, AList.lookup_insert]
  refine ⟨rfl, hlog, hlk, ?_, rfl, fun _ _ _ _ => ⟨rfl, rfl⟩⟩
  intro h1 h2
  rw [hlk]
  have e1 : u32 _bytes = _bytes := Nat.mod_eq_of_lt h1
  have e2 : u32 (malloc_size_func ptr) = malloc_size_func ptr := Nat.mod_eq_of_lt h2
  rw [e1, e2]

/-- Witness of `do_allocate_record`: a resource of category `STL` with the
pending signature `"main.cpp:36: main"` allocates `80` bytes at `0x1000`. -/
theorem do_allocate_record_witness :
    (((MemoryResource.construct memory_log.insert memory_log.remove AllocType.STL
        0).set_caller_signature "main.cpp:36: main").do_allocate (fun _ => 88) ⟨init, []⟩ 80 16
        0x1000).world.log.s_memory.lookup 0x1000 =
      some ⟨80, 88, 0, 0, AllocType.STL, "main.cpp:36: main"⟩ :=
  ((do_allocate_record
    ((MemoryResource.construct memory_log.insert memory_log.remove AllocType.STL
      0).set_caller_signature "main.cpp:36: main") (fun _ => 88) ⟨init, []⟩ 80 16 0x1000
    rfl).2.2.2.1 (by decide) (by decide)).trans (by decide)

/-- C17: for a `MemoryResource` wired to the ledger, `do_deallocate(address,
size, alignment)` reports `remove(address, size, blockSize(address), c)` to the
ledger before the underlying allocator frees the address, `c` being the
category the instance was constructed with.  The free is performed only once
that report has returned, in a world whose ledger already holds the removal;
so for an address recorded under another category (or not recorded) the call
fails on the assertion and the world at the abort is the world before the
call: the underlying free is not performed. -/
theorem do_deallocate_reports_remove (self : MemoryResource) (malloc_size_func : Nat → Nat)
    (w : World) (_ptr _bytes _alignment : Nat) (hw : self.m_removeFunc = memory_log.remove) :
    (self.do_deallocate malloc_size_func w _ptr _bytes _alignment =
      match w.log.remove _ptr _bytes (malloc_size_func _ptr) self.m_allocType with
      | Except.error e => Except.error (e, w)
      | Except.ok log1 =>
        Except.ok (self,
          { log := log1, heap := w.heap ++ [HeapCall.deallocate _ptr _bytes _alignment] })) ∧
    (∀ info, w.log.s_memory.lookup _ptr = some info → info.m_allocType ≠ self.m_allocType →
      self.do_deallocate malloc_size_func w _ptr _bytes _alignment =
        Except.error (AssertFailure.CategoryMismatch, w)) ∧
    (w.log.s_memory.lookup _ptr = none →
      self.do_deallocate malloc_size_func w _ptr _bytes _alignment =
        Except.error (AssertFailure.UnknownAddress, w)) ∧
    (∀ info, w.log.s_memory.lookup _ptr = some info → info.m_allocType = self.m_allocType →
      ∃ log1, w.log.remove _ptr _bytes (malloc_size_func _ptr) self.m_allocType =
          Except.ok log1 ∧
        self.do_deallocate malloc_size_func w _ptr _bytes _alignment =
          Except.ok (self,
            { log := log1,
              heap := w.heap ++ [HeapCall.deallocate _ptr _bytes _alignment] })) ∧
    (∀ e w1, self.do_deallocate malloc_size_func w _ptr _bytes _alignment =
        Except.error (e, w1) →
      w1.heap = w.heap ∧ w1.log = w.log ∧
      w.log.remove _ptr _bytes (malloc_size_func _ptr) self.m_allocType = Except.error e) ∧
    (∀ r1 w1, self.do_deallocate malloc_size_func w _ptr _bytes _alignment =
        Except.ok (r1, w1) →
      w1.heap = w.heap ++ [HeapCall.deallocate _ptr _bytes _alignment] ∧
      w.log.remove _ptr _bytes (malloc_size_func _ptr) self.m_allocType = Except.ok w1.log) ∧
    (∀ ins rem c mem sig,
      (MemoryResource.construct ins rem c mem).m_allocType = c ∧
      ((MemoryResource.construct ins rem c mem).set_caller_signature sig).m_allocType = c) := by
  have h0 : self.do_deallocate malloc_size_func w _ptr _bytes _alignment =
      match w.log.remove _ptr _bytes (malloc_size_func _ptr) self.m_allocType with
      | Except.error e => Except.error (e, w)
      | Except.ok log1 =>
        Except.ok (self,
          { log := log1, heap := w.heap ++ [HeapCall.deallocate _ptr _bytes _alignment] }) := by
    simp only [MemoryResource.do_deallocate, hw, remove_u32]
  refine ⟨h0, ?_, ?_, ?_, ?_, ?_, fun _ _ _ _ _ => ⟨rfl, rfl⟩⟩
  · intro info hlk hne
    rw [h0]
    have hr : w.log.remove _ptr _bytes (malloc_size_func _ptr) self.m_allocType =
        Except.error AssertFailure.CategoryMismatch := by
      simp [memory_log.remove, hlk, hne]
    rw [hr]
  · intro hlk
    rw [h0]
    have hr : w.log.remove _ptr _bytes (malloc_size_func _ptr) self.m_allocType =
        Except.error AssertFailure.UnknownAddress := by
      simp [memory_log.remove, hlk]
    rw [hr]
  · intro info hlk hty
    obtain ⟨log1, hr⟩ : ∃ log1, w.log.remove _ptr _bytes (malloc_size_func _ptr)
        self.m_allocType = Except.ok log1 :=
      ⟨_, (remove_ok_iff _ _ _ _ _ _).2 ⟨info, hlk, hty, rfl⟩⟩
    refine ⟨log1, hr, ?_⟩
    rw [h0, hr]
  · intro e w1 h
    rw [h0] at h
    cases hr : w.log.remove _ptr _bytes (malloc_size_func _ptr) self.m_allocType with
    | error e1 =>
      rw [hr] at h
      simp only [Except.error.injEq, Prod.mk.injEq] at h
      obtain ⟨rfl, rfl⟩ := h
      exact ⟨rfl, rfl, rfl⟩
    | ok log1 => rw [hr] at h; exact absurd h (by simp)
  · intro r1 w1 h
    rw [h0] at h
    cases hr : w.log.remove _ptr _bytes (malloc_size_func _ptr) self.m_allocType with
    | error e1 => rw [hr] at h; exact absurd h (by simp)
    | ok log1 =>
      rw [hr] at h
      simp only [Except.ok.injEq, Prod.mk.injEq] at h
      obtain ⟨_, rfl⟩ := h
      exact ⟨rfl, rfl⟩

/-- Witness of `do_deallocate_reports_remove`: the address `0x2000` is recorded
as `STL`; a resource of category `SHARED` fails to deallocate it, and the
world at the abort has no call to the underlying allocator. -/
theorem do_deallocate_reports_remove_witness :
    (MemoryResource.construct memory_log.insert memory_log.remove AllocType.SHARED
        0).do_deallocate (fun _ => 8) ⟨init.insert 0x2000 8 8 AllocType.STL "g", []⟩ 0x2000 8 16 =
      Except.error (AssertFailure.CategoryMismatch,
        ⟨init.insert 0x2000 8 8 AllocType.STL "g", []⟩) :=
  (do_deallocate_reports_remove
    (MemoryResource.construct memory_log.insert memory_log.remove AllocType.SHARED 0)
    (fun _ => 8) ⟨init.insert 0x2000 8 8 AllocType.STL "g", []⟩ 0x2000 8 16 rfl).2.1
    ⟨8, 8, 0, 0, AllocType.STL, "g"⟩ (by decide) (by decide)

/-- C18: `MemoryResource::do_is_equal(other)` is true if and only if `other` is
the very same instance; two distinct instances are unequal even when all their
members (callbacks, category, caller signature, underlying allocator) are
identical; in particular the two resources issued by two back-to-back
`getNewMemoryResource` calls, which are two objects with equal members, are
not equal. -/
theorem do_is_equal_identity (self : STLMemoryResourceHandler) (store : ResourceStore)
    (p1 p2 : Nat) (ins : insert_func) (rem : remove_func) (c : AllocType) (ndr : Nat)
    (hfresh : p2 ∉ (self.getNewMemoryResource store p1 ins rem c ndr).2.2) :
    (∀ this other : Nat, MemoryResource.do_is_equal this other = true ↔ this = other) ∧
    (∀ (st : ResourceStore) (this other : Nat) (r : MemoryResource),
      st.lookup this = some r → st.lookup other = some r → this ≠ other →
        MemoryResource.do_is_equal this other = false) ∧
    MemoryResource.do_is_equal (self.getNewMemoryResource store p1 ins rem c ndr).1
      ((self.getNewMemoryResource store p1 ins rem c ndr).2.1.getNewMemoryResource
        (self.getNewMemoryResource store p1 ins rem c ndr).2.2 p2 ins rem c ndr).1 = false ∧
    ((self.getNewMemoryResource store p1 ins rem c ndr).2.1.getNewMemoryResource
        (self.getNewMemoryResource store p1 ins rem c ndr).2.2 p2 ins rem c ndr).2.2.lookup p1 =
      some (MemoryResource.construct ins rem c ndr) ∧
    ((self.getNewMemoryResource store p1 ins rem c ndr).2.1.getNewMemoryResource
        (self.getNewMemoryResource store p1 ins rem c ndr).2.2 p2 ins rem c ndr).2.2.lookup p2 =
      some (MemoryResource.construct ins rem c ndr) ∧
    ((self.getNewMemoryResource store p1 ins rem c ndr).2.1.getNewMemoryResource
        (self.getNewMemoryResource store p1 ins rem c ndr).2.2 p2 ins rem c ndr).2.1.m_rsrcs =
      self.m_rsrcs ++ [p1] ++ [p2] := by
  have hne : p1 ≠ p2 := by
    intro h
    apply hfresh
    rw [← h]
    simp [STLMemoryResourceHandler.getNewMemoryResource]
  refine ⟨?_, ?_, ?_, ?_, ?_, rfl⟩
  · intro this other
    simp [MemoryResource.do_is_equal]
  · intro st this other r _ _ hno
    simp [MemoryResource.do_is_equal, hno]
  · simp [STLMemoryResourceHandler.getNewMemoryResource, MemoryResource.do_is_equal, hne]
  · simp only [STLMemoryResourceHandler.getNewMemoryResource]
    rw [AList.lookup_insert_ne hne, AList.lookup_insert]
  · simp only [STLMemoryResourceHandler.getNewMemoryResource]
    rw [AList.lookup_insert]

/-- Witness of `do_is_equal_identity` (Scenario C): two resources issued back
to back at the addresses `0x5000` and `0x5040`. -/
theorem do_is_equal_identity_witness :
    MemoryResource.do_is_equal
      ((⟨[]⟩ : STLMemoryResourceHandler).getNewMemoryResource ∅ 0x5000 memory_log.insert
        memory_log.remove AllocType.STL 0).1
      (((⟨[]⟩ : STLMemoryResourceHandler).getNewMemoryResource ∅ 0x5000 memory_log.insert
        memory_log.remove AllocType.STL 0).2.1.getNewMemoryResource
        ((⟨[]⟩ : STLMemoryResourceHandler).getNewMemoryResource ∅ 0x5000 memory_log.insert
          memory_log.remove AllocType.STL 0).2.2 0x5040 memory_log.insert memory_log.remove
        AllocType.STL 0).1 = false :=
  (do_is_equal_identity ⟨[]⟩ ∅ 0x5000 0x5040 memory_log.insert memory_log.remove
    AllocType.STL 0 (by decide)).2.2.1

/-! ## The explicit allocation wrappers -/

/-- C19: for a pointer recorded in the ledger under the explicit category,
`_deallocate(pointer)` and `_deallocate_n(pointer)` report to the ledger the
requested bytes stored for that pointer as the deallocated bytes, so that
afterwards the record's deallocated bytes equal its allocated bytes; for a
pointer with no record they fail on the lookup assertion, and for a pointer
recorded under another category they fail on the category assertion. -/
theorem deallocate_recovers_size (malloc_size_func : Nat → Nat) (w : World) (_ptr : Nat) :
    (∀ info, w.log.s_memory.lookup _ptr = some info →
      info.m_allocType = AllocType.EXPLICIT → info.m_allocBytes < 2 ^ 32 →
      ∃ log1,
        w.log.remove _ptr info.m_allocBytes (malloc_size_func _ptr) AllocType.EXPLICIT =
          Except.ok log1 ∧
        _deallocate malloc_size_func w _ptr =
          Except.ok { log := log1, heap := w.heap ++ [HeapCall.op_delete _ptr] } ∧
        _deallocate_n malloc_size_func w _ptr =
          Except.ok { log := log1, heap := w.heap ++ [HeapCall.op_delete_array _ptr] } ∧
        log1.s_memory.lookup _ptr =
          some ⟨info.m_allocBytes, info.m_allocBlock, info.m_allocBytes,
            malloc_size_func _ptr % 2 ^ 32, info.m_allocType, info.m_callerFnc⟩) ∧
    (w.log.s_memory.lookup _ptr = none →
      _deallocate malloc_size_func w _ptr = Except.error AssertFailure.UnknownAddress ∧
      _deallocate_n malloc_size_func w _ptr = Except.error AssertFailure.UnknownAddress) ∧
    (∀ info, w.log.s_memory.lookup _ptr = some info →
      info.m_allocType ≠ AllocType.EXPLICIT →
      _deallocate malloc_size_func w _ptr = Except.error AssertFailure.CategoryMismatch ∧
      _deallocate_n malloc_size_func w _ptr = Except.error AssertFailure.CategoryMismatch) := by
  refine ⟨?_, ?_, ?_⟩
  · intro info hlk hty hlt
    have hb : u32 info.m_allocBytes = info.m_allocBytes := Nat.mod_eq_of_lt hlt
    have hg : w.log.get_alloc_bytes _ptr = Except.ok info.m_allocBytes := by
      simp [memory_log.get_alloc_bytes, hlk]
    have hr := (remove_ok_iff w.log _ _ptr info.m_allocBytes (malloc_size_func _ptr)
      AllocType.EXPLICIT).2 ⟨info, hlk, hty, rfl⟩
    have hr2 : w.log.remove _ptr info.m_allocBytes (u32 (malloc_size_func _ptr))
        AllocType.EXPLICIT = w.log.remove _ptr info.m_allocBytes (malloc_size_func _ptr)
        AllocType.EXPLICIT := by
      simp only [memory_log.remove, u32_u32]
    refine ⟨_, hr, ?_, ?_, ?_⟩
    · simp only [_deallocate, hg, hr2, hr]
    · simp only [_deallocate_n, hg, hr2, hr]
    · simp only [lookup_replace, if_true, hlk, Option.map_some', hb]
      rfl
  · intro hlk
    have hg : w.log.get_alloc_bytes _ptr = Except.error AssertFailure.UnknownAddress := by
      simp [memory_log.get_alloc_bytes, hlk]
    exact ⟨by simp only [_deallocate, hg], by simp only [_deallocate_n, hg]⟩
  · intro info hlk hne
    have hg : w.log.get_alloc_bytes _ptr = Except.ok info.m_allocBytes := by
      simp [memory_log.get_alloc_bytes, hlk]
    have hr : w.log.remove _ptr info.m_allocBytes (u32 (malloc_size_func _ptr))
        AllocType.EXPLICIT = Except.error AssertFailure.CategoryMismatch := by
      simp [memory_log.remove, hlk, hne]
    exact ⟨by simp only [_deallocate, hg, hr], by simp only [_deallocate_n, hg, hr]⟩

/-- Witness of `deallocate_recovers_size`: as in `main`, an `int` allocated at
`0x1000` (4 bytes in a block of 24) is deallocated; the record then shows 4
deallocated bytes. -/
theorem deallocate_recovers_size_witness :
    ∃ log1,
      _deallocate (fun _ => 24)
          (_allocate (fun _ => 24) ⟨init, []⟩ 4 0x1000 "main.cpp" "60" "main" "new()").2 0x1000 =
        Except.ok { log := log1,
                    heap := [HeapCall.op_new 0x1000] ++ [HeapCall.op_delete 0x1000] } ∧
      log1.s_memory.lookup 0x1000 =
        some ⟨4, 24, 4, 24, AllocType.EXPLICIT, "main.cpp:60: main                new()"⟩ :=
  ((deallocate_recovers_size (fun _ => 24)
    (_allocate (fun _ => 24) ⟨init, []⟩ 4 0x1000 "main.cpp" "60" "main" "new()").2 0x1000).1
    ⟨4, 24, 0, 0, AllocType.EXPLICIT, "main.cpp:60: main                new()"⟩
    (by decide) rfl (by decide)).imp (fun _ h => ⟨h.2.1, h.2.2.2.trans (by decide)⟩)

/-- C20 (as stated, refuted): `_allocate_n<T>(n)` with `sizeof(T) = 4` and
`n = 1073741824` has the product `4294967296`, which does not fit in 32 bits;
the record at the returned pointer holds requested bytes `0`. -/
theorem allocate_n_size_counterexample :
    4 * 1073741824 = 4294967296 ∧
    (_allocate_n (fun _ => 4294967312) ⟨init, []⟩ 4 1073741824 0x1000 "main.cpp" "59"
        "main").2.log.get_alloc_bytes 0x1000 = Except.ok 0 ∧
    ((_allocate_n (fun _ => 4294967312) ⟨init, []⟩ 4 1073741824 0x1000 "main.cpp" "59"
        "main").2.log.s_memory.lookup 0x1000).map (fun r => r.m_allocBytes) = some 0 := by
  refine ⟨by decide, rfl, by decide⟩

/-- C20 (amended): `_allocate_n<T>(n)` records the returned pointer in the
ledger under the explicit category with requested bytes equal to
`sizeof(T) * n` reduced modulo `2^32`, and `_allocate<T>` records `sizeof(T)`
reduced modulo `2^32`; the recorded value equals the product (the size)
whenever that is below `2^32`. -/
theorem allocate_n_size (malloc_size_func : Nat → Nat) (w : World) (sizeof_T _n ptr : Nat)
    (_c_file _c_line _c_fnc _c_type : String) :
    (_allocate_n malloc_size_func w sizeof_T _n ptr _c_file _c_line _c_fnc).1 = ptr ∧
    (_allocate_n malloc_size_func w sizeof_T _n ptr _c_file _c_line
        _c_fnc).2.log.s_memory.lookup ptr =
      some ⟨sizeof_T * _n % 2 ^ 32, malloc_size_func ptr % 2 ^ 32, 0, 0, AllocType.EXPLICIT,
        get_caller_signature _c_file _c_line _c_fnc "new[]"⟩ ∧
    (_allocate_n malloc_size_func w sizeof_T _n ptr _c_file _c_line
        _c_fnc).2.log.get_alloc_bytes ptr = Except.ok (sizeof_T * _n % 2 ^ 32) ∧
    (sizeof_T * _n < 2 ^ 32 →
      (_allocate_n malloc_size_func w sizeof_T _n ptr _c_file _c_line
        _c_fnc).2.log.get_alloc_bytes ptr = Except.ok (sizeof_T * _n)) ∧
    (_allocate malloc_size_func w sizeof_T ptr _c_file _c_line _c_fnc
        _c_type).2.log.s_memory.lookup ptr =
      some ⟨sizeof_T % 2 ^ 32, malloc_size_func ptr % 2 ^ 32, 0, 0, AllocType.EXPLICIT,
        get_caller_signature _c_file _c_line _c_fnc _c_type⟩ ∧
    (sizeof_T < 2 ^ 32 →
      (_allocate malloc_size_func w sizeof_T ptr _c_file _c_line _c_fnc
        _c_type).2.log.get_alloc_bytes ptr = Except.ok sizeof_T) := by
  have hmod : u32 (u32 (sizeof_T * _n % 2 ^ 64)) = sizeof_T * _n % 2 ^ 32 := by
    simp only [u32]
    omega
  have hlk : (_allocate_n malloc_size_func w sizeof_T _n ptr _c_file _c_line
        _c_fnc).2.log.s_memory.lookup ptr =
      some ⟨sizeof_T * _n % 2 ^ 32, malloc_size_func ptr % 2 ^ 32, 0, 0, AllocType.EXPLICIT,
        get_caller_signature _c_file _c_line _c_fnc "new[]"⟩ := by
    simp only [_allocate_n, memory_log.insert, AList.lookup_insert, hmod, u32_u32]
    rfl
  have hlk1 : (_allocate malloc_size_func w sizeof_T ptr _c_file _c_line _c_fnc
        _c_type).2.log.s_memory.lookup ptr =
      some ⟨sizeof_T % 2 ^ 32, malloc_size_func ptr % 2 ^ 32, 0, 0, AllocType.EXPLICIT,
        get_caller_signature _c_file _c_line _c_fnc _c_type⟩ := by
    simp only [_allocate, memory_log.insert, AList.lookup_insert, u32_u32]
    rfl
  refine ⟨rfl, hlk, ?_, ?_, hlk1, ?_⟩
  · simp only [memory_log.get_alloc_bytes, hlk]
  · intro h
    simp only [memory_log.get_alloc_bytes, hlk, Nat.mod_eq_of_lt h]
  · intro h
    simp only [memory_log.get_alloc_bytes, hlk1, Nat.mod_eq_of_lt h]

/-- Witness of `allocate_n_size`: as in `main`, `_allocate_n<int>(12000)`
records `48000` bytes. -/
theorem allocate_n_size_witness :
    (_allocate_n (fun _ => 48008) ⟨init, []⟩ 4 12000 0x1000 "main.cpp" "59"
        "main").2.log.get_alloc_bytes 0x1000 = Except.ok (4 * 12000) :=
  (allocate_n_size (fun _ => 48008) ⟨init, []⟩ 4 12000 0x1000 "main.cpp" "59" "main"
    "").2.2.2.1 (by decide)

/-! ## Records are kept -/

/-- C22: the ledger is append/update-only.  In every ledger state and for every
operation (`insert`, `remove`, `get_alloc_bytes`, `print_alloc_type`,
`print_alloc_all`, and so every run of them), every address that has a record
before the operation still has a record after it; in particular a successful
remove keeps the record, and `get_alloc_bytes` still succeeds on that address
afterwards. -/
theorem ledger_append_only (s : memory_log) (k : Nat) (info : memory_alloc_info)
    (hk : s.s_memory.lookup k = some info) :
    (∀ a b bl c f, ∃ e, (s.insert a b bl c f).s_memory.lookup k = some e) ∧
    (∀ a b bl c s1, s.remove a b bl c = Except.ok s1 →
      ∃ e, s1.s_memory.lookup k = some e) ∧
    (∀ call s1 v, ledgerStep s call = Except.ok (s1, v) →
      ∃ e, s1.s_memory.lookup k = some e) ∧
    (∀ a s1 v, ledgerStep s (LedgerCall.get_alloc_bytes a) = Except.ok (s1, v) → s1 = s) ∧
    (∀ t om, (print_alloc_type s t om).2.s_memory.lookup k = some info) ∧
    (∀ om u, (print_alloc_all s om u).state.s_memory.lookup k = some info) ∧
    (∀ b bl c s1, s.remove k b bl c = Except.ok s1 →
      s1.get_alloc_bytes k = Except.ok info.m_allocBytes) := by
  have hins : ∀ a b bl c f, ∃ e, (s.insert a b bl c f).s_memory.lookup k = some e := by
    intro a b bl c f
    by_cases hka : k = a
    · subst hka
      exact ⟨⟨u32 b, u32 bl, 0, 0, c, f⟩, by simp only [memory_log.insert, AList.lookup_insert]⟩
    · exact ⟨info, by simp only [memory_log.insert, AList.lookup_insert_ne hka, hk]⟩
  have hrem : ∀ a b bl c s1, s.remove a b bl c = Except.ok s1 →
      ∃ e, s1.s_memory.lookup k = some e ∧ e.m_allocBytes = info.m_allocBytes := by
    intro a b bl c s1 h
    obtain ⟨e, he, _, rfl⟩ := (remove_ok_iff s s1 a b bl c).1 h
    by_cases hka : k = a
    · subst hka
      rw [hk] at he
      injection he with he
      subst he
      exact ⟨{ info with m_deallocBytes := u32 b, m_deallocBlock := u32 bl },
        by simp only [lookup_replace, if_true, hk, Option.map_some'], rfl⟩
    · exact ⟨info, by simp only [lookup_replace, if_neg hka, hk], rfl⟩
  refine ⟨hins, fun a b bl c s1 h => (hrem a b bl c s1 h).imp (fun _ h => h.1), ?_, ?_, ?_, ?_,
    ?_⟩
  · intro call s1 v h
    cases call with
    | insert a b bl c f =>
      simp only [ledgerStep, Except.ok.injEq, Prod.mk.injEq] at h
      rw [← h.1]
      exact hins a b bl c f
    | remove a b bl c =>
      simp only [ledgerStep] at h
      cases hr : s.remove a b bl c with
      | error e => rw [hr] at h; exact absurd h (by simp)
      | ok s2 =>
        rw [hr] at h
        simp only [Except.ok.injEq, Prod.mk.injEq] at h
        rw [← h.1]
        exact (hrem a b bl c s2 hr).imp (fun _ h => h.1)
    | get_alloc_bytes a =>
      simp only [ledgerStep] at h
      cases hr : s.get_alloc_bytes a with
      | error e => rw [hr] at h; exact absurd h (by simp)
      | ok n =>
        rw [hr] at h
        simp only [Except.ok.injEq, Prod.mk.injEq] at h
        rw [← h.1]
        exact ⟨info, hk⟩
  · intro a s1 v h
    simp only [ledgerStep] at h
    cases hr : s.get_alloc_bytes a with
    | error e => rw [hr] at h; exact absurd h (by simp)
    | ok n =>
      rw [hr] at h
      simp only [Except.ok.injEq, Prod.mk.injEq] at h
      exact h.1.symm
  · intro t om
    rw [(print_alloc_type_state s t om).1]
    exact hk
  · intro om u
    rw [print_alloc_all_state]
    exact hk
  · intro b bl c s1 h
    obtain ⟨e, he, hb⟩ := hrem k b bl c s1 h
    simp only [memory_log.get_alloc_bytes, he, hb]

/-- Witness of `ledger_append_only` (Scenario A): after the removal of `0x1000`
the size lookup still returns `40`. -/
theorem ledger_append_only_witness :
    ∃ s1, (init.insert 0x1000 40 48 AllocType.EXPLICIT "f").remove 0x1000 40 48
        AllocType.EXPLICIT = Except.ok s1 ∧
      s1.get_alloc_bytes 0x1000 = Except.ok 40 :=
  ⟨_, rfl,
    (ledger_append_only (init.insert 0x1000 40 48 AllocType.EXPLICIT "f") 0x1000
      ⟨40, 48, 0, 0, AllocType.EXPLICIT, "f"⟩ (by decide)).2.2.2.2.2.2 40 48
      AllocType.EXPLICIT _ rfl⟩

/-- C23 (as stated, refuted): after `insert(0x1000, 40, 48, EXPLICIT, "f")` and
`remove(0x1000, 40, 48, EXPLICIT)` the record is removed; a further
`remove(0x1000, 8, 16, EXPLICIT)` succeeds, changes the deallocation fields
from `(40, 48)` to `(8, 16)` and raises the deallocated-bytes counters of the
category and of the grand total from `40` to `48`. -/
theorem second_remove_counterexample :
    ∃ s2 s3,
      run init [Call.insert 0x1000 40 48 AllocType.EXPLICIT "f",
        Call.remove 0x1000 40 48 AllocType.EXPLICIT] = Except.ok s2 ∧
      s2.remove 0x1000 8 16 AllocType.EXPLICIT = Except.ok s3 ∧
      s2.s_memory.lookup 0x1000 = some ⟨40, 48, 40, 48, AllocType.EXPLICIT, "f"⟩ ∧
      s3.s_memory.lookup 0x1000 = some ⟨40, 48, 8, 16, AllocType.EXPLICIT, "f"⟩ ∧
      (s2.get_usage_alloc_type AllocType.EXPLICIT).m_physicalDealloc = 40 ∧
      (s3.get_usage_alloc_type AllocType.EXPLICIT).m_physicalDealloc = 48 ∧
      s2.get_usage_total.m_physicalDealloc = 40 ∧
      s3.get_usage_total.m_physicalDealloc = 48 :=
  ⟨_, _, rfl, rfl, by decide, by decide, by decide, by decide, by decide, by decide⟩

/-- C23 (amended): a record is mutated by every successful remove on its
address.  In a ledger state in which an address has already been removed, a
further remove on that address with the stored category succeeds, sets the
record's deallocation fields to its bytes and block arguments (the allocated
fields, category and caller stay) and adds them once more to the deallocated
counters of the category and of the grand total, modulo `2^32`. -/
theorem second_remove_effect (s0 s : memory_log) (a b0 bl0 b bl : Nat) (c : AllocType)
    (hb : b < 2 ^ 32) (hbl : bl < 2 ^ 32) (h0 : s0.remove a b0 bl0 c = Except.ok s) :
    ∃ info s1, s.s_memory.lookup a = some info ∧ info.m_allocType = c ∧
      s.remove a b bl c = Except.ok s1 ∧
      s1.s_memory.lookup a =
        some ⟨info.m_allocBytes, info.m_allocBlock, b, bl, info.m_allocType,
          info.m_callerFnc⟩ ∧
      (s1.get_usage_alloc_type c).m_physicalDealloc =
        ((s.get_usage_alloc_type c).m_physicalDealloc + b) % 2 ^ 32 ∧
      (s1.get_usage_alloc_type c).m_virtualDealloc =
        ((s.get_usage_alloc_type c).m_virtualDealloc + bl) % 2 ^ 32 ∧
      s1.get_usage_total.m_physicalDealloc =
        (s.get_usage_total.m_physicalDealloc + b) % 2 ^ 32 ∧
      s1.get_usage_total.m_virtualDealloc =
        (s.get_usage_total.m_virtualDealloc + bl) % 2 ^ 32 := by
  have hb1 : u32 b = b := Nat.mod_eq_of_lt hb
  have hbl1 : u32 bl = bl := Nat.mod_eq_of_lt hbl
  obtain ⟨info0, hlk0, hty0, rfl⟩ := (remove_ok_iff s0 s a b0 bl0 c).1 h0
  have hlk : AList.lookup a (AList.replace a
      { info0 with m_deallocBytes := u32 b0, m_deallocBlock := u32 bl0 } s0.s_memory) =
      some { info0 with m_deallocBytes := u32 b0, m_deallocBlock := u32 bl0 } := by
    simp only [lookup_replace, if_true, hlk0, Option.map_some']
  refine ⟨_, _, hlk, hty0, (remove_ok_iff _ _ a b bl c).2 ⟨_, hlk, hty0, rfl⟩, ?_, ?_, ?_, ?_,
    ?_⟩
  · simp only [lookup_replace, if_true, hlk0, Option.map_some', hb1, hbl1]
  · simp only [get_usage_alloc_type, Function.update_same, memory_usage.update_dealloc, hb1]
  · simp only [get_usage_alloc_type, Function.update_same, memory_usage.update_dealloc, hbl1]
  · simp only [get_usage_total, memory_usage.update_dealloc, hb1]
  · simp only [get_usage_total, memory_usage.update_dealloc, hbl1]

/-- Witness of `second_remove_effect`: the second remove on `0x1000`. -/
theorem second_remove_effect_witness :
    ∃ s2, (init.insert 0x1000 40 48 AllocType.EXPLICIT "f").remove 0x1000 40 48
        AllocType.EXPLICIT = Except.ok s2 ∧
      ∃ info s1, s2.s_memory.lookup 0x1000 = some info ∧
        s2.remove 0x1000 8 16 AllocType.EXPLICIT = Except.ok s1 ∧
        s1.s_memory.lookup 0x1000 = some ⟨info.m_allocBytes, info.m_allocBlock, 8, 16,
          info.m_allocType, info.m_callerFnc⟩ :=
  ⟨_, rfl,
    (second_remove_effect (init.insert 0x1000 40 48 AllocType.EXPLICIT "f") _ 0x1000 40 48 8 16
      AllocType.EXPLICIT (by decide) (by decide) rfl).imp
      (fun _ h => h.imp (fun _ h => ⟨h.1, h.2.2.1, h.2.2.2.1⟩))⟩

/-! ## Counters along a run -/

/-- What one call does to the counters of a category and of the grand total. -/
theorem exec_counters (s s1 : memory_log) (call : Call) (h : exec s call = Except.ok s1) :
    (∀ c, (s1.s_usageType c).m_physicalAlloc % 2 ^ 32 =
        ((s.s_usageType c).m_physicalAlloc + insertedBytes c [call]) % 2 ^ 32 ∧
      (s1.s_usageType c).m_virtualAlloc % 2 ^ 32 =
        ((s.s_usageType c).m_virtualAlloc + insertedBlock c [call]) % 2 ^ 32 ∧
      (s1.s_usageType c).m_physicalDealloc % 2 ^ 32 =
        ((s.s_usageType c).m_physicalDealloc + removedBytes c [call]) % 2 ^ 32 ∧
      (s1.s_usageType c).m_virtualDealloc % 2 ^ 32 =
        ((s.s_usageType c).m_virtualDealloc + removedBlock c [call]) % 2 ^ 32) ∧
    s1.s_usageTotal.m_physicalAlloc % 2 ^ 32 =
      (s.s_usageTotal.m_physicalAlloc +
        overCategories (fun c => insertedBytes c [call])) % 2 ^ 32 ∧
    s1.s_usageTotal.m_virtualAlloc % 2 ^ 32 =
      (s.s_usageTotal.m_virtualAlloc +
        overCategories (fun c => insertedBlock c [call])) % 2 ^ 32 ∧
    s1.s_usageTotal.m_physicalDealloc % 2 ^ 32 =
      (s.s_usageTotal.m_physicalDealloc +
        overCategories (fun c => removedBytes c [call])) % 2 ^ 32 ∧
    s1.s_usageTotal.m_virtualDealloc % 2 ^ 32 =
      (s.s_usageTotal.m_virtualDealloc +
        overCategories (fun c => removedBlock c [call])) % 2 ^ 32 := by
  cases call with
  | insert a b bl t f =>
    simp only [exec, Except.ok.injEq] at h
    subst h
    refine ⟨fun c => ?_, ?_, ?_, ?_, ?_⟩
    · by_cases hc : t = c
      · subst hc
        simp only [memory_log.insert, Function.update_same, memory_usage.update_alloc, u32,
          insertedBytes, insertedBlock, removedBytes, removedBlock, if_true]
        omega
      · simp only [memory_log.insert, Function.update_noteq (Ne.symm hc), insertedBytes,
          insertedBlock, removedBytes, removedBlock, if_neg hc]
        omega
    · cases t <;>
        simp only [memory_log.insert, memory_usage.update_alloc, u32, overCategories,
          insertedBytes, if_true, reduceCtorEq, if_false] <;> omega
    · cases t <;>
        simp only [memory_log.insert, memory_usage.update_alloc, u32, overCategories,
          insertedBlock, if_true, reduceCtorEq, if_false] <;> omega
    · simp only [memory_log.insert, memory_usage.update_alloc, overCategories, removedBytes]
      omega
    · simp only [memory_log.insert, memory_usage.update_alloc, overCategories, removedBlock]
      omega
  | remove a b bl t =>
    simp only [exec] at h
    obtain ⟨info, _, _, rfl⟩ := (remove_ok_iff s s1 a b bl t).1 h
    refine ⟨fun c => ?_, ?_, ?_, ?_, ?_⟩
    · by_cases hc : t = c
      · subst hc
        simp only [Function.update_same, memory_usage.update_dealloc, u32,
          insertedBytes, insertedBlock, removedBytes, removedBlock, if_true]
        omega
      · simp only [Function.update_noteq (Ne.symm hc), insertedBytes,
          insertedBlock, removedBytes, removedBlock, if_neg hc]
        omega
    · simp only [memory_usage.update_dealloc, overCategories, insertedBytes]
      omega
    · simp only [memory_usage.update_dealloc, overCategories, insertedBlock]
      omega
    · cases t <;>
        simp only [memory_usage.update_dealloc, u32, overCategories,
          removedBytes, if_true, reduceCtorEq, if_false] <;> omega
    · cases t <;>
        simp only [memory_usage.update_dealloc, u32, overCategories,
          removedBlock, if_true, reduceCtorEq, if_false] <;> omega

theorem sums_cons (c : AllocType) (call : Call) (cs : List Call) :
    insertedBytes c (call :: cs) = insertedBytes c [call] + insertedBytes c cs ∧
    insertedBlock c (call :: cs) = insertedBlock c [call] + insertedBlock c cs ∧
    removedBytes c (call :: cs) = removedBytes c [call] + removedBytes c cs ∧
    removedBlock c (call :: cs) = removedBlock c [call] + removedBlock c cs := by
  cases call <;>
    simp [insertedBytes, insertedBlock, removedBytes, removedBlock]

/-- The counters after a run, modulo `2^32`, from the counters before and
the sums over the calls. -/
theorem run_counters : ∀ (cs : List Call) (s s1 : memory_log), run s cs = Except.ok s1 →
    (∀ c, (s1.s_usageType c).m_physicalAlloc % 2 ^ 32 =
        ((s.s_usageType c).m_physicalAlloc + insertedBytes c cs) % 2 ^ 32 ∧
      (s1.s_usageType c).m_virtualAlloc % 2 ^ 32 =
        ((s.s_usageType c).m_virtualAlloc + insertedBlock c cs) % 2 ^ 32 ∧
      (s1.s_usageType c).m_physicalDealloc % 2 ^ 32 =
        ((s.s_usageType c).m_physicalDealloc + removedBytes c cs) % 2 ^ 32 ∧
      (s1.s_usageType c).m_virtualDealloc % 2 ^ 32 =
        ((s.s_usageType c).m_virtualDealloc + removedBlock c cs) % 2 ^ 32) ∧
    s1.s_usageTotal.m_physicalAlloc % 2 ^ 32 =
      (s.s_usageTotal.m_physicalAlloc +
        overCategories (fun c => insertedBytes c cs)) % 2 ^ 32 ∧
    s1.s_usageTotal.m_virtualAlloc % 2 ^ 32 =
      (s.s_usageTotal.m_virtualAlloc +
        overCategories (fun c => insertedBlock c cs)) % 2 ^ 32 ∧
    s1.s_usageTotal.m_physicalDealloc % 2 ^ 32 =
      (s.s_usageTotal.m_physicalDealloc +
        overCategories (fun c => removedBytes c cs)) % 2 ^ 32 ∧
    s1.s_usageTotal.m_virtualDealloc % 2 ^ 32 =
      (s.s_usageTotal.m_virtualDealloc +
        overCategories (fun c => removedBlock c cs)) % 2 ^ 32 := by
  intro cs
  induction cs with
  | nil =>
    intro s s1 h
    simp only [run, Except.ok.injEq] at h
    subst h
    simp [insertedBytes, insertedBlock, removedBytes, removedBlock, overCategories]
  | cons call cs ih =>
    intro s s1 h
    simp only [run] at h
    cases hx : exec s call with
    | error e => rw [hx] at h; exact absurd h (by simp)
    | ok s0 =>
      rw [hx] at h
      obtain ⟨k1, k2, k3, k4, k5⟩ := exec_counters s s0 call hx
      obtain ⟨j1, j2, j3, j4, j5⟩ := ih s0 s1 h
      refine ⟨fun c => ?_, ?_, ?_, ?_, ?_⟩
      · obtain ⟨e1, e2, e3, e4⟩ := sums_cons c call cs
        obtain ⟨a1, a2, a3, a4⟩ := k1 c
        obtain ⟨b1, b2, b3, b4⟩ := j1 c
        rw [e1, e2, e3, e4]
        refine ⟨?_, ?_, ?_, ?_⟩ <;> omega
      · simp only [overCategories, (sums_cons _ call cs).1] at k2 j2 ⊢
        omega
      · simp only [overCategories, (sums_cons _ call cs).2.1] at k3 j3 ⊢
        omega
      · simp only [overCategories, (sums_cons _ call cs).2.2.1] at k4 j4 ⊢
        omega
      · simp only [overCategories, (sums_cons _ call cs).2.2.2] at k5 j5 ⊢
        omega

/-- The four grand-total counters stay below `2^32` along a run. -/
theorem run_total_lt : ∀ (cs : List Call) (s s1 : memory_log), run s cs = Except.ok s1 →
    (s.s_usageTotal.m_physicalAlloc < 2 ^ 32 ∧ s.s_usageTotal.m_virtualAlloc < 2 ^ 32 ∧
      s.s_usageTotal.m_physicalDealloc < 2 ^ 32 ∧ s.s_usageTotal.m_virtualDealloc < 2 ^ 32) →
    (s1.s_usageTotal.m_physicalAlloc < 2 ^ 32 ∧ s1.s_usageTotal.m_virtualAlloc < 2 ^ 32 ∧
      s1.s_usageTotal.m_physicalDealloc < 2 ^ 32 ∧ s1.s_usageTotal.m_virtualDealloc < 2 ^ 32) := by
  intro cs
  induction cs with
  | nil =>
    intro s s1 h hb
    simp only [run, Except.ok.injEq] at h
    subst h
    exact hb
  | cons call cs ih =>
    intro s s1 h hb
    simp only [run] at h
    cases hx : exec s call with
    | error e => rw [hx] at h; exact absurd h (by simp)
    | ok s0 =>
      rw [hx] at h
      apply ih s0 s1 h
      cases call with
      | insert a b bl t f =>
        simp only [exec, Except.ok.injEq] at hx
        subst hx
        simp only [memory_log.insert, memory_usage.update_alloc]
        refine ⟨?_, ?_, hb.2.2.1, hb.2.2.2⟩ <;> omega
      | remove a b bl t =>
        simp only [exec] at hx
        obtain ⟨info, _, _, rfl⟩ := (remove_ok_iff s s0 a b bl t).1 hx
        simp only [memory_usage.update_dealloc]
        refine ⟨hb.1, hb.2.1, ?_, ?_⟩ <;> omega

/-- C25: in every ledger state reachable from the initial state by insert and
remove calls, each of the four grand-total counters (allocated bytes,
allocated block, deallocated bytes, deallocated block) equals the sum of the
corresponding counter over the four categories `STL`, `SHARED`, `EXPLICIT` and
`NONE`, modulo `2^32`. -/
theorem total_eq_category_sum (cs : List Call) (s : memory_log)
    (h : run init cs = Except.ok s) :
    s.get_usage_total.m_physicalAlloc =
      categorySum s (fun u => u.m_physicalAlloc) % 2 ^ 32 ∧
    s.get_usage_total.m_virtualAlloc =
      categorySum s (fun u => u.m_virtualAlloc) % 2 ^ 32 ∧
    s.get_usage_total.m_physicalDealloc =
      categorySum s (fun u => u.m_physicalDealloc) % 2 ^ 32 ∧
    s.get_usage_total.m_virtualDealloc =
      categorySum s (fun u => u.m_virtualDealloc) % 2 ^ 32 := by
  obtain ⟨k1, k2, k3, k4, k5⟩ := run_counters cs init s h
  obtain ⟨b1, b2, b3, b4⟩ := run_total_lt cs init s h (by decide)
  obtain ⟨p1, p2, p3, p4⟩ := k1 AllocType.STL
  obtain ⟨q1, q2, q3, q4⟩ := k1 AllocType.SHARED
  obtain ⟨r1, r2, r3, r4⟩ := k1 AllocType.EXPLICIT
  obtain ⟨t1, t2, t3, t4⟩ := k1 AllocType.NONE
  simp only [init, memory_usage.zero, overCategories, Nat.zero_add] at *
  simp only [get_usage_total, categorySum]
  refine ⟨?_, ?_, ?_, ?_⟩ <;> omega

/-- Witness of `total_eq_category_sum`: after `insert(1, 4294967295, 16, STL,
"")` and `insert(2, 2, 16, EXPLICIT, "")` the category counters sum to
`4294967297` and the grand total is `1`. -/
theorem total_eq_category_sum_witness :
    ∃ s, run init [Call.insert 1 4294967295 16 AllocType.STL "",
        Call.insert 2 2 16 AllocType.EXPLICIT ""] = Except.ok s ∧
      categorySum s (fun u => u.m_physicalAlloc) = 4294967297 ∧
      s.get_usage_total.m_physicalAlloc = 1 ∧
      s.get_usage_total.m_physicalAlloc =
        categorySum s (fun u => u.m_physicalAlloc) % 2 ^ 32 :=
  ⟨_, rfl, by decide, by decide,
    (total_eq_category_sum [Call.insert 1 4294967295 16 AllocType.STL "",
      Call.insert 2 2 16 AllocType.EXPLICIT ""] _ rfl).1⟩

/-- The 32-bit difference of two counters that are congruent to two sums. -/
theorem sub32_int (A D I R : Nat) (hA : A % 2 ^ 32 = I % 2 ^ 32)
    (hD : D % 2 ^ 32 = R % 2 ^ 32) :
    ((sub32 A D : Nat) : Int) = ((I : Int) - (R : Int)) % 2 ^ 32 := by
  simp only [sub32, u32]
  omega

/-- The counters of every category stay below `2^32` along a run. -/
theorem run_type_lt : ∀ (cs : List Call) (s s1 : memory_log), run s cs = Except.ok s1 →
    (∀ c, (s.s_usageType c).m_physicalAlloc < 2 ^ 32 ∧ (s.s_usageType c).m_virtualAlloc < 2 ^ 32 ∧
      (s.s_usageType c).m_physicalDealloc < 2 ^ 32 ∧
      (s.s_usageType c).m_virtualDealloc < 2 ^ 32) →
    (∀ c, (s1.s_usageType c).m_physicalAlloc < 2 ^ 32 ∧
      (s1.s_usageType c).m_virtualAlloc < 2 ^ 32 ∧
      (s1.s_usageType c).m_physicalDealloc < 2 ^ 32 ∧
      (s1.s_usageType c).m_virtualDealloc < 2 ^ 32) := by
  intro cs
  induction cs with
  | nil =>
    intro s s1 h hb
    simp only [run, Except.ok.injEq] at h
    subst h
    exact hb
  | cons call cs ih =>
    intro s s1 h hb
    simp only [run] at h
    cases hx : exec s call with
    | error e => rw [hx] at h; exact absurd h (by simp)
    | ok s0 =>
      rw [hx] at h
      apply ih s0 s1 h
      intro c
      obtain ⟨b1, b2, b3, b4⟩ := hb c
      cases call with
      | insert a b bl t f =>
        simp only [exec, Except.ok.injEq] at hx
        subst hx
        by_cases hc : c = t
        · subst hc
          simp only [memory_log.insert, Function.update_same, memory_usage.update_alloc]
          refine ⟨?_, ?_, b3, b4⟩ <;> omega
        · simp only [memory_log.insert, Function.update_noteq hc]
          exact ⟨b1, b2, b3, b4⟩
      | remove a b bl t =>
        simp only [exec] at hx
        obtain ⟨info, _, _, rfl⟩ := (remove_ok_iff s s0 a b bl t).1 hx
        by_cases hc : c = t
        · subst hc
          simp only [Function.update_same, memory_usage.update_dealloc]
          refine ⟨b1, b2, ?_, ?_⟩ <;> omega
        · simp only [Function.update_noteq hc]
          exact ⟨b1, b2, b3, b4⟩

/-- The three lines written from a `memory_usage` whose counters are the
cumulative sums modulo `2^32` read as the property describes them. -/
theorem usage_text_of_sums (usage : memory_usage) (I Ibl R Rbl : Nat) (last : String)
    (h1 : usage.m_physicalAlloc = I % 2 ^ 32) (h2 : usage.m_virtualAlloc = Ibl % 2 ^ 32)
    (h3 : usage.m_physicalDealloc = R % 2 ^ 32) (h4 : usage.m_virtualDealloc = Rbl % 2 ^ 32) :
    usage_text usage last = expected_usage_text I Ibl R Rbl last := by
  have d1 : sub32 usage.m_physicalAlloc usage.m_physicalDealloc =
      Int.toNat (((I : Int) - (R : Int)) % 2 ^ 32) := by
    have := sub32_int usage.m_physicalAlloc usage.m_physicalDealloc I R
      (by rw [h1, Nat.mod_mod]) (by rw [h3, Nat.mod_mod])
    rw [← this, Int.toNat_ofNat]
  have d2 : sub32 usage.m_virtualAlloc usage.m_virtualDealloc =
      Int.toNat (((Ibl : Int) - (Rbl : Int)) % 2 ^ 32) := by
    have := sub32_int usage.m_virtualAlloc usage.m_virtualDealloc Ibl Rbl
      (by rw [h2, Nat.mod_mod]) (by rw [h4, Nat.mod_mod])
    rw [← this, Int.toNat_ofNat]
  simp only [usage_text, expected_usage_text]
  rw [d1, d2, h1, h2, h3, h4]

/-- C26: the counters are 32-bit and cumulative and the reported Difference is
the 32-bit difference allocated minus deallocated.  After every sequence of
successful insert/remove calls from the initial ledger, each counter is the
cumulative sum of the inserted (removed) sizes modulo `2^32`, and the
Difference of a category (and of the grand total) equals (sum of inserted
bytes minus sum of removed bytes) modulo `2^32`, so it equals the true
outstanding amount whenever that amount lies in `[0, 2^32)`, also after the
cumulative counters have wrapped; the same holds for block bytes.  This is what
the report prints: the three lines that `usage_text` writes, in the category
sections of `print_alloc_type` and in the total section of `print_alloc_all`,
are the lines of those sums. -/
theorem difference_mod (cs : List Call) (s : memory_log) (c : AllocType)
    (h : run init cs = Except.ok s) :
    (((s.get_usage_alloc_type c).differenceBytes : Nat) : Int) =
      ((insertedBytes c cs : Int) - (removedBytes c cs : Int)) % 2 ^ 32 ∧
    (((s.get_usage_alloc_type c).differenceBlock : Nat) : Int) =
      ((insertedBlock c cs : Int) - (removedBlock c cs : Int)) % 2 ^ 32 ∧
    ((s.get_usage_total.differenceBytes : Nat) : Int) =
      ((overCategories (fun t => insertedBytes t cs) : Int) -
        (overCategories (fun t => removedBytes t cs) : Int)) % 2 ^ 32 ∧
    ((s.get_usage_total.differenceBlock : Nat) : Int) =
      ((overCategories (fun t => insertedBlock t cs) : Int) -
        (overCategories (fun t => removedBlock t cs) : Int)) % 2 ^ 32 ∧
    (removedBytes c cs ≤ insertedBytes c cs →
      insertedBytes c cs - removedBytes c cs < 2 ^ 32 →
      (s.get_usage_alloc_type c).differenceBytes = insertedBytes c cs - removedBytes c cs) ∧
    (removedBlock c cs ≤ insertedBlock c cs →
      insertedBlock c cs - removedBlock c cs < 2 ^ 32 →
      (s.get_usage_alloc_type c).differenceBlock = insertedBlock c cs - removedBlock c cs) ∧
    (overCategories (fun t => removedBytes t cs) ≤ overCategories (fun t => insertedBytes t cs) →
      overCategories (fun t => insertedBytes t cs) -
        overCategories (fun t => removedBytes t cs) < 2 ^ 32 →
      s.get_usage_total.differenceBytes =
        overCategories (fun t => insertedBytes t cs) -
          overCategories (fun t => removedBytes t cs)) ∧
    (overCategories (fun t => removedBlock t cs) ≤ overCategories (fun t => insertedBlock t cs) →
      overCategories (fun t => insertedBlock t cs) -
        overCategories (fun t => removedBlock t cs) < 2 ^ 32 →
      s.get_usage_total.differenceBlock =
        overCategories (fun t => insertedBlock t cs) -
          overCategories (fun t => removedBlock t cs)) ∧
    ((s.get_usage_alloc_type c).m_physicalAlloc = insertedBytes c cs % 2 ^ 32 ∧
      (s.get_usage_alloc_type c).m_virtualAlloc = insertedBlock c cs % 2 ^ 32 ∧
      (s.get_usage_alloc_type c).m_physicalDealloc = removedBytes c cs % 2 ^ 32 ∧
      (s.get_usage_alloc_type c).m_virtualDealloc = removedBlock c cs % 2 ^ 32) ∧
    (s.get_usage_total.m_physicalAlloc =
        overCategories (fun t => insertedBytes t cs) % 2 ^ 32 ∧
      s.get_usage_total.m_virtualAlloc =
        overCategories (fun t => insertedBlock t cs) % 2 ^ 32 ∧
      s.get_usage_total.m_physicalDealloc =
        overCategories (fun t => removedBytes t cs) % 2 ^ 32 ∧
      s.get_usage_total.m_virtualDealloc =
        overCategories (fun t => removedBlock t cs) % 2 ^ 32) ∧
    (∀ last, usage_text (s.get_usage_alloc_type c) last =
      expected_usage_text (insertedBytes c cs) (insertedBlock c cs) (removedBytes c cs)
        (removedBlock c cs) last) ∧
    (∀ last, usage_text s.get_usage_total last =
      expected_usage_text (overCategories (fun t => insertedBytes t cs))
        (overCategories (fun t => insertedBlock t cs))
        (overCategories (fun t => removedBytes t cs))
        (overCategories (fun t => removedBlock t cs)) last) ∧
    (∀ om, (print_alloc_type s c om).1 =
      if print_alloc_type_rows s c om = [] then ""
      else header_text c om ++
        String.join ((print_alloc_type_rows s c om).map (fun r => row_text r.1 r.2 om)) ++
        expected_usage_text (insertedBytes c cs) (insertedBlock c cs) (removedBytes c cs)
          (removedBlock c cs) "\n\n") ∧
    (∀ om u, (print_alloc_all s om u).text =
      "MEMORY USAGE REPORT\n" ++ (print_alloc_type s AllocType.STL om).1 ++
        (print_alloc_type s AllocType.SHARED om).1 ++
        (print_alloc_type s AllocType.EXPLICIT om).1 ++
        ("TOTAL MEMORY USAGE\n" ++
          expected_usage_text (overCategories (fun t => insertedBytes t cs))
            (overCategories (fun t => insertedBlock t cs))
            (overCategories (fun t => removedBytes t cs))
            (overCategories (fun t => removedBlock t cs)) "\n")) := by
  obtain ⟨k1, k2, k3, k4, k5⟩ := run_counters cs init s h
  obtain ⟨p1, p2, p3, p4⟩ := k1 c
  obtain ⟨t1, t2, t3, t4⟩ := run_total_lt cs init s h (by decide)
  obtain ⟨c1, c2, c3, c4⟩ := run_type_lt cs init s h
    (by intro x; simp [init, memory_usage.zero]) c
  simp only [init, memory_usage.zero, Nat.zero_add] at p1 p2 p3 p4 k2 k3 k4 k5
  have d1 := sub32_int _ _ _ _ p1 p3
  have d2 := sub32_int _ _ _ _ p2 p4
  have d3 := sub32_int _ _ _ _ k2 k4
  have d4 := sub32_int _ _ _ _ k3 k5
  have e1 : (s.get_usage_alloc_type c).m_physicalAlloc = insertedBytes c cs % 2 ^ 32 := by
    rw [← p1]; exact (Nat.mod_eq_of_lt c1).symm
  have e2 : (s.get_usage_alloc_type c).m_virtualAlloc = insertedBlock c cs % 2 ^ 32 := by
    rw [← p2]; exact (Nat.mod_eq_of_lt c2).symm
  have e3 : (s.get_usage_alloc_type c).m_physicalDealloc = removedBytes c cs % 2 ^ 32 := by
    rw [← p3]; exact (Nat.mod_eq_of_lt c3).symm
  have e4 : (s.get_usage_alloc_type c).m_virtualDealloc = removedBlock c cs % 2 ^ 32 := by
    rw [← p4]; exact (Nat.mod_eq_of_lt c4).symm
  have f1 : s.get_usage_total.m_physicalAlloc =
      overCategories (fun t => insertedBytes t cs) % 2 ^ 32 := by
    rw [← k2]; exact (Nat.mod_eq_of_lt t1).symm
  have f2 : s.get_usage_total.m_virtualAlloc =
      overCategories (fun t => insertedBlock t cs) % 2 ^ 32 := by
    rw [← k3]; exact (Nat.mod_eq_of_lt t2).symm
  have f3 : s.get_usage_total.m_physicalDealloc =
      overCategories (fun t => removedBytes t cs) % 2 ^ 32 := by
    rw [← k4]; exact (Nat.mod_eq_of_lt t3).symm
  have f4 : s.get_usage_total.m_virtualDealloc =
      overCategories (fun t => removedBlock t cs) % 2 ^ 32 := by
    rw [← k5]; exact (Nat.mod_eq_of_lt t4).symm
  have u1 := fun last => usage_text_of_sums (s.get_usage_alloc_type c) _ _ _ _ last e1 e2 e3 e4
  have u2 := fun last => usage_text_of_sums s.get_usage_total _ _ _ _ last f1 f2 f3 f4
  refine ⟨d1, d2, d3, d4, ?_, ?_, ?_, ?_, ⟨e1, e2, e3, e4⟩, ⟨f1, f2, f3, f4⟩, u1, u2, ?_, ?_⟩
  · intro h1 h2
    simp only [get_usage_alloc_type, memory_usage.differenceBytes] at d1 ⊢
    omega
  · intro h1 h2
    simp only [get_usage_alloc_type, memory_usage.differenceBlock] at d2 ⊢
    omega
  · intro h1 h2
    simp only [get_usage_total, memory_usage.differenceBytes] at d3 ⊢
    omega
  · intro h1 h2
    simp only [get_usage_total, memory_usage.differenceBlock] at d4 ⊢
    omega
  · intro om
    rw [print_alloc_type_text_rows, u1]
  · intro om u
    rw [print_alloc_all_text, u2]

set_option maxRecDepth 1000000 in
/-- Witness of `difference_mod`: after `insert(1, 4294967295, 16, STL, "")`,
`remove(1, 4294967295, 16, STL)` and `insert(2, 10, 16, STL, "")` the STL
allocated counter has wrapped to `9`, the deallocated counter is `4294967295`,
and the Difference, in the state and in the lines the report prints, is the
true outstanding amount `10`. -/
theorem difference_mod_witness :
    ∃ s, run init [Call.insert 1 4294967295 16 AllocType.STL "",
        Call.remove 1 4294967295 16 AllocType.STL,
        Call.insert 2 10 16 AllocType.STL ""] = Except.ok s ∧
      (s.get_usage_alloc_type AllocType.STL).m_physicalAlloc = 9 ∧
      (s.get_usage_alloc_type AllocType.STL).m_physicalDealloc = 4294967295 ∧
      (s.get_usage_alloc_type AllocType.STL).differenceBytes = 10 ∧
      (s.get_usage_alloc_type AllocType.STL).differenceBytes =
        insertedBytes AllocType.STL [Call.insert 1 4294967295 16 AllocType.STL "",
          Call.remove 1 4294967295 16 AllocType.STL,
          Call.insert 2 10 16 AllocType.STL ""] -
        removedBytes AllocType.STL [Call.insert 1 4294967295 16 AllocType.STL "",
          Call.remove 1 4294967295 16 AllocType.STL,
          Call.insert 2 10 16 AllocType.STL ""] ∧
      usage_text (s.get_usage_alloc_type AllocType.STL) "\n\n" =
        "Allocated:            9 B        (32 B)\n" ++
        "Deallocated:       4.00 G        (16 B)\n" ++
        "Difference:          10 B        (16 B)\n\n" :=
  ⟨_, rfl, by decide, by decide, by decide,
    (difference_mod [Call.insert 1 4294967295 16 AllocType.STL "",
      Call.remove 1 4294967295 16 AllocType.STL,
      Call.insert 2 10 16 AllocType.STL ""] _ AllocType.STL rfl).2.2.2.2.1
      (by decide) (by decide),
    ((difference_mod [Call.insert 1 4294967295 16 AllocType.STL "",
      Call.remove 1 4294967295 16 AllocType.STL,
      Call.insert 2 10 16 AllocType.STL ""] _ AllocType.STL rfl).2.2.2.2.2.2.2.2.2.2.1
      "\n\n").trans (by decide)⟩

/-! ## Caller signatures do not influence the ledger -/

theorem callerEquiv_refl (s : memory_log) : CallerEquiv s s := ⟨fun _ => rfl, rfl, rfl⟩

theorem callerEquiv_insert (s1 s2 : memory_log) (a b bl : Nat) (t : AllocType)
    (f1 f2 : String) (h : CallerEquiv s1 s2) :
    CallerEquiv (s1.insert a b bl t f1) (s2.insert a b bl t f2) := by
  obtain ⟨hl, hu, ht⟩ := h
  refine ⟨fun k => ?_, ?_, ?_⟩
  · by_cases hk : k = a
    · subst hk
      simp only [memory_log.insert, AList.lookup_insert, Option.map_some',
        memory_alloc_info.dropCaller]
    · simp only [memory_log.insert, AList.lookup_insert_ne hk]
      exact hl k
  · simp only [memory_log.insert, hu]
  · simp only [memory_log.insert, ht]

/-- Related states give related records under every address. -/
theorem callerEquiv_lookup (s1 s2 : memory_log) (h : CallerEquiv s1 s2) (k : Nat) :
    (s1.s_memory.lookup k = none ∧ s2.s_memory.lookup k = none) ∨
    ∃ e1 e2, s1.s_memory.lookup k = some e1 ∧ s2.s_memory.lookup k = some e2 ∧
      e1.m_allocBytes = e2.m_allocBytes ∧ e1.m_allocBlock = e2.m_allocBlock ∧
      e1.m_deallocBytes = e2.m_deallocBytes ∧ e1.m_deallocBlock = e2.m_deallocBlock ∧
      e1.m_allocType = e2.m_allocType := by
  have hk := h.1 k
  cases h1 : s1.s_memory.lookup k with
  | none =>
    cases h2 : s2.s_memory.lookup k with
    | none => exact Or.inl ⟨rfl, rfl⟩
    | some e2 => rw [h1, h2] at hk; exact absurd hk (by simp)
  | some e1 =>
    cases h2 : s2.s_memory.lookup k with
    | none => rw [h1, h2] at hk; exact absurd hk (by simp)
    | some e2 =>
      rw [h1, h2] at hk
      simp only [Option.map_some', Option.some.injEq, memory_alloc_info.dropCaller,
        memory_alloc_info.mk.injEq] at hk
      exact Or.inr ⟨e1, e2, rfl, rfl, hk.1, hk.2.1, hk.2.2.1, hk.2.2.2.1, hk.2.2.2.2.1⟩

theorem callerEquiv_get_alloc_bytes (s1 s2 : memory_log) (h : CallerEquiv s1 s2) (a : Nat) :
    s1.get_alloc_bytes a = s2.get_alloc_bytes a := by
  rcases callerEquiv_lookup s1 s2 h a with ⟨h1, h2⟩ | ⟨e1, e2, h1, h2, hb, _⟩
  · simp only [memory_log.get_alloc_bytes, h1, h2]
  · simp only [memory_log.get_alloc_bytes, h1, h2, hb]

theorem callerEquiv_remove (s1 s2 : memory_log) (a b bl : Nat) (t : AllocType)
    (h : CallerEquiv s1 s2) :
    (∃ e, s1.remove a b bl t = Except.error e ∧ s2.remove a b bl t = Except.error e) ∨
    (∃ r1 r2, s1.remove a b bl t = Except.ok r1 ∧ s2.remove a b bl t = Except.ok r2 ∧
      CallerEquiv r1 r2) := by
  rcases callerEquiv_lookup s1 s2 h a with ⟨h1, h2⟩ | ⟨e1, e2, h1, h2, hb, hbl, _, _, hty⟩
  · exact Or.inl ⟨AssertFailure.UnknownAddress, by simp [memory_log.remove, h1],
      by simp [memory_log.remove, h2]⟩
  · by_cases hc : e1.m_allocType = t
    · have hc2 : e2.m_allocType = t := hty ▸ hc
      refine Or.inr ⟨_, _, (remove_ok_iff s1 _ a b bl t).2 ⟨e1, h1, hc, rfl⟩,
        (remove_ok_iff s2 _ a b bl t).2 ⟨e2, h2, hc2, rfl⟩, fun k => ?_, ?_, ?_⟩
      · simp only [lookup_replace]
        by_cases hk : k = a
        · simp only [hk, if_true, h1, h2, Option.map_some', memory_alloc_info.dropCaller, hb,
            hbl, hty]
        · simp only [if_neg hk]
          exact h.1 k
      · simp only [h.2.1]
      · simp only [h.2.2]
    · have hc2 : ¬ e2.m_allocType = t := hty ▸ hc
      exact Or.inl ⟨AssertFailure.CategoryMismatch, by simp [memory_log.remove, h1, hc],
        by simp [memory_log.remove, h2, hc2]⟩

/-- Two runs that differ only in caller signatures, from related states. -/
theorem runLedger_callerEquiv : ∀ (cs1 cs2 : List LedgerCall) (s1 s2 : memory_log),
    cs1.map dropCaller = cs2.map dropCaller → CallerEquiv s1 s2 →
    (runLedger s1 cs1).failure = (runLedger s2 cs2).failure ∧
    (runLedger s1 cs1).performed = (runLedger s2 cs2).performed ∧
    (runLedger s1 cs1).returned = (runLedger s2 cs2).returned ∧
    CallerEquiv (runLedger s1 cs1).state (runLedger s2 cs2).state := by
  intro cs1
  induction cs1 with
  | nil =>
    intro cs2 s1 s2 hcs h
    cases cs2 with
    | nil => exact ⟨rfl, rfl, rfl, h⟩
    | cons c cs => simp at hcs
  | cons c1 cs1 ih =>
    intro cs2 s1 s2 hcs h
    cases cs2 with
    | nil => simp at hcs
    | cons c2 cs2 =>
      simp only [List.map_cons, List.cons.injEq] at hcs
      obtain ⟨hc, hrest⟩ := hcs
      cases c1 with
      | insert a b bl t f =>
        cases c2 with
        | insert a2 b2 bl2 t2 f2 =>
          simp only [dropCaller, LedgerCall.insert.injEq, and_true] at hc
          obtain ⟨rfl, rfl, rfl, rfl⟩ := hc
          have := ih cs2 _ _ hrest (callerEquiv_insert s1 s2 a b bl t f f2 h)
          simp only [runLedger, ledgerStep]
          exact ⟨this.1, by rw [this.2.1], by rw [this.2.2.1], this.2.2.2⟩
        | remove a2 b2 bl2 t2 => simp [dropCaller] at hc
        | get_alloc_bytes a2 => simp [dropCaller] at hc
      | remove a b bl t =>
        cases c2 with
        | insert a2 b2 bl2 t2 f2 => simp [dropCaller] at hc
        | remove a2 b2 bl2 t2 =>
          simp only [dropCaller, LedgerCall.remove.injEq] at hc
          obtain ⟨rfl, rfl, rfl, rfl⟩ := hc
          rcases callerEquiv_remove s1 s2 a b bl t h with ⟨e, h1, h2⟩ | ⟨r1, r2, h1, h2, hr⟩
          · simp only [runLedger, ledgerStep, h1, h2]
            exact ⟨trivial, trivial, trivial, h⟩
          · have := ih cs2 r1 r2 hrest hr
            simp only [runLedger, ledgerStep, h1, h2]
            exact ⟨this.1, by rw [this.2.1], by rw [this.2.2.1], this.2.2.2⟩
        | get_alloc_bytes a2 => simp [dropCaller] at hc
      | get_alloc_bytes a =>
        cases c2 with
        | insert a2 b2 bl2 t2 f2 => simp [dropCaller] at hc
        | remove a2 b2 bl2 t2 => simp [dropCaller] at hc
        | get_alloc_bytes a2 =>
          simp only [dropCaller, LedgerCall.get_alloc_bytes.injEq] at hc
          subst hc
          have hg := callerEquiv_get_alloc_bytes s1 s2 h a
          cases hx : s2.get_alloc_bytes a with
          | error e =>
            rw [hx] at hg
            simp only [runLedger, ledgerStep, hg, hx]
            exact ⟨trivial, trivial, trivial, h⟩
          | ok n =>
            rw [hx] at hg
            have := ih cs2 s1 s2 hrest h
            simp only [runLedger, ledgerStep, hg, hx]
            exact ⟨this.1, by rw [this.2.1], by rw [this.2.2.1], this.2.2.2⟩

/-- Related states collect the same sorted addresses for a category. -/
theorem callerEquiv_vec_mem (s1 s2 : memory_log) (h : CallerEquiv s1 s2) (t : AllocType) :
    vec_mem s1 t = vec_mem s2 t := by
  have hmem : ∀ k, k ∈ vec_mem s1 t ↔ k ∈ vec_mem s2 t := by
    intro k
    rw [mem_vec_mem, mem_vec_mem]
    rcases callerEquiv_lookup s1 s2 h k with ⟨h1, h2⟩ | ⟨e1, e2, h1, h2, _, _, _, _, hty⟩
    · simp [h1, h2]
    · simp [h1, h2, hty]
  have hn1 : (vec_mem s1 t).Nodup := (vec_mem_descending s1 t).imp (fun hlt => Nat.ne_of_gt hlt)
  have hn2 : (vec_mem s2 t).Nodup := (vec_mem_descending s2 t).imp (fun hlt => Nat.ne_of_gt hlt)
  have hperm : (vec_mem s1 t).Perm (vec_mem s2 t) := (List.perm_ext_iff_of_nodup hn1 hn2).2 hmem
  have hs1 : (vec_mem s1 t).Sorted (· ≥ ·) :=
    (vec_mem_descending s1 t).imp (fun hlt => Nat.le_of_lt hlt)
  have hs2 : (vec_mem s2 t).Sorted (· ≥ ·) :=
    (vec_mem_descending s2 t).imp (fun hlt => Nat.le_of_lt hlt)
  exact List.eq_of_perm_of_sorted hperm hs1 hs2

/-- Related states render rows for the same addresses, in the same order. -/
theorem callerEquiv_rows (s1 s2 : memory_log) (h : CallerEquiv s1 s2) (t : AllocType)
    (om : Bool) :
    (print_alloc_type_rows s1 t om).map Prod.fst =
      (print_alloc_type_rows s2 t om).map Prod.fst := by
  unfold print_alloc_type_rows
  rw [callerEquiv_vec_mem s1 s2 h t, List.map_filterMap, List.map_filterMap]
  congr 1
  funext k
  rcases callerEquiv_lookup s1 s2 h k with ⟨h1, h2⟩ | ⟨e1, e2, h1, h2, hb, hbl, hd, hdl, _⟩
  · simp only [h1, h2]
  · simp only [h1, h2, Option.getD_some, hb, hbl, hd, hdl]
    split_ifs <;> rfl

/-- C21: caller attribution never affects correctness.  For two runs of the
same sequence of insert / remove / get_alloc_bytes calls from the same ledger
state that differ only in the caller-signature strings passed to insert, every
call succeeds or fails identically (the same number of calls return, with the
same returned values, and the same assertion, if any, stops both runs), the
resulting counters are identical, the same addresses are recorded, each record
has the same bytes, block, deallocation fields and category, and the report
rows are rendered for the same addresses (the omit decision of each record is
the same). -/
theorem caller_noninterference (s : memory_log) (cs1 cs2 : List LedgerCall)
    (h : cs1.map dropCaller = cs2.map dropCaller) :
    (runLedger s cs1).failure = (runLedger s cs2).failure ∧
    (runLedger s cs1).performed = (runLedger s cs2).performed ∧
    (runLedger s cs1).returned = (runLedger s cs2).returned ∧
    (∀ c, (runLedger s cs1).state.get_usage_alloc_type c =
      (runLedger s cs2).state.get_usage_alloc_type c) ∧
    (runLedger s cs1).state.get_usage_total = (runLedger s cs2).state.get_usage_total ∧
    (∀ k, (runLedger s cs1).state.s_memory.lookup k = none ↔
      (runLedger s cs2).state.s_memory.lookup k = none) ∧
    (∀ k e1, (runLedger s cs1).state.s_memory.lookup k = some e1 →
      ∃ e2, (runLedger s cs2).state.s_memory.lookup k = some e2 ∧
        e1.m_allocBytes = e2.m_allocBytes ∧ e1.m_allocBlock = e2.m_allocBlock ∧
        e1.m_deallocBytes = e2.m_deallocBytes ∧ e1.m_deallocBlock = e2.m_deallocBlock ∧
        e1.m_allocType = e2.m_allocType) ∧
    (∀ t om, (print_alloc_type_rows (runLedger s cs1).state t om).map Prod.fst =
      (print_alloc_type_rows (runLedger s cs2).state t om).map Prod.fst) := by
  obtain ⟨h1, h2, h3, h4⟩ := runLedger_callerEquiv cs1 cs2 s s h (callerEquiv_refl s)
  refine ⟨h1, h2, h3, fun c => ?_, h4.2.2, fun k => ?_, fun k e1 hk => ?_,
    fun t om => callerEquiv_rows _ _ h4 t om⟩
  · simp only [get_usage_alloc_type, h4.2.1]
  · rcases callerEquiv_lookup _ _ h4 k with ⟨a1, a2⟩ | ⟨e1, e2, a1, a2, _⟩
    · simp [a1, a2]
    · simp [a1, a2]
  · rcases callerEquiv_lookup _ _ h4 k with ⟨a1, a2⟩ | ⟨x1, x2, a1, a2, hx⟩
    · rw [a1] at hk
      exact absurd hk (by simp)
    · rw [a1] at hk
      injection hk with hk
      subst hk
      exact ⟨x2, a2, hx⟩

/-- Witness of `caller_noninterference`: Scenario A followed by a remove on an
unknown address, once with the callers `"f"` and `"g"` and once with
`"main.cpp:58: main"` and `""`; both runs perform four calls, return `40` from
the size lookup and stop on the lookup assertion. -/
theorem caller_noninterference_witness :
    (runLedger init [LedgerCall.insert 0x1000 40 48 AllocType.EXPLICIT "f",
        LedgerCall.insert 0x2000 8 8 AllocType.STL "g", LedgerCall.get_alloc_bytes 0x1000,
        LedgerCall.remove 0x1000 40 48 AllocType.EXPLICIT,
        LedgerCall.remove 0x3000 1 1 AllocType.STL]).failure =
      some AssertFailure.UnknownAddress ∧
    (runLedger init [LedgerCall.insert 0x1000 40 48 AllocType.EXPLICIT "f",
        LedgerCall.insert 0x2000 8 8 AllocType.STL "g", LedgerCall.get_alloc_bytes 0x1000,
        LedgerCall.remove 0x1000 40 48 AllocType.EXPLICIT,
        LedgerCall.remove 0x3000 1 1 AllocType.STL]).returned =
      [none, none, some 40, none] ∧
    (runLedger init [LedgerCall.insert 0x1000 40 48 AllocType.EXPLICIT "f",
        LedgerCall.insert 0x2000 8 8 AllocType.STL "g", LedgerCall.get_alloc_bytes 0x1000,
        LedgerCall.remove 0x1000 40 48 AllocType.EXPLICIT,
        LedgerCall.remove 0x3000 1 1 AllocType.STL]).returned =
      (runLedger init [LedgerCall.insert 0x1000 40 48 AllocType.EXPLICIT "main.cpp:58: main",
        LedgerCall.insert 0x2000 8 8 AllocType.STL "", LedgerCall.get_alloc_bytes 0x1000,
        LedgerCall.remove 0x1000 40 48 AllocType.EXPLICIT,
        LedgerCall.remove 0x3000 1 1 AllocType.STL]).returned :=
  ⟨by decide, by decide,
    (caller_noninterference init
      [LedgerCall.insert 0x1000 40 48 AllocType.EXPLICIT "f",
        LedgerCall.insert 0x2000 8 8 AllocType.STL "g", LedgerCall.get_alloc_bytes 0x1000,
        LedgerCall.remove 0x1000 40 48 AllocType.EXPLICIT,
        LedgerCall.remove 0x3000 1 1 AllocType.STL]
      [LedgerCall.insert 0x1000 40 48 AllocType.EXPLICIT "main.cpp:58: main",
        LedgerCall.insert 0x2000 8 8 AllocType.STL "", LedgerCall.get_alloc_bytes 0x1000,
        LedgerCall.remove 0x1000 40 48 AllocType.EXPLICIT,
        LedgerCall.remove 0x3000 1 1 AllocType.STL] (by decide)).2.2.1⟩

/-! ## The pending caller signature of a resource -/

/-- A run of calls through a resource leaves the resource as it was. -/
theorem runCalls_self : ∀ (calls : List ResourceCall) (self r1 : MemoryResource)
    (malloc_size_func : Nat → Nat) (w w1 : World),
    self.runCalls malloc_size_func w calls = Except.ok (r1, w1) → r1 = self := by
  intro calls
  induction calls with
  | nil =>
    intro self r1 msize w w1 h
    simp only [MemoryResource.runCalls, Except.ok.injEq, Prod.mk.injEq] at h
    exact h.1.symm
  | cons c cs ih =>
    intro self r1 msize w w1 h
    cases c with
    | allocate b al p =>
      simp only [MemoryResource.runCalls] at h
      exact ih _ _ _ _ _ h
    | deallocate p b al =>
      simp only [MemoryResource.runCalls, MemoryResource.do_deallocate] at h
      cases hx : self.m_removeFunc w.log p (u32 b) (u32 (msize p)) self.m_allocType with
      | error e => rw [hx] at h; exact absurd h (by simp)
      | ok log1 =>
        rw [hx] at h
        exact ih _ _ _ _ _ h

/-- The assignment in `set_caller_signature` keeps a text without NUL. -/
theorem set_caller_signature_eq (self : MemoryResource) (sig : String)
    (hsig : Char.ofNat 0 ∉ sig.data) :
    (self.set_caller_signature sig).m_lastCaller = sig := by
  simp only [MemoryResource.set_caller_signature]
  have : sig.data.takeWhile (fun ch => decide (ch ≠ Char.ofNat 0)) = sig.data := by
    rw [List.takeWhile_eq_self_iff]
    intro ch hch
    have : ch ≠ Char.ofNat 0 := fun h0 => hsig (h0 ▸ hch)
    simpa using this
  rw [this]

/-- C24: `do_allocate` and `do_deallocate` never modify a `MemoryResource`'s
pending caller signature (nor any other member).  So for a resource issued by
the pool for a container, with the signature `s` set at container creation,
after any run of allocations and deallocations through it (growth of the
container included) the pending signature is still `s`, and every later
allocation made through it is recorded in the ledger with caller `s`, until
`set_caller_signature` is called again. -/
theorem caller_signature_survives (handler : STLMemoryResourceHandler) (store : ResourceStore)
    (ptr new_delete_resource : Nat) (_c_file _c_line _c_fnc : String)
    (malloc_size_func : Nat → Nat) (w w1 : World) (calls : List ResourceCall)
    (rsrc r1 : MemoryResource)
    (hsig : Char.ofNat 0 ∉
      (get_caller_signature _c_file _c_line _c_fnc "Syn::vector<>").data)
    (hrsrc : (_syn_vector handler store ptr new_delete_resource _c_file _c_line
      _c_fnc).2.2.lookup ptr = some rsrc)
    (hrun : rsrc.runCalls malloc_size_func w calls = Except.ok (r1, w1)) :
    (∀ (self : MemoryResource) (w0 : World) (b al p : Nat),
      (self.do_allocate malloc_size_func w0 b al p).self = self) ∧
    (∀ (self self1 : MemoryResource) (w0 w2 : World) (p b al : Nat),
      self.do_deallocate malloc_size_func w0 p b al = Except.ok (self1, w2) → self1 = self) ∧
    rsrc.m_lastCaller = get_caller_signature _c_file _c_line _c_fnc "Syn::vector<>" ∧
    rsrc.m_allocType = AllocType.STL ∧
    r1 = rsrc ∧
    r1.m_lastCaller = get_caller_signature _c_file _c_line _c_fnc "Syn::vector<>" ∧
    (∀ b al p,
      ((r1.do_allocate malloc_size_func w1 b al p).world.log.s_memory.lookup p).map
        (fun info => info.m_callerFnc) =
        some (get_caller_signature _c_file _c_line _c_fnc "Syn::vector<>")) ∧
    (∀ sig b al p,
      (((r1.set_caller_signature sig).do_allocate malloc_size_func w1 b al
        p).world.log.s_memory.lookup p).map (fun info => info.m_callerFnc) =
        some (r1.set_caller_signature sig).m_lastCaller) := by
  have hobj : rsrc = (MemoryResource.construct memory_log.insert memory_log.remove
      AllocType.STL new_delete_resource).set_caller_signature
      (get_caller_signature _c_file _c_line _c_fnc "Syn::vector<>") := by
    simp only [_syn_vector, STLMemoryResourceHandler.getNewMemoryResource,
      AList.lookup_insert, Option.some.injEq] at hrsrc
    exact hrsrc.symm
  have hcaller : rsrc.m_lastCaller =
      get_caller_signature _c_file _c_line _c_fnc "Syn::vector<>" := by
    rw [hobj]
    exact set_caller_signature_eq _ _ hsig
  have hins : rsrc.m_insertFunc = memory_log.insert := by rw [hobj]; rfl
  have hr1 : r1 = rsrc := runCalls_self calls rsrc r1 malloc_size_func w w1 hrun
  refine ⟨fun _ _ _ _ _ => rfl, ?_, hcaller, by rw [hobj]; rfl, hr1, by rw [hr1, hcaller], ?_,
    ?_⟩
  · intro self self1 w0 w2 p b al h
    simp only [MemoryResource.do_deallocate] at h
    cases hx : self.m_removeFunc w0.log p (u32 b) (u32 (malloc_size_func p))
        self.m_allocType with
    | error e => rw [hx] at h; exact absurd h (by simp)
    | ok log1 =>
      rw [hx] at h
      simp only [Except.ok.injEq, Prod.mk.injEq] at h
      exact h.1.symm
  · intro b al p
    rw [hr1]
    simp only [MemoryResource.do_allocate, hins, memory_log.insert, AList.lookup_insert,
      Option.map_some', hcaller]
  · intro sig b al p
    rw [hr1]
    have hins2 : (rsrc.set_caller_signature sig).m_insertFunc = memory_log.insert := hins
    simp only [MemoryResource.do_allocate, hins2, memory_log.insert, AList.lookup_insert,
      Option.map_some']

/-- Witness of `caller_signature_survives`: a vector created at `main.cpp:36`
allocates 4 bytes at `0x1000`, grows to 8 bytes at `0x2000` and frees the
first block; the next allocation is still recorded with the signature of the
creation site. -/
theorem caller_signature_survives_witness :
    ∃ r1 w1,
      ((MemoryResource.construct memory_log.insert memory_log.remove AllocType.STL
          0).set_caller_signature
            (get_caller_signature "main.cpp" "36" "main" "Syn::vector<>")).runCalls
          (fun _ => 24) ⟨init, []⟩
          [ResourceCall.allocate 4 16 0x1000, ResourceCall.allocate 8 16 0x2000,
            ResourceCall.deallocate 0x1000 4 16] = Except.ok (r1, w1) ∧
      ((r1.do_allocate (fun _ => 24) w1 16 16 0x3000).world.log.s_memory.lookup 0x3000).map
          (fun info => info.m_callerFnc) =
        some "main.cpp:36: main        Syn::vector<>" :=
  ⟨_, _, rfl,
    ((caller_signature_survives ⟨[]⟩ ∅ 0x5000 0 "main.cpp" "36" "main" (fun _ => 24)
      ⟨init, []⟩ _
      [ResourceCall.allocate 4 16 0x1000, ResourceCall.allocate 8 16 0x2000,
        ResourceCall.deallocate 0x1000 4 16]
      ((MemoryResource.construct memory_log.insert memory_log.remove AllocType.STL
        0).set_caller_signature (get_caller_signature "main.cpp" "36" "main" "Syn::vector<>"))
      _ (by decide) rfl rfl).2.2.2.2.2.2.1 16 16 0x3000).trans (by decide)⟩

end Syn
